import Mathlib

/-! # usermanagement: the partial-update service, its HTTP mapping and its MySQL repository

A shallow embedding of the Go sources

* `internal/domain/id.go`, `internal/domain/user/{error,model,repo}.go`
* `internal/application/service/user.go`
* `internal/infrastructure/httpserver/handlers/http_user.go`
* `internal/infrastructure/database/mysql/repo_user.go`

Conventions of the embedding.

* A Go `error` is a value of `Err`; the `nil` error is `none : Option Err`.
* A `*string` of a DTO is an `Option String`; `nil` is `none`.
* A `map[string]any` is an association list with distinct keys (`Fields`).
* Code that talks to a collaborator (the repository behind the service, the
  database driver behind the repository) threads an explicit state `σ` of that
  collaborator: a call takes the state before and returns its result with the
  state after.
* `logger.Debug` / `logger.Error` only write to the logging sink and are left out.
* Go `int` values are `Int`; no claim of this development depends on overflow.
* The handlers answer with a `Response` (status code and the value given to `c.JSON`);
  the libraries they call (`uuid.Parse`, the JSON binder, the validator, `bcrypt`) are
  parameters.  A bound update request holds its addresses as the source does, a slice of
  pointers (`updateUserRequestBound`), and a run of `UpdateUser` ends with an `Outcome`: a
  response, or the panic of the address loop on a nil entry.
* What is visible in the database after a repository call is read off `store.Store`, a
  model of the two tables with autocommit pools and transactions, behind `store.driver`.
* The service and the repository take the parser of identifiers as a parameter; the claims
  about the identifier itself are stated on `uuid.Parse`, the parser of
  `github.com/google/uuid` embedded after its documentation and source, on the bytes of
  the text.  `strconv.Atoi` is embedded the same way for the list handler.
-/

set_option autoImplicit false

/-- Instants of `time.Time`, as a number on the time line. -/
abbrev Time := Int

/-! ## Errors (`errors`, `fmt.Errorf`, `internal/domain/user/error.go`) -/

/-- Go error values.  The first four are the sentinels of `user/error.go`;
`ErrNoRows` is `sql.ErrNoRows`; `MySQLError` is `*mysql.MySQLError`; `New text` is
any other error without a cause, such as `errors.New(text)` or a `fmt.Errorf`
without `%w`; `Wrap context err` is `fmt.Errorf(context + ": %w", err)`.  Two error
values are the same value when they are the same term. -/
inductive Err where
  | ErrEmailAlreadyExists
  | ErrAddressAlreadyExists
  | ErrNotFound
  | ErrAddressNotFound
  | ErrNoRows
  | MySQLError (Number : Nat) (Message : String)
  | New (text : String)
  | Wrap (context : String) (err : Err)
deriving DecidableEq, Repr

namespace Err

/-- The text of an error, `err.Error()`. -/
def Error : Err → String
  | ErrEmailAlreadyExists => "email already exists"
  | ErrAddressAlreadyExists => "address of this type already exists"
  | ErrNotFound => "user not found"
  | ErrAddressNotFound => "address not found"
  | ErrNoRows => "sql: no rows in result set"
  | MySQLError n m => "Error " ++ toString n ++ ": " ++ m
  | New text => text
  | Wrap context err => context ++ ": " ++ err.Error

/-- The function `errors.Is(err, target)`: `err` or one of the errors it wraps is `target`. -/
def Is : Err → Err → Bool
  | Wrap context err, target =>
      if Wrap context err = target then true else err.Is target
  | err, target => decide (err = target)

/-- The function `errors.As(err, &mysqlErr)`: the number of the first `MySQLError` in the chain. -/
def AsMySQLError : Err → Option Nat
  | MySQLError n _ => some n
  | Wrap _ err => err.AsMySQLError
  | _ => none

end Err

/-- The text `sub` occurs in `s` (`strings.Contains`, `assert.Contains`). -/
def containsText (s sub : String) : Prop :=
  ∃ before after : String, s = before ++ sub ++ after

/-- The lowercase form of a text (what `strings.ToLower` gives on ASCII letters): the
normal form of an email in the words of the specification. -/
def lowercase (s : String) : String := String.mk (s.toList.map Char.toLower)

/-! ## Identifier (`internal/domain/id.go`) -/

namespace uuid

/-- The type `uuid.UUID` of `github.com/google/uuid`: 16 bytes, read as a 128-bit number,
most significant byte first. -/
abbrev UUID := Fin (2 ^ 128)

/-- The all-zero value `uuid.Nil`. -/
def Nil : UUID := 0

/-- Byte `i` (0 to 15) of a UUID. -/
def UUID.byte (u : UUID) (i : Nat) : Nat := u.val / 256 ^ (15 - i) % 256

/-- Two lower-case hexadecimal digits of a byte. -/
def hexByte (b : Nat) : List Char :=
  ["0123456789abcdef".toList.getD (b / 16 % 16) '0', "0123456789abcdef".toList.getD (b % 16) '0']

/-- Hexadecimal digits of the bytes `i, i+1, ..., i+n-1`. -/
def UUID.hex (u : UUID) (i n : Nat) : List Char :=
  ((List.range n).map (fun k => hexByte (u.byte (i + k)))).flatten

/-- The method `UUID.String()`: the form xxxxxxxx-xxxx-xxxx-xxxx-xxxxxxxxxxxx. -/
def UUID.String (u : UUID) : String :=
  String.mk (u.hex 0 4 ++ ['-'] ++ u.hex 4 2 ++ ['-'] ++ u.hex 6 2 ++ ['-'] ++ u.hex 8 2
    ++ ['-'] ++ u.hex 10 6)

/-- The bytes of a character in UTF-8, the encoding of the text of a Go string. -/
def utf8 (c : Char) : List Nat :=
  if c.toNat < 0x80 then [c.toNat]
  else if c.toNat < 0x800 then [0xC0 + c.toNat / 64, 0x80 + c.toNat % 64]
  else if c.toNat < 0x10000 then
    [0xE0 + c.toNat / 4096, 0x80 + c.toNat / 64 % 64, 0x80 + c.toNat % 64]
  else
    [0xF0 + c.toNat / 262144, 0x80 + c.toNat / 4096 % 64, 0x80 + c.toNat / 64 % 64,
     0x80 + c.toNat % 64]

/-- The bytes of a Go string: `len(s)` is the length of this list and `s[i]` its element
`i`. -/
def bytes (s : String) : List Nat := s.toList.flatMap utf8

/-- The table `xvalues` of `github.com/google/uuid`: the value of a hexadecimal digit, of
either case, and 255 for every other byte. -/
def xvalues (b : Nat) : Nat :=
  if 48 ≤ b ∧ b ≤ 57 then b - 48
  else if 65 ≤ b ∧ b ≤ 70 then b - 55
  else if 97 ≤ b ∧ b ≤ 102 then b - 87
  else 255

/-- The function `xtob` of `github.com/google/uuid`: the byte of two hexadecimal digits,
`(b1 << 4) | b2`; none when one of them is not a hexadecimal digit. -/
def xtob (x1 x2 : Nat) : Option Nat :=
  if xvalues x1 ≠ 255 ∧ xvalues x2 ≠ 255 then some ((xvalues x1 * 16 % 256) ||| xvalues x2)
  else none

/-- The bytes read with `xtob` at the given offsets of `s`; none when one pair is not two
hexadecimal digits. -/
def decode (s : List Nat) : List Nat → Option (List Nat)
  | [] => some []
  | x :: rest =>
      match xtob (s.getD x 0) (s.getD (x + 1) 0) with
      | none => none
      | some v =>
          match decode s rest with
          | none => none
          | some vs => some (v :: vs)

/-- The UUID of its 16 bytes, most significant first. -/
def fromBytes (bs : List Nat) : UUID :=
  ⟨bs.foldl (fun acc b => acc * 256 + b) 0 % 2 ^ 128, Nat.mod_lt _ (Nat.two_pow_pos 128)⟩

/-- The end of `Parse`, for a text that is "now at least 36 bytes long": hyphens at the
offsets 8, 13, 18 and 23, and 16 pairs of hexadecimal digits. -/
def parseHyphenated (s : List Nat) : Except Err UUID :=
  if s.getD 8 0 ≠ 45 ∨ s.getD 13 0 ≠ 45 ∨ s.getD 18 0 ≠ 45 ∨ s.getD 23 0 ≠ 45 then
    .error (Err.New "invalid UUID format")
  else
    match decode s [0, 2, 4, 6, 9, 11, 14, 16, 19, 21, 24, 26, 28, 30, 32, 34] with
    | none => .error (Err.New "invalid UUID format")
    | some bs => .ok (fromBytes bs)

/-- An upper-case ASCII letter made lower-case; every other byte as it is. -/
def lowerByte (b : Nat) : Nat := if 65 ≤ b ∧ b ≤ 90 then b + 32 else b

/-- The function `Parse` of `github.com/google/uuid` on the bytes of its argument.  The
library is not part of the repository; this follows its documentation ("Both the standard
UUID forms ... xxxxxxxx-xxxx-xxxx-xxxx-xxxxxxxxxxxx and
urn:uuid:xxxxxxxx-xxxx-xxxx-xxxx-xxxxxxxxxxxx are decoded.  In addition, Parse accepts
non-standard strings such as the raw hex encoding xxxxxxxxxxxxxxxxxxxxxxxxxxxxxxxx and 38
byte "Microsoft style" encodings ...  Only the middle 36 bytes are examined in the latter
case") and its source: a switch on the length, 36, 36 + 9 with the prefix "urn:uuid:" in
any letter case, 36 + 2 with the first byte dropped, 32 without hyphens.  The text of the
prefix error is given without the quoted prefix. -/
def parseBytes (s : List Nat) : Except Err UUID :=
  if s.length = 36 then parseHyphenated s
  else if s.length = 36 + 9 then
    if (s.take 9).map lowerByte ≠ bytes "urn:uuid:" then .error (Err.New "invalid urn prefix")
    else parseHyphenated (s.drop 9)
  else if s.length = 36 + 2 then parseHyphenated (s.drop 1)
  else if s.length = 32 then
    match decode s [0, 2, 4, 6, 8, 10, 12, 14, 16, 18, 20, 22, 24, 26, 28, 30] with
    | none => .error (Err.New "invalid UUID format")
    | some bs => .ok (fromBytes bs)
  else .error (Err.New ("invalid UUID length: " ++ toString s.length))

/-- The function `Parse` of `github.com/google/uuid`, see `parseBytes`. -/
def Parse (s : String) : Except Err UUID := parseBytes (bytes s)

/-- The byte of the hexadecimal digit `k` in lower case: `'0' + k` below ten, `'a' + k - 10`
from ten on. -/
def hexCode (k : Nat) : Nat := if k < 10 then 48 + k else 87 + k

/-- The two lower-case hexadecimal digits of the byte `b`, as bytes of text. -/
def hexPair (b : Nat) : List Nat := [hexCode (b / 16 % 16), hexCode (b % 16)]

/-- The canonical textual form of the 16 bytes `b 0`, ..., `b 15`: 36 bytes, lower-case
hexadecimal digits in groups of 8, 4, 4, 4 and 12 with a hyphen between the groups. -/
def canonical (b : Nat → Nat) : List Nat :=
  hexPair (b 0) ++ hexPair (b 1) ++ hexPair (b 2) ++ hexPair (b 3) ++ [45]
    ++ hexPair (b 4) ++ hexPair (b 5) ++ [45]
    ++ hexPair (b 6) ++ hexPair (b 7) ++ [45]
    ++ hexPair (b 8) ++ hexPair (b 9) ++ [45]
    ++ hexPair (b 10) ++ hexPair (b 11) ++ hexPair (b 12) ++ hexPair (b 13)
    ++ hexPair (b 14) ++ hexPair (b 15)

/-- The 32 lower-case hexadecimal digits of the 16 bytes `b 0`, ..., `b 15`, without
hyphens. -/
def rawHex (b : Nat → Nat) : List Nat :=
  hexPair (b 0) ++ hexPair (b 1) ++ hexPair (b 2) ++ hexPair (b 3) ++ hexPair (b 4)
    ++ hexPair (b 5) ++ hexPair (b 6) ++ hexPair (b 7) ++ hexPair (b 8) ++ hexPair (b 9)
    ++ hexPair (b 10) ++ hexPair (b 11) ++ hexPair (b 12) ++ hexPair (b 13)
    ++ hexPair (b 14) ++ hexPair (b 15)

/-- A byte that is a hexadecimal digit of either case: '0' to '9', 'A' to 'F' or 'a' to
'f'. -/
def isHexDigit (b : Nat) : Prop :=
  (48 ≤ b ∧ b ≤ 57) ∨ (65 ≤ b ∧ b ≤ 70) ∨ (97 ≤ b ∧ b ≤ 102)

instance (b : Nat) : Decidable (isHexDigit b) :=
  inferInstanceAs (Decidable ((48 ≤ b ∧ b ≤ 57) ∨ (65 ≤ b ∧ b ≤ 70) ∨ (97 ≤ b ∧ b ≤ 102)))

/-- The offsets of the first digit of each of the 16 pairs in the hyphenated form. -/
def pairOffsets36 : List Nat := [0, 2, 4, 6, 9, 11, 14, 16, 19, 21, 24, 26, 28, 30, 32, 34]

/-- The offsets of the first digit of each of the 16 pairs in the form without hyphens. -/
def pairOffsets32 : List Nat := [0, 2, 4, 6, 8, 10, 12, 14, 16, 18, 20, 22, 24, 26, 28, 30]

/-- The hyphenated form, described by its bytes: a hyphen at each of the offsets 8, 13, 18
and 23 and a hexadecimal digit of either case at each of the 32 other offsets below 36. -/
def hyphenatedForm (s : List Nat) : Prop :=
  s.getD 8 0 = 45 ∧ s.getD 13 0 = 45 ∧ s.getD 18 0 = 45 ∧ s.getD 23 0 = 45
    ∧ ∀ x ∈ pairOffsets36, isHexDigit (s.getD x 0) ∧ isHexDigit (s.getD (x + 1) 0)

/-- The four textual forms of a UUID, described by their bytes: 36 bytes in the hyphenated
form; 45 bytes, the prefix "urn:uuid:" in any letter case and the hyphenated form after it;
38 bytes, the hyphenated form between a first and a last byte of any value; 32 hexadecimal
digits of either case. -/
def acceptedForm (s : List Nat) : Prop :=
  (s.length = 36 ∧ hyphenatedForm s)
    ∨ (s.length = 45 ∧ (s.take 9).map lowerByte = bytes "urn:uuid:" ∧ hyphenatedForm (s.drop 9))
    ∨ (s.length = 38 ∧ hyphenatedForm (s.drop 1))
    ∨ (s.length = 32
        ∧ ∀ x ∈ pairOffsets32, isHexDigit (s.getD x 0) ∧ isHexDigit (s.getD (x + 1) 0))

end uuid

namespace domain

/-- The type `ID`: a wrapper of the underlying identifier implementation. -/
structure ID where
  value : uuid.UUID
deriving DecidableEq, Repr

/-- The function `ParseID`.  The parser `uuid.Parse` of `github.com/google/uuid` is not part
of the repository and is the parameter `Parse`. -/
def ParseID (Parse : String → Except Err uuid.UUID) (id : String) : Except Err ID :=
  match Parse id with
  | .error err => .error err
  | .ok uuidValue => .ok { value := uuidValue }

/-- The method `ID.String`. -/
def ID.String (id : ID) : String := id.value.String

/-- The method `ID.Equal`. -/
def ID.Equal (id other : ID) : Bool := decide (id.value = other.value)

/-- The method `ID.IsEmpty`. -/
def ID.IsEmpty (id : ID) : Bool := decide (id.value = uuid.Nil)

/-- The method `ID.MarshalJSON`: the bytes of the text of the identifier between two double
quotes, and the nil error. -/
def ID.MarshalJSON (id : ID) : List Nat × Option Err :=
  (uuid.bytes ("\"" ++ id.value.String ++ "\""), none)

/-- The body of `ID.UnmarshalJSON` on its receiver variable `id`: the error it returns and
the value of `id` at the return.  It is none when the slice expression
`data[1 : len(data)-1]` panics, which it does for fewer than two bytes. -/
def ID.unmarshalBody (id : ID) (data : List Nat) : Option (Option Err × ID) :=
  if data.length < 2 then none
  else
    match uuid.parseBytes ((data.take (data.length - 1)).drop 1) with
    | .error err => some (some err, id)
    | .ok parsedID => some (none, { id with value := parsedID })

/-- The call `x.UnmarshalJSON(data)`, direct or through a pointer as `encoding/json` makes
it: the error it returns and the identifier `x` of the caller after the call.  The method
is declared with a value receiver (`func (id ID) UnmarshalJSON`), so its body works on a
copy of `x` and the caller keeps `x` as it was. -/
def ID.UnmarshalJSON (x : ID) (data : List Nat) : Option (Option Err × ID) :=
  match ID.unmarshalBody x data with
  | none => none
  | some (err, _) => some (err, x)

end domain

/-! ## Field mappings (`map[string]any`) -/

/-- A `map[string]any` whose values are strings: an association list with distinct keys. -/
abbrev Fields := List (String × String)

namespace Fields

/-- The lookup `m[key]`. -/
def get (m : Fields) (key : String) : Option String :=
  match m with
  | [] => none
  | (k, v) :: rest => if k = key then some v else get rest key

/-- The assignment `m[key] = value`. -/
def set (m : Fields) (key value : String) : Fields :=
  match m with
  | [] => [(key, value)]
  | (k, v) :: rest => if k = key then (k, value) :: rest else (k, v) :: set rest key value

/-- The keys of the map. -/
def keys (m : Fields) : List String := m.map Prod.fst

/-- The assignment guarded by a nil check: `if p != nil then m[key] = *p`. -/
def setIfPresent (m : Fields) (key : String) (p : Option String) : Fields :=
  match p with
  | some v => Fields.set m key v
  | none => m

end Fields

/-! ## Domain model (`internal/domain/user/model.go`, `repo.go`) -/

namespace user

/-- The type `AddressType`, an `int`. -/
abbrev AddressType := Int

/-- The constant `WorkAddress`. -/
def WorkAddress : AddressType := 0
/-- The constant `HomeAddress`. -/
def HomeAddress : AddressType := 1
/-- The constant `BillingAddress`. -/
def BillingAddress : AddressType := 2

/-- The struct `Address`; `Typ` is the Go field `Type`. -/
structure Address where
  Typ : AddressType
  Street : String
  City : String
  State : String
  PostalCode : String
  Country : String
deriving DecidableEq, Repr

/-- The struct `User`. -/
structure User where
  ID : domain.ID
  Email : String
  Password : String
  FirstName : String
  LastName : String
  PhoneNumber : String
  Addresses : List Address
deriving DecidableEq, Repr

/-- The interface `Repository`, over the state `σ` of whatever implements it. -/
structure Repository (σ : Type) where
  Create : User → Time → σ → Option Err × σ
  UpdateBasicFields : domain.ID → Fields → σ → Option Err × σ
  UpdateAddress : domain.ID → Int → Fields → σ → Option Err × σ
  InsertAddress : domain.ID → Address → Time → σ → Option Err × σ
  Delete : domain.ID → σ → Option Err × σ
  GetByUUID : domain.ID → σ → (Option User × Option Err) × σ
  Get : Int → Int → σ → (List User × Option Err) × σ

end user

/-- A JSON value as `encoding/json` writes it. -/
inductive JSON where
  | null
  | string (s : String)
  | number (n : Int)
  | array (items : List JSON)
  | object (members : List (String × JSON))

/-- The names of the members of a JSON object, in order; none for any other value. -/
def JSON.memberNames : JSON → List String
  | JSON.object members => members.map Prod.fst
  | _ => []

namespace user

/-- The JSON form of an `Address`, by the tags of its fields. -/
def Address.json (a : Address) : JSON :=
  JSON.object
    [("type", JSON.number a.Typ), ("street", JSON.string a.Street),
     ("city", JSON.string a.City), ("state", JSON.string a.State),
     ("postal_code", JSON.string a.PostalCode), ("country", JSON.string a.Country)]

/-- The JSON form of a `User`, by the tags of its fields: the field `Password` has the tag
`json:"-"` and is left out; `ID` writes itself with `MarshalJSON`, as the JSON string of
its text; a slice of addresses without elements is the nil slice that the repository
leaves when it read no row, written `null`. -/
def User.json (u : User) : JSON :=
  JSON.object
    [("id", JSON.string u.ID.String), ("email", JSON.string u.Email),
     ("first_name", JSON.string u.FirstName), ("last_name", JSON.string u.LastName),
     ("phone_number", JSON.string u.PhoneNumber),
     ("addresses",
        match u.Addresses with
        | [] => JSON.null
        | addresses => JSON.array (addresses.map Address.json))]

end user

/-- The interface `domain.TimeProvider`: the time source reads the clock of the state. -/
structure domain.TimeProvider (σ : Type) where
  UtcNow : σ → Time

/-! ## Reconciliation service (`internal/application/service/user.go`) -/

namespace service

open user

/-- The struct `CreateUserAddress`; `Typ` is the Go field `Type`. -/
structure CreateUserAddress where
  Typ : Int
  Street : String
  City : String
  State : String
  PostalCode : String
  Country : String
deriving DecidableEq, Repr

/-- The struct `CreateUserDTO`. -/
structure CreateUserDTO where
  ID : domain.ID
  Email : String
  Password : String
  FirstName : String
  LastName : String
  PhoneNumber : String
  Addresses : List CreateUserAddress
deriving DecidableEq, Repr

/-- The struct `UpdateUserAddress`; `Typ` is the Go field `Type`. -/
structure UpdateUserAddress where
  Typ : Int
  Street : Option String
  City : Option String
  State : Option String
  PostalCode : Option String
  Country : Option String
deriving DecidableEq, Repr

/-- The struct `UpdateUserDTO`. -/
structure UpdateUserDTO where
  Password : Option String
  FirstName : Option String
  LastName : Option String
  PhoneNumber : Option String
  Addresses : List UpdateUserAddress
deriving DecidableEq, Repr

/-- The struct `userService`. -/
structure userService (σ : Type) where
  userRepo : Repository σ
  timeProvider : domain.TimeProvider σ

variable {σ : Type}

/-- The function `NewUserService`. -/
def NewUserService (userRepo : Repository σ) (timeProvider : domain.TimeProvider σ) :
    userService σ :=
  { userRepo := userRepo, timeProvider := timeProvider }

/-- The aggregate `u` that `Create` builds from the DTO (lines 72-91): the fields are
copied and one address is appended per entry of the DTO. -/
def newUser (dto : CreateUserDTO) : User :=
  { ID := dto.ID
    Email := dto.Email
    Password := dto.Password
    FirstName := dto.FirstName
    LastName := dto.LastName
    PhoneNumber := dto.PhoneNumber
    Addresses := dto.Addresses.foldl (fun addresses addr =>
      addresses ++ [{ Typ := addr.Typ, Street := addr.Street, City := addr.City,
                      State := addr.State, PostalCode := addr.PostalCode,
                      Country := addr.Country }]) [] }

/-- The method `userService.Create`. -/
def userService.Create (s : userService σ) (dto : CreateUserDTO) (st : σ) : Option Err × σ :=
  match s.userRepo.Create (newUser dto) (s.timeProvider.UtcNow st) st with
  | (some err, st1) =>
      if err.Is Err.ErrEmailAlreadyExists then (some Err.ErrEmailAlreadyExists, st1)
      else (some (Err.Wrap "failed creating user" err), st1)
  | (none, st1) => (none, st1)

/-- The map `userFields` that `Update` builds from the basic fields of the DTO (lines 107-124). -/
def userFields (dto : UpdateUserDTO) : Fields :=
  let userFields : Fields := []
  let userFields := Fields.setIfPresent userFields "password" dto.Password
  let userFields := Fields.setIfPresent userFields "first_name" dto.FirstName
  let userFields := Fields.setIfPresent userFields "last_name" dto.LastName
  let userFields := Fields.setIfPresent userFields "phone_number" dto.PhoneNumber
  userFields

/-- The map `addrFields` that `Update` builds for one address entry (lines 136-152). -/
def addrFields (addr : UpdateUserAddress) : Fields :=
  let addrFields : Fields := []
  let addrFields := Fields.setIfPresent addrFields "street" addr.Street
  let addrFields := Fields.setIfPresent addrFields "city" addr.City
  let addrFields := Fields.setIfPresent addrFields "state" addr.State
  let addrFields := Fields.setIfPresent addrFields "postal_code" addr.PostalCode
  let addrFields := Fields.setIfPresent addrFields "country" addr.Country
  addrFields

/-- The address `newAddr` that `Update` builds for an insert (lines 157-174): a string field
keeps its zero value unless the entry supplies it. -/
def newAddr (addr : UpdateUserAddress) : Address :=
  { Typ := addr.Typ
    Street := addr.Street.getD ""
    City := addr.City.getD ""
    State := addr.State.getD ""
    PostalCode := addr.PostalCode.getD ""
    Country := addr.Country.getD "" }

/-- The loop `for _, addr := range dto.Addresses` of `Update` (lines 135-192) together with
the `return nil` that follows it (line 194).  Inside the branch `err != nil` of
`UpdateAddress` every path returns: the failed insert (line 180), the other update errors
(line 186), and the successful insert, which reaches the `return nil` of line 189. -/
def userService.updateAddresses (s : userService σ) (id : domain.ID) :
    List UpdateUserAddress → σ → Option Err × σ
  | [], st => (none, st)
  | addr :: rest, st =>
      if (addrFields addr).length > 0 then
        match s.userRepo.UpdateAddress id addr.Typ (addrFields addr) st with
        | (some err, st1) =>
            if err.Is Err.ErrAddressNotFound then
              match s.userRepo.InsertAddress id (newAddr addr) (s.timeProvider.UtcNow st1) st1 with
              | (some _, st2) => (some (Err.New "failed inserting additional address"), st2)
              | (none, st2) => (none, st2)
            else (some (Err.Wrap "failed updating user address data" err), st1)
        | (none, st1) => userService.updateAddresses s id rest st1
      else userService.updateAddresses s id rest st

/-- The method `userService.Update`. -/
def userService.Update (s : userService σ) (Parse : String → Except Err uuid.UUID)
    (userID : String) (dto : UpdateUserDTO) (st : σ) : Option Err × σ :=
  match domain.ParseID Parse userID with
  | .error err => (some (Err.Wrap "failed parsing uuid" err), st)
  | .ok id =>
      if (userFields dto).length > 0 then
        match s.userRepo.UpdateBasicFields id (userFields dto) st with
        | (some err, st1) => (some (Err.Wrap "failed updating user personal data" err), st1)
        | (none, st1) => s.updateAddresses id dto.Addresses st1
      else s.updateAddresses id dto.Addresses st

/-- The method `userService.Delete`. -/
def userService.Delete (s : userService σ) (Parse : String → Except Err uuid.UUID)
    (userID : String) (st : σ) : Option Err × σ :=
  match domain.ParseID Parse userID with
  | .error err => (some (Err.Wrap "failed parsing uuid" err), st)
  | .ok id =>
      match s.userRepo.Delete id st with
      | (some err, st1) =>
          if err.Is Err.ErrNotFound then (some err, st1)
          else (some (Err.Wrap "failed deleting user" err), st1)
      | (none, st1) => (none, st1)

/-- The method `userService.Get`. -/
def userService.Get (s : userService σ) (page pageSize : Int) (st : σ) :
    (List User × Option Err) × σ :=
  s.userRepo.Get page pageSize st

/-- The method `userService.GetByUUID`. -/
def userService.GetByUUID (s : userService σ) (Parse : String → Except Err uuid.UUID)
    (userID : String) (st : σ) : (Option User × Option Err) × σ :=
  match domain.ParseID Parse userID with
  | .error err => ((none, some (Err.Wrap "failed parsing uuid" err)), st)
  | .ok id => s.userRepo.GetByUUID id st

end service

/-! ## Recording the repository calls of a run

The claims about which repository calls a service method makes are stated on a
repository that records every call it receives, in order, the way the mock
repository of the test-suite does. -/

namespace user

/-- A call of a `Repository` method with its arguments. -/
inductive Call where
  | Create (u : User) (createdAt : Time)
  | UpdateBasicFields (id : domain.ID) (fields : Fields)
  | UpdateAddress (id : domain.ID) (addrType : Int) (fields : Fields)
  | InsertAddress (id : domain.ID) (addr : Address) (createdAt : Time)
  | Delete (id : domain.ID)
  | GetByUUID (id : domain.ID)
  | Get (page pageSize : Int)
deriving DecidableEq, Repr

/-- A recorded call: the call, the state it met, the error it returned and the state it left. -/
structure Event (σ : Type) where
  call : Call
  before : σ
  err : Option Err
  after : σ

variable {σ : Type}

/-- The repository `r` with a record of the calls made so far beside its state. -/
def Repository.recorded (r : Repository σ) : Repository (σ × List (Event σ)) where
  Create u createdAt w :=
    let res := r.Create u createdAt w.1
    (res.1, (res.2, w.2 ++ [⟨Call.Create u createdAt, w.1, res.1, res.2⟩]))
  UpdateBasicFields id fields w :=
    let res := r.UpdateBasicFields id fields w.1
    (res.1, (res.2, w.2 ++ [⟨Call.UpdateBasicFields id fields, w.1, res.1, res.2⟩]))
  UpdateAddress id addrType fields w :=
    let res := r.UpdateAddress id addrType fields w.1
    (res.1, (res.2, w.2 ++ [⟨Call.UpdateAddress id addrType fields, w.1, res.1, res.2⟩]))
  InsertAddress id addr createdAt w :=
    let res := r.InsertAddress id addr createdAt w.1
    (res.1, (res.2, w.2 ++ [⟨Call.InsertAddress id addr createdAt, w.1, res.1, res.2⟩]))
  Delete id w :=
    let res := r.Delete id w.1
    (res.1, (res.2, w.2 ++ [⟨Call.Delete id, w.1, res.1, res.2⟩]))
  GetByUUID id w :=
    let res := r.GetByUUID id w.1
    (res.1, (res.2, w.2 ++ [⟨Call.GetByUUID id, w.1, res.1.2, res.2⟩]))
  Get page pageSize w :=
    let res := r.Get page pageSize w.1
    (res.1, (res.2, w.2 ++ [⟨Call.Get page pageSize, w.1, res.1.2, res.2⟩]))

/-- A call of `UpdateBasicFields`. -/
def Call.isUpdateBasicFields : Call → Bool
  | Call.UpdateBasicFields _ _ => true
  | _ => false

/-- A call of `UpdateAddress`. -/
def Call.isUpdateAddress : Call → Bool
  | Call.UpdateAddress _ _ _ => true
  | _ => false

/-- A call of `InsertAddress`. -/
def Call.isInsertAddress : Call → Bool
  | Call.InsertAddress _ _ _ => true
  | _ => false

/-- The identifier argument of a call, for the methods that take one. -/
def Call.ident : Call → Option domain.ID
  | Call.Create u _ => some u.ID
  | Call.UpdateBasicFields id _ => some id
  | Call.UpdateAddress id _ _ => some id
  | Call.InsertAddress id _ _ => some id
  | Call.Delete id => some id
  | Call.GetByUUID id => some id
  | Call.Get _ _ => none

end user

namespace service

open user

variable {σ : Type}

/-- The service `s` over the recording repository; the time source reads the same clock. -/
def userService.recorded (s : userService σ) : userService (σ × List (Event σ)) where
  userRepo := s.userRepo.recorded
  timeProvider := { UtcNow := fun w => s.timeProvider.UtcNow w.1 }

/-- The repository calls of `Update(userID, dto)` started in state `st`, in order. -/
def userService.UpdateCalls (s : userService σ) (Parse : String → Except Err uuid.UUID)
    (userID : String) (dto : UpdateUserDTO) (st : σ) : List (Event σ) :=
  (s.recorded.Update Parse userID dto (st, [])).2.2

/-- The repository calls of `Create(dto)` started in state `st`, in order. -/
def userService.CreateCalls (s : userService σ) (dto : CreateUserDTO) (st : σ) :
    List (Event σ) :=
  (s.recorded.Create dto (st, [])).2.2

/-- The repository calls of `Delete(userID)` started in state `st`, in order. -/
def userService.DeleteCalls (s : userService σ) (Parse : String → Except Err uuid.UUID)
    (userID : String) (st : σ) : List (Event σ) :=
  (s.recorded.Delete Parse userID (st, [])).2.2

/-- The repository calls of `GetByUUID(userID)` started in state `st`, in order. -/
def userService.GetByUUIDCalls (s : userService σ) (Parse : String → Except Err uuid.UUID)
    (userID : String) (st : σ) : List (Event σ) :=
  (s.recorded.GetByUUID Parse userID (st, [])).2.2

/-- The repository calls of `Get(page, pageSize)` started in state `st`, in order. -/
def userService.GetCalls (s : userService σ) (page pageSize : Int) (st : σ) :
    List (Event σ) :=
  (s.recorded.Get page pageSize (st, [])).2.2

end service

namespace service

open user

variable {σ : Type}

/-- The repository calls of the address loop of `Update` started in state `st`, in order. -/
def userService.addressCalls (s : userService σ) (id : domain.ID)
    (addrs : List UpdateUserAddress) (st : σ) : List (Event σ) :=
  (s.recorded.updateAddresses id addrs (st, [])).2.2

/-- A recorded call failed in the sense of the fail-fast rule: `UpdateBasicFields` or
`InsertAddress` returned an error, or `UpdateAddress` returned an error that is not
recognised as `ErrAddressNotFound`. -/
def failed (ev : Event σ) : Bool :=
  match ev.call, ev.err with
  | Call.UpdateBasicFields _ _, some _ => true
  | Call.InsertAddress _ _ _, some _ => true
  | Call.UpdateAddress _ _ _, some err => !err.Is Err.ErrAddressNotFound
  | _, _ => false

end service

/-! ## HTTP handlers (`internal/infrastructure/httpserver/handlers/http_user.go`) -/

namespace handlers

open user service

/-- The struct `createUserAddressRequest`; `Typ` is the Go field `Type`. -/
structure createUserAddressRequest where
  Typ : Int
  Street : String
  City : String
  State : String
  PostalCode : String
  Country : String
deriving DecidableEq, Repr

/-- The struct `createUserRequest`, the entries of `Addresses` (in the source a slice of
pointers) dereferenced. -/
structure createUserRequest where
  Email : String
  Password : String
  FirstName : String
  LastName : String
  PhoneNumber : String
  Addresses : List createUserAddressRequest
deriving DecidableEq, Repr

/-- The struct `updateUserAddressRequest`; `Typ` is the Go field `Type`. -/
structure updateUserAddressRequest where
  Typ : Int
  Street : Option String
  City : Option String
  State : Option String
  PostalCode : Option String
  Country : Option String
deriving DecidableEq, Repr

/-- The struct `updateUserRequest` with the entries of `Addresses` dereferenced: what the
loop of `UpdateUser` reads of a bound request none of whose address entries is the nil
pointer (see `updateUserRequestBound` and `updateUserRequestBound.deref`). -/
structure updateUserRequest where
  Password : Option String
  FirstName : Option String
  LastName : Option String
  PhoneNumber : Option String
  Addresses : List updateUserAddressRequest
deriving DecidableEq, Repr

/-- The struct `updateUserRequest` as `c.ShouldBindJSON(&req)` fills it and
`h.validator.Struct(req)` reads it: the field `Addresses` is
`[]*updateUserAddressRequest` (line 47), a slice of pointers, and an entry is `none` for
the nil pointer that a JSON `null` in the array leaves there. -/
structure updateUserRequestBound where
  Password : Option String
  FirstName : Option String
  LastName : Option String
  PhoneNumber : Option String
  Addresses : List (Option updateUserAddressRequest)
deriving DecidableEq, Repr

/-- The entries of a slice of pointers, dereferenced; none when one of them is the nil
pointer. -/
def derefAll {α : Type} : List (Option α) → Option (List α)
  | [] => some []
  | none :: _ => none
  | some a :: rest =>
      match derefAll rest with
      | none => none
      | some as => some (a :: as)

/-- The bound request with the entries of `Addresses` dereferenced; none when one of them
is the nil pointer. -/
def updateUserRequestBound.deref (req : updateUserRequestBound) : Option updateUserRequest :=
  match derefAll req.Addresses with
  | none => none
  | some addresses =>
      some { Password := req.Password, FirstName := req.FirstName, LastName := req.LastName,
             PhoneNumber := req.PhoneNumber, Addresses := addresses }

/-- The loop `for _, addr := range req.Addresses` that `CreateUser` (lines 96-109) and
`UpdateUser` (lines 160-173) share text for text: an entry is appended, converted by `conv`,
unless its type is a key of `typeIsPresent`, and its type is then made a key.  The map
`typeIsPresent` is the list of its keys; `typ` reads `user.AddressType(addr.Type)`. -/
def addressLoop {α β : Type} (typ : α → AddressType) (conv : α → β) :
    List α → List AddressType → List β → List β
  | [], _, addresses => addresses
  | addr :: rest, typeIsPresent, addresses =>
      let addresses :=
        if typ addr ∈ typeIsPresent then addresses else addresses ++ [conv addr]
      addressLoop typ conv rest (typ addr :: typeIsPresent) addresses

/-- The loop `for _, addr := range req.Addresses` of `UpdateUser` (lines 160-173) over the
slice of pointers as bound: the loop reads `addr.Type` of every entry (line 161) with no
nil check, so a nil entry is a nil pointer dereference, the run-time panic, here `none`; on
the other entries it does what `addressLoop` does. -/
def pointerAddressLoop {α β : Type} (typ : α → AddressType) (conv : α → β) :
    List (Option α) → List AddressType → List β → Option (List β)
  | [], _, addresses => some addresses
  | none :: _, _, _ => none
  | some addr :: rest, typeIsPresent, addresses =>
      let addresses :=
        if typ addr ∈ typeIsPresent then addresses else addresses ++ [conv addr]
      pointerAddressLoop typ conv rest (typ addr :: typeIsPresent) addresses

/-- The DTO that `CreateUser` hands to `userService.Create` (lines 86-109), given the
generated identifier and the hashed password. -/
def createUserDTO (userID : domain.ID) (hashedPassword : String) (req : createUserRequest) :
    CreateUserDTO :=
  { ID := userID
    Email := req.Email
    Password := hashedPassword
    FirstName := req.FirstName
    LastName := req.LastName
    PhoneNumber := req.PhoneNumber
    Addresses := addressLoop (fun addr => addr.Typ)
      (fun addr => ({ Typ := addr.Typ, Street := addr.Street, City := addr.City,
                      State := addr.State, PostalCode := addr.PostalCode,
                      Country := addr.Country } : CreateUserAddress))
      req.Addresses [] [] }

/-- The DTO that `UpdateUser` hands to `userService.Update` (lines 143-173);
`hashedPassword` is the hash of the password of the request when it has one. -/
def updateUserDTO (hashedPassword : Option String) (req : updateUserRequest) :
    UpdateUserDTO :=
  { Password := hashedPassword
    FirstName := req.FirstName
    LastName := req.LastName
    PhoneNumber := req.PhoneNumber
    Addresses := addressLoop (fun addr => addr.Typ)
      (fun addr => ({ Typ := addr.Typ, Street := addr.Street, City := addr.City,
                      State := addr.State, PostalCode := addr.PostalCode,
                      Country := addr.Country } : UpdateUserAddress))
      req.Addresses [] [] }

/-- The DTO that `UpdateUser` builds from the request as bound (lines 143-173); none when
the loop panics on a nil address entry.  `hashedPassword` is the hash of the password of
the request when it has one. -/
def updateUserDTOBound (hashedPassword : Option String) (req : updateUserRequestBound) :
    Option UpdateUserDTO :=
  match pointerAddressLoop (fun addr => addr.Typ)
      (fun addr => ({ Typ := addr.Typ, Street := addr.Street, City := addr.City,
                      State := addr.State, PostalCode := addr.PostalCode,
                      Country := addr.Country } : UpdateUserAddress))
      req.Addresses [] [] with
  | none => none
  | some addresses =>
      some { Password := hashedPassword
             FirstName := req.FirstName
             LastName := req.LastName
             PhoneNumber := req.PhoneNumber
             Addresses := addresses }

/-- The tag `validate:"required,oneof=1 2 3"` on the field `Type` of
`createUserAddressRequest` and `updateUserAddressRequest`: the address types a request may
carry. -/
def typeAccepted (t : Int) : Bool := decide (t = 1 ∨ t = 2 ∨ t = 3)

/-- The first entry of each type that is not in `seen`, in the order of the list: what
"keep the first occurrence per type" means. -/
def firstPerType {α : Type} (typ : α → AddressType) : List α → List AddressType → List α
  | [], _ => []
  | addr :: rest, seen =>
      if typ addr ∈ seen then firstPerType typ rest seen
      else addr :: firstPerType typ rest (typ addr :: seen)

end handlers

/-! ## MySQL repository (`internal/infrastructure/database/mysql/repo_user.go`)

The repository talks to the database through `database/sql`.  The database itself is a
collaborator: a `Driver` over its state `σ` answers each statement.  The read pool and the
write pool are two ways into the same driver. -/

namespace entity

/-- The struct `DbUser`; a `null.Int` or `null.String` is an `Option`, `none` for NULL. -/
structure DbUser where
  ID : Option Int
  UUID : Option String
  Email : Option String
  FirstName : Option String
  LastName : Option String
  PhoneNumber : Option String
deriving DecidableEq, Repr

/-- The struct `DbAddress`; `Typ` is the Go field `Type`. -/
structure DbAddress where
  Typ : Option Int
  Street : Option String
  City : Option String
  State : Option String
  PostalCode : Option String
  Country : Option String
deriving DecidableEq, Repr

end entity

namespace mysql

open user

/-- A value bound to a placeholder of a statement. -/
inductive Value where
  | null
  | int (n : Int)
  | str (s : String)
  | time (t : Time)
deriving DecidableEq, Repr

/-- The two connection pools of the repository, `dbRead` and `dbWrite`. -/
inductive Pool where
  | dbRead
  | dbWrite
deriving DecidableEq, Repr

/-- A transaction handle, `*sql.Tx`. -/
abbrev Tx := Nat

/-- What a statement is executed on: a pool, or a transaction. -/
inductive Conn where
  | pool (p : Pool)
  | tx (t : Tx)
deriving DecidableEq, Repr

/-- The database behind `database/sql`, over its state `σ`.
`ExecContext` answers with an error or with a result whose `LastInsertId()` is an error or
an id; `QueryRowInt` is `QueryRowContext(...).Scan(&n)` for one integer column;
`QueryRowUser` is `QueryRowContext(...).Scan` into the six columns of a `DbUser`;
`QueryUsers` and `QueryAddresses` are `QueryContext` followed by the `rows.Next()` /
`rows.Scan` iteration, each row scanned with or without an error; `Now` is `time.Now()`. -/
structure Driver (σ : Type) where
  BeginTx : Pool → σ → Except Err Tx × σ
  Commit : Tx → σ → Option Err × σ
  Rollback : Tx → σ → Option Err × σ
  ExecContext : Conn → String → List Value → σ → Except Err (Except Err Int) × σ
  QueryRowInt : Pool → String → List Value → σ → Except Err Int × σ
  QueryRowUser : Pool → String → List Value → σ → Except Err entity.DbUser × σ
  QueryUsers : Pool → String → List Value → σ → Except Err (List (Except Err entity.DbUser)) × σ
  QueryAddresses : Pool → String → List Value → σ
    → Except Err (List (Except Err entity.DbAddress)) × σ
  Now : σ → Time

/-- The constant `duplicatedEntry`. -/
def duplicatedEntry : Nat := 1062

/-- The struct `userRepository`: `db` stands for its two pools; `mapOrder` is the order in
which a `range` over a map visits its entries (some permutation of them); `Parse` is
`uuid.Parse`. -/
structure userRepository (σ : Type) where
  db : Driver σ
  mapOrder : Fields → List (String × String)
  Parse : String → Except Err uuid.UUID

variable {σ : Type}

/-- The value a `null.Int` is bound as. -/
def nullInt (n : Option Int) : Value :=
  match n with
  | some v => Value.int v
  | none => Value.null

/-- The translation of a failed insert: `ErrEmailAlreadyExists` / `ErrAddressAlreadyExists`
(given as `dup`) when the error is a `MySQLError` with number 1062, the error otherwise. -/
def duplicateOr (dup : Err) (err : Err) : Err :=
  match err.AsMySQLError with
  | some n => if n = duplicatedEntry then dup else err
  | none => err

/-- The address loop of `Create` (lines 73-85): the first failing insert ends it. -/
def userRepository.insertAddresses (r : userRepository σ) (tx : Tx) (userID : Int)
    (createdAt : Time) : List Address → σ → Option (Err × Err) × σ
  | [], st => (none, st)
  | addr :: rest, st =>
      match r.db.ExecContext (Conn.tx tx)
          "\n\t\tINSERT INTO addresses (user_id, type, street, city, state, postal_code, country, created_at, updated_at)\n\t\tVALUES (?, ?, ?, ?, ?, ?, ?, ?, ?)\n\t"
          [Value.int userID, Value.int addr.Typ, Value.str addr.Street, Value.str addr.City,
           Value.str addr.State, Value.str addr.PostalCode, Value.str addr.Country,
           Value.time createdAt, Value.null] st with
      | (.error err, st1) => (some (err, duplicateOr Err.ErrAddressAlreadyExists err), st1)
      | (.ok _, st1) => userRepository.insertAddresses r tx userID createdAt rest st1

/-- The deferred function of `Create` and `Delete`: roll back when `err` is not nil. -/
def userRepository.deferred (r : userRepository σ) (tx : Tx) (err : Option Err) (st : σ) : σ :=
  match err with
  | some _ => (r.db.Rollback tx st).2
  | none => st

/-- The method `userRepository.Create`.  Each branch ends with the deferred function applied
to the value the variable `err` holds at that return. -/
def userRepository.Create (r : userRepository σ) (u : User) (createdAt : Time) (st : σ) :
    Option Err × σ :=
  match r.db.BeginTx Pool.dbWrite st with
  | (.error err, st1) => (some err, st1)
  | (.ok tx, st1) =>
      match r.db.ExecContext (Conn.pool Pool.dbWrite)
          "\n\t\tINSERT INTO users (uuid, email, password, created_at, updated_at, first_name, last_name, phone_number)\n\t\tVALUES (?, ?, ?, ?, ?, ?, ?, ?)\n\t"
          [Value.str u.ID.String, Value.str u.Email, Value.str u.Password,
           Value.time createdAt, Value.null, Value.str u.FirstName, Value.str u.LastName,
           Value.str u.PhoneNumber] st1 with
      | (.error err, st2) =>
          (some (duplicateOr Err.ErrEmailAlreadyExists err), r.deferred tx (some err) st2)
      | (.ok result, st2) =>
          match result with
          | .error err => (some err, r.deferred tx (some err) st2)
          | .ok userID =>
              match r.insertAddresses tx userID createdAt u.Addresses st2 with
              | (some (err, ret), st3) => (some ret, r.deferred tx (some err) st3)
              | (none, st3) =>
                  match r.db.Commit tx st3 with
                  | (res, st4) => (res, r.deferred tx none st4)

/-- The loop over the map of `UpdateBasicFields` and `UpdateAddress` (lines 106-113 and
138-145) that builds the SET clause and the arguments; `n` is `len(fields)`. -/
def setClause (n : Nat) : List (String × String) → Nat → String → List Value
    → String × List Value
  | [], _, query, args => (query, args)
  | (key, value) :: rest, i, query, args =>
      let query := query ++ key ++ " = ?"
      let query := if i < n then query ++ ", " else query
      setClause n rest (i + 1) query (args ++ [Value.str value])

/-- The method `userRepository.UpdateBasicFields`. -/
def userRepository.UpdateBasicFields (r : userRepository σ) (id : domain.ID)
    (fields : Fields) (st : σ) : Option Err × σ :=
  match r.db.QueryRowInt Pool.dbRead
      "SELECT COUNT(1) FROM users WHERE uuid = ? AND deleted_at IS NULL "
      [Value.str id.String] st with
  | (.error err, st1) => (some (Err.Wrap "failed checking if user exists" err), st1)
  | (.ok found, st1) =>
      if found = 0 then (some Err.ErrNotFound, st1)
      else
        let built := setClause fields.length (r.mapOrder fields) 1 "UPDATE users SET " []
        match r.db.ExecContext (Conn.pool Pool.dbWrite) (built.1 ++ " WHERE uuid = ?")
            (built.2 ++ [Value.str id.String]) st1 with
        | (.error err, st2) => (some (Err.Wrap "failed updating users" err), st2)
        | (.ok _, st2) => (none, st2)

/-- The method `userRepository.UpdateAddress`.  The error of the existence read is
dropped: the count then keeps its zero value. -/
def userRepository.UpdateAddress (r : userRepository σ) (id : domain.ID) (addrType : Int)
    (fields : Fields) (st : σ) : Option Err × σ :=
  match r.db.QueryRowInt Pool.dbRead
      "SELECT COUNT(1) FROM addresses WHERE user_id = (SELECT id FROM users WHERE uuid = ? AND deleted_at IS NULL) AND type = ?"
      [Value.str id.String, Value.int addrType] st with
  | (res, st1) =>
      let found : Int := match res with
        | .ok n => n
        | .error _ => 0
      if found = 0 then (some Err.ErrAddressNotFound, st1)
      else
        let built := setClause fields.length (r.mapOrder fields) 1 "UPDATE addresses SET " []
        match r.db.ExecContext (Conn.pool Pool.dbWrite)
            (built.1 ++ " WHERE user_id = (SELECT id FROM users WHERE uuid = ?) AND type = ?")
            (built.2 ++ [Value.str id.String, Value.int addrType]) st1 with
        | (.error err, st2) => (some (Err.Wrap "failed updating address" err), st2)
        | (.ok _, st2) => (none, st2)

/-- The method `userRepository.InsertAddress`. -/
def userRepository.InsertAddress (r : userRepository σ) (id : domain.ID) (addr : Address)
    (createdAt : Time) (st : σ) : Option Err × σ :=
  match r.db.ExecContext (Conn.pool Pool.dbWrite)
      "\n\t\tINSERT INTO addresses (user_id, type, street, city, state, postal_code, country, created_at, updated_at)\n\t\tVALUES ((SELECT id FROM users WHERE uuid = ? AND deleted_at IS NULL ), ?, ?, ?, ?, ?, ?, ?, ?)\n\t"
      [Value.str id.String, Value.int addr.Typ, Value.str addr.Street, Value.str addr.City,
       Value.str addr.State, Value.str addr.PostalCode, Value.str addr.Country,
       Value.time createdAt, Value.null] st with
  | (.error err, st1) => (some err, st1)
  | (.ok _, st1) => (none, st1)

/-- The method `userRepository.Delete`.  Each branch after `BeginTx` ends with the deferred
function applied to the value the variable `err` holds at that return. -/
def userRepository.Delete (r : userRepository σ) (id : domain.ID) (st : σ) : Option Err × σ :=
  match r.db.BeginTx Pool.dbWrite st with
  | (.error err, st1) => (some err, st1)
  | (.ok tx, st1) =>
      match r.db.QueryRowInt Pool.dbRead "SELECT id FROM users WHERE uuid = ?"
          [Value.str id.String] st1 with
      | (res, st2) =>
          let userID : Int := match res with
            | .ok n => n
            | .error _ => 0
          if userID = 0 then (some Err.ErrNotFound, r.deferred tx none st2)
          else
            let ts := r.db.Now st2
            match r.db.ExecContext (Conn.pool Pool.dbWrite)
                "UPDATE users SET deleted_at = ? WHERE id = ? LIMIT 1"
                [Value.time ts, Value.int userID] st2 with
            | (.error err, st3) =>
                (some (Err.Wrap "failed deleting user" err), r.deferred tx (some err) st3)
            | (.ok _, st3) =>
                match r.db.ExecContext (Conn.pool Pool.dbWrite)
                    "UPDATE addresses SET deleted_at = ? WHERE user_id = ?"
                    [Value.time ts, Value.int userID] st3 with
                | (.error err, st4) =>
                    (some (Err.Wrap "failed deleting addresses" err),
                      r.deferred tx (some err) st4)
                | (.ok _, st4) =>
                    match r.db.Commit tx st4 with
                    | (res2, st5) => (res2, r.deferred tx none st5)

/-- The loop `for rows.Next()` over address rows (lines 236-252 and 295-311): the first row
that fails to scan ends it with that error. -/
def scanAddresses : List (Except Err entity.DbAddress) → List Address
    → Except Err (List Address)
  | [], domainAddresses => .ok domainAddresses
  | .error err :: _, _ => .error err
  | .ok dbAddress :: rest, domainAddresses =>
      scanAddresses rest (domainAddresses ++
        [{ Typ := dbAddress.Typ.getD 0
           Street := dbAddress.Street.getD ""
           City := dbAddress.City.getD ""
           State := dbAddress.State.getD ""
           PostalCode := dbAddress.PostalCode.getD ""
           Country := dbAddress.Country.getD "" }])

/-- The user built from a row and its addresses (lines 254-263 and 313-322); the
identifier is the zero value when the stored text does not parse, and the password is
never read. -/
def userRepository.domainUser (r : userRepository σ) (dbUser : entity.DbUser)
    (domainAddresses : List Address) : User :=
  { ID := match domain.ParseID r.Parse (dbUser.UUID.getD "") with
      | .ok userID => userID
      | .error _ => { value := uuid.Nil }
    Email := dbUser.Email.getD ""
    Password := ""
    FirstName := dbUser.FirstName.getD ""
    LastName := dbUser.LastName.getD ""
    PhoneNumber := dbUser.PhoneNumber.getD ""
    Addresses := domainAddresses }

/-- The method `userRepository.GetByUUID`. -/
def userRepository.GetByUUID (r : userRepository σ) (id : domain.ID) (st : σ) :
    (Option User × Option Err) × σ :=
  match r.db.QueryRowUser Pool.dbRead
      "SELECT id, uuid, email, first_name, last_name, phone_number FROM users WHERE uuid = ? AND deleted_at IS NULL"
      [Value.str id.String] st with
  | (.error err, st1) =>
      if err.Is Err.ErrNoRows then ((none, some Err.ErrNotFound), st1)
      else ((none, some (Err.Wrap "failed querying user" err)), st1)
  | (.ok dbUser, st1) =>
      match r.db.QueryAddresses Pool.dbRead
          "SELECT type, street, city, state, postal_code, country FROM addresses WHERE user_id = ? AND deleted_at IS NULL"
          [nullInt dbUser.ID] st1 with
      | (.error err, st2) => ((none, some (Err.Wrap "failed querying addresses" err)), st2)
      | (.ok rows, st2) =>
          match scanAddresses rows [] with
          | .error err => ((none, some (Err.Wrap "failed scanning addresses" err)), st2)
          | .ok domainAddresses => ((some (r.domainUser dbUser domainAddresses), none), st2)

/-- A Go `int` product, wrapped to 64 bits. -/
def int64 (n : Int) : Int := (n + 2 ^ 63) % 2 ^ 64 - 2 ^ 63

/-- The loop `for rowsUsers.Next()` of `Get` (lines 280-325). -/
def userRepository.scanUsers (r : userRepository σ) :
    List (Except Err entity.DbUser) → List User → σ → (List User × Option Err) × σ
  | [], domainUsers, st => ((domainUsers, none), st)
  | .error err :: _, _, st => (([], some (Err.Wrap "failed scanning users" err)), st)
  | .ok dbUser :: rest, domainUsers, st =>
      match r.db.QueryAddresses Pool.dbRead
          "SELECT type, street, city, state, postal_code, country FROM addresses WHERE user_id = ? AND deleted_at IS NULL "
          [Value.int (dbUser.ID.getD 0)] st with
      | (.error err, st1) => (([], some (Err.Wrap "failed querying addresses" err)), st1)
      | (.ok rows, st1) =>
          match scanAddresses rows [] with
          | .error err => (([], some (Err.Wrap "failed scanning addresses" err)), st1)
          | .ok domainAddresses =>
              userRepository.scanUsers r rest
                (domainUsers ++ [r.domainUser dbUser domainAddresses]) st1

/-- The method `userRepository.Get`. -/
def userRepository.Get (r : userRepository σ) (page pageSize : Int) (st : σ) :
    (List User × Option Err) × σ :=
  let offset := int64 ((page - 1) * pageSize)
  match r.db.QueryUsers Pool.dbRead
      "SELECT id, uuid, email, first_name, last_name, phone_number FROM users WHERE deleted_at IS NULL LIMIT ? OFFSET ?"
      [Value.int pageSize, Value.int offset] st with
  | (.error err, st1) => (([], some (Err.Wrap "failed querying users" err)), st1)
  | (.ok rowsUsers, st1) => r.scanUsers rowsUsers [] st1

/-- The repository as an implementation of the interface `user.Repository`
(`var _ user.Repository = (*userRepository)(nil)`). -/
def userRepository.toRepository (r : userRepository σ) : Repository σ where
  Create := r.Create
  UpdateBasicFields := r.UpdateBasicFields
  UpdateAddress := r.UpdateAddress
  InsertAddress := r.InsertAddress
  Delete := r.Delete
  GetByUUID := r.GetByUUID
  Get := r.Get

/-- A statement or transaction call received by the driver. -/
inductive DbCall where
  | BeginTx (p : Pool)
  | Commit (t : Tx)
  | Rollback (t : Tx)
  | Exec (c : Conn) (query : String) (args : List Value)
  | Query (p : Pool) (query : String) (args : List Value)
deriving DecidableEq, Repr

/-- The driver `d` with a record of the calls made so far beside its state. -/
def Driver.recorded (d : Driver σ) : Driver (σ × List DbCall) where
  BeginTx p w := ((d.BeginTx p w.1).1, ((d.BeginTx p w.1).2, w.2 ++ [DbCall.BeginTx p]))
  Commit t w := ((d.Commit t w.1).1, ((d.Commit t w.1).2, w.2 ++ [DbCall.Commit t]))
  Rollback t w := ((d.Rollback t w.1).1, ((d.Rollback t w.1).2, w.2 ++ [DbCall.Rollback t]))
  ExecContext c q args w :=
    ((d.ExecContext c q args w.1).1, ((d.ExecContext c q args w.1).2,
      w.2 ++ [DbCall.Exec c q args]))
  QueryRowInt p q args w :=
    ((d.QueryRowInt p q args w.1).1, ((d.QueryRowInt p q args w.1).2,
      w.2 ++ [DbCall.Query p q args]))
  QueryRowUser p q args w :=
    ((d.QueryRowUser p q args w.1).1, ((d.QueryRowUser p q args w.1).2,
      w.2 ++ [DbCall.Query p q args]))
  QueryUsers p q args w :=
    ((d.QueryUsers p q args w.1).1, ((d.QueryUsers p q args w.1).2,
      w.2 ++ [DbCall.Query p q args]))
  QueryAddresses p q args w :=
    ((d.QueryAddresses p q args w.1).1, ((d.QueryAddresses p q args w.1).2,
      w.2 ++ [DbCall.Query p q args]))
  Now w := d.Now w.1

/-- The repository `r` over the recording driver. -/
def userRepository.recorded (r : userRepository σ) : userRepository (σ × List DbCall) :=
  { db := r.db.recorded, mapOrder := r.mapOrder, Parse := r.Parse }

/-- A call that writes: a statement executed with `ExecContext`. -/
def DbCall.isWrite : DbCall → Bool
  | DbCall.Exec _ _ _ => true
  | _ => false

/-- The statements the database receives during `Update(userID, dto)` of the service
wired to the MySQL repository (`container.New`), started in state `st`, in order. -/
def UpdateStatements (r : userRepository σ) (timeProvider : domain.TimeProvider σ)
    (Parse : String → Except Err uuid.UUID) (userID : String)
    (dto : service.UpdateUserDTO) (st : σ) : List DbCall :=
  ((service.NewUserService r.recorded.toRepository
      { UtcNow := fun w => timeProvider.UtcNow w.1 }).Update Parse userID dto (st, [])).2.2

/-- The statements the database receives during `Create(u, createdAt)` of the repository,
started in state `st`, in order. -/
def CreateStatements (r : userRepository σ) (u : User) (createdAt : Time) (st : σ) :
    List DbCall :=
  (r.recorded.Create u createdAt (st, [])).2.2

/-- The statements the database receives during `UpdateBasicFields(id, fields)` of the
repository, started in state `st`, in order. -/
def UpdateBasicFieldsStatements (r : userRepository σ) (id : domain.ID) (fields : Fields)
    (st : σ) : List DbCall :=
  (r.recorded.UpdateBasicFields id fields (st, [])).2.2

/-- The statements the database receives during `UpdateAddress(id, addrType, fields)` of
the repository, started in state `st`, in order. -/
def UpdateAddressStatements (r : userRepository σ) (id : domain.ID) (addrType : Int)
    (fields : Fields) (st : σ) : List DbCall :=
  (r.recorded.UpdateAddress id addrType fields (st, [])).2.2

/-- The texts `parts` joined by ", ", with no separator before the first or after the
last: the form the SET clause is specified to have. -/
def joinComma : List String → String
  | [] => ""
  | [a] => a
  | a :: b :: rest => a ++ ", " ++ joinComma (b :: rest)

/-- The statements the database receives during `Get(page, pageSize)` of the repository,
started in state `st`, in order. -/
def GetStatements (r : userRepository σ) (page pageSize : Int) (st : σ) : List DbCall :=
  (r.recorded.Get page pageSize (st, [])).2.2

/-- The statements the database receives during `Delete(id)` of the repository, started in
state `st`, in order. -/
def DeleteStatements (r : userRepository σ) (id : domain.ID) (st : σ) : List DbCall :=
  (r.recorded.Delete id (st, [])).2.2

/-- A call that ends a transaction: `Commit` or `Rollback`. -/
def DbCall.closes : DbCall → Bool
  | DbCall.Commit _ => true
  | DbCall.Rollback _ => true
  | _ => false

end mysql

/-! ## The handlers of `/users/{id}` (`http_user.go`, `UpdateUser`, `DeleteUser`, `GetUser`)

A handler reads the request from the `gin.Context`, calls the service through the
interface `UserPort` and answers with `c.JSON(code, value)`. -/

namespace service

open user

/-- The interface `UserPort`, over the state `σ` of whatever implements it. -/
structure UserPort (σ : Type) where
  Create : CreateUserDTO → σ → Option Err × σ
  Update : String → UpdateUserDTO → σ → Option Err × σ
  Delete : String → σ → Option Err × σ
  Get : Int → Int → σ → (List User × Option Err) × σ
  GetByUUID : String → σ → (Option User × Option Err) × σ

variable {σ : Type}

/-- The service as an implementation of the interface `UserPort`
(`var _ UserPort = (*userService)(nil)`). -/
def userService.toUserPort (s : userService σ) (Parse : String → Except Err uuid.UUID) :
    UserPort σ where
  Create := s.Create
  Update := s.Update Parse
  Delete := s.Delete Parse
  Get := s.Get
  GetByUUID := s.GetByUUID Parse

/-- A call of a `UserPort` method with its arguments. -/
inductive PortCall where
  | Create (dto : CreateUserDTO)
  | Update (userID : String) (dto : UpdateUserDTO)
  | Delete (userID : String)
  | Get (page pageSize : Int)
  | GetByUUID (userID : String)
deriving DecidableEq, Repr

/-- The port `p` with a record of the calls made so far beside its state, the way
`UserServiceMock` keeps one. -/
def UserPort.recorded (p : UserPort σ) : UserPort (σ × List PortCall) where
  Create dto w := ((p.Create dto w.1).1, ((p.Create dto w.1).2, w.2 ++ [PortCall.Create dto]))
  Update userID dto w :=
    ((p.Update userID dto w.1).1,
      ((p.Update userID dto w.1).2, w.2 ++ [PortCall.Update userID dto]))
  Delete userID w :=
    ((p.Delete userID w.1).1, ((p.Delete userID w.1).2, w.2 ++ [PortCall.Delete userID]))
  Get page pageSize w :=
    ((p.Get page pageSize w.1).1,
      ((p.Get page pageSize w.1).2, w.2 ++ [PortCall.Get page pageSize]))
  GetByUUID userID w :=
    ((p.GetByUUID userID w.1).1,
      ((p.GetByUUID userID w.1).2, w.2 ++ [PortCall.GetByUUID userID]))

end service

namespace handlers

open user service

/-- The value a handler hands to `c.JSON`: `gin.H{"error": message}`, a string, a user
(`none` for a nil pointer) or a list of users. -/
inductive Body where
  | error (message : String)
  | text (s : String)
  | user (u : Option User)
  | users (us : List User)
deriving DecidableEq, Repr

/-- A response: the status code and the value of `c.JSON(code, value)`. -/
structure Response where
  code : Nat
  body : Body
deriving DecidableEq, Repr

/-- How a run of `UpdateUser` ends: with the response it wrote with `c.JSON`, or with the
run-time panic of a nil pointer dereference, nothing written by the handler. -/
inductive Outcome where
  | response (r : Response)
  | panic
deriving DecidableEq, Repr

/-- What the handlers of `/users/{id}` read from the `gin.Context`: the path parameter
`c.Param("id")` and the body of the request. -/
structure Context where
  id : String
  body : String
deriving DecidableEq, Repr

/-- The library functions the handlers call, which are not part of the repository:
`uuid.Parse`, `c.ShouldBindJSON(&req)` for an `updateUserRequest` as a function of the
body of the request (the request as bound, with its slice of pointers), and
`bcrypt.GenerateFromPassword` at the default cost. -/
structure Library where
  Parse : String → Except Err uuid.UUID
  ShouldBindJSON : String → Except Err updateUserRequestBound
  GenerateFromPassword : String → Except Err String

/-- The struct `UserHTTPHandler`; `validator` is `h.validator.Struct(req)` for an
`updateUserRequest` as bound. -/
structure UserHTTPHandler (σ : Type) where
  validator : updateUserRequestBound → Option Err
  userService : UserPort σ

variable {σ : Type}

/-- The function `hashPassword`. -/
def hashPassword (lib : Library) (password : String) : Except Err String :=
  match lib.GenerateFromPassword password with
  | .error err => .error err
  | .ok hashedPassword => .ok hashedPassword

/-- The password step of `UpdateUser` (lines 150-158) went through: `hashed` is what it
puts in the DTO, nothing for a request without password, the hash of the password
otherwise. -/
def passwordHashed (lib : Library) (req : updateUserRequestBound) (hashed : Option String) :
    Prop :=
  (req.Password = none ∧ hashed = none)
    ∨ ∃ password hashedPassword, req.Password = some password
        ∧ hashPassword lib password = .ok hashedPassword
        ∧ hashed = some hashedPassword

/-- The end of `UpdateUser` (lines 160-186), once the password of the request has been
dealt with: the address loop, which panics on a nil entry before the service is called,
then the call of the service and the answer. -/
def UserHTTPHandler.updateAndAnswer (h : UserHTTPHandler σ) (userID : String)
    (hashedPassword : Option String) (req : updateUserRequestBound) (st : σ) : Outcome × σ :=
  match updateUserDTOBound hashedPassword req with
  | none => (Outcome.panic, st)
  | some dto =>
      match h.userService.Update userID dto st with
      | (some err, st1) =>
          if err.Is Err.ErrNotFound then
            (Outcome.response { code := 404, body := Body.error "user not found" }, st1)
          else
            (Outcome.response { code := 500, body := Body.error "internal server error" }, st1)
      | (none, st1) => (Outcome.response { code := 200, body := Body.text "ok" }, st1)

/-- The method `UserHTTPHandler.UpdateUser`. -/
def UserHTTPHandler.UpdateUser (h : UserHTTPHandler σ) (lib : Library) (c : Context)
    (st : σ) : Outcome × σ :=
  match lib.Parse c.id with
  | .error _ => (Outcome.response { code := 400, body := Body.error "invalid user ID" }, st)
  | .ok _ =>
      match lib.ShouldBindJSON c.body with
      | .error err => (Outcome.response { code := 400, body := Body.error err.Error }, st)
      | .ok req =>
          match h.validator req with
          | some err => (Outcome.response { code := 400, body := Body.error err.Error }, st)
          | none =>
              match req.Password with
              | some password =>
                  match hashPassword lib password with
                  | .error _ =>
                      (Outcome.response
                        { code := 500, body := Body.error "failed hashing password" }, st)
                  | .ok hashedPassword => h.updateAndAnswer c.id (some hashedPassword) req st
              | none => h.updateAndAnswer c.id none req st

/-- The method `UserHTTPHandler.DeleteUser`. -/
def UserHTTPHandler.DeleteUser (h : UserHTTPHandler σ) (lib : Library) (c : Context)
    (st : σ) : Response × σ :=
  match lib.Parse c.id with
  | .error _ => ({ code := 400, body := Body.error "invalid user ID" }, st)
  | .ok _ =>
      match h.userService.Delete c.id st with
      | (some err, st1) =>
          if err.Is Err.ErrNotFound then
            ({ code := 404, body := Body.error "user not found" }, st1)
          else ({ code := 500, body := Body.error "internal server error" }, st1)
      | (none, st1) => ({ code := 200, body := Body.text "ok" }, st1)

/-- The method `UserHTTPHandler.GetUser`. -/
def UserHTTPHandler.GetUser (h : UserHTTPHandler σ) (lib : Library) (c : Context)
    (st : σ) : Response × σ :=
  match lib.Parse c.id with
  | .error _ => ({ code := 400, body := Body.error "invalid user ID" }, st)
  | .ok _ =>
      match h.userService.GetByUUID c.id st with
      | ((_, some err), st1) =>
          if err.Is Err.ErrNotFound then
            ({ code := 404, body := Body.error "user not found" }, st1)
          else ({ code := 500, body := Body.error "internal server error" }, st1)
      | ((domainUser, none), st1) => ({ code := 200, body := Body.user domainUser }, st1)

/-- The handler `h` over the recording port. -/
def UserHTTPHandler.recorded (h : UserHTTPHandler σ) : UserHTTPHandler (σ × List PortCall) :=
  { validator := h.validator, userService := h.userService.recorded }

/-- The service calls of `UpdateUser` on the request `c` started in state `st`, in order. -/
def UserHTTPHandler.UpdateUserCalls (h : UserHTTPHandler σ) (lib : Library) (c : Context)
    (st : σ) : List PortCall :=
  (h.recorded.UpdateUser lib c (st, [])).2.2

/-- The service calls of `DeleteUser` on the request `c` started in state `st`, in order. -/
def UserHTTPHandler.DeleteUserCalls (h : UserHTTPHandler σ) (lib : Library) (c : Context)
    (st : σ) : List PortCall :=
  (h.recorded.DeleteUser lib c (st, [])).2.2

/-- The service calls of `GetUser` on the request `c` started in state `st`, in order. -/
def UserHTTPHandler.GetUserCalls (h : UserHTTPHandler σ) (lib : Library) (c : Context)
    (st : σ) : List PortCall :=
  (h.recorded.GetUser lib c (st, [])).2.2

end handlers

/-! ## The list handler (`http_user.go`, `Get`) -/

namespace strconv

/-- The decimal digits `cs` read as a number on top of `acc`; none when a character is not
a digit. -/
def digits : List Char → Nat → Option Nat
  | [], acc => some acc
  | c :: rest, acc =>
      if '0' ≤ c ∧ c ≤ '9' then digits rest (10 * acc + (c.toNat - '0'.toNat)) else none

/-- The function `strconv.Atoi` of the Go standard library, which is not part of the
repository, after its documentation: an optional sign `+` or `-`, then one or more decimal
digits and nothing else; a value outside the 64-bit `int` is a range error.  The errors
carry the kind of failure only. -/
def Atoi (s : String) : Except Err Int :=
  let body : List Char :=
    match s.toList with
    | '-' :: rest => rest
    | '+' :: rest => rest
    | cs => cs
  if body = [] then .error (Err.New "strconv.Atoi: invalid syntax")
  else
    match digits body 0 with
    | none => .error (Err.New "strconv.Atoi: invalid syntax")
    | some n =>
        let v : Int := if s.toList.head? = some '-' then -(n : Int) else (n : Int)
        if v < -2 ^ 63 ∨ 2 ^ 63 - 1 < v then
          .error (Err.New "strconv.Atoi: value out of range")
        else .ok v

end strconv

namespace handlers

open user service

variable {σ : Type}

/-- What `Get` reads from the `gin.Context`: the query parameters `page` and `size`, each
absent or present with its text. -/
structure ListContext where
  page : Option String
  size : Option String
deriving DecidableEq, Repr

/-- The method `c.DefaultQuery(key, defaultValue)` on a query parameter. -/
def DefaultQuery (value : Option String) (defaultValue : String) : String :=
  match value with
  | some v => v
  | none => defaultValue

/-- The method `UserHTTPHandler.Get`. -/
def UserHTTPHandler.Get (h : UserHTTPHandler σ) (c : ListContext) (st : σ) : Response × σ :=
  let page := DefaultQuery c.page "1"
  match strconv.Atoi page with
  | .error _ => ({ code := 400, body := Body.error "invalid page param" }, st)
  | .ok iPage =>
      let size := DefaultQuery c.size "5"
      match strconv.Atoi size with
      | .error _ => ({ code := 400, body := Body.error "invalid size param" }, st)
      | .ok iSize =>
          match h.userService.Get iPage iSize st with
          | ((_, some _), st1) =>
              ({ code := 500, body := Body.error "internal server error" }, st1)
          | ((domainUsers, none), st1) =>
              ({ code := 200, body := Body.users domainUsers }, st1)

/-- The service calls of `Get` on the request `c` started in state `st`, in order. -/
def UserHTTPHandler.GetCalls (h : UserHTTPHandler σ) (c : ListContext) (st : σ) :
    List PortCall :=
  (h.recorded.Get c (st, [])).2.2

end handlers

/-! ## The store behind the driver

The claims about which rows are visible after `Create` and `Delete` need the database
itself.  `store.driver` is a `Driver` over a state that holds the two tables, the open
transactions and a clock.  A statement executed on a pool takes effect at once (each pool
connection is in autocommit mode); a statement executed on a transaction is kept with the
transaction and takes effect on the tables at `Commit`, or never after `Rollback`.  The
store answers the statements of `Create`, `InsertAddress`, `Delete`, `GetByUUID`, `Get` and
the existence reads; it refuses every other statement (the UPDATE statements with a
built SET clause among them) with an error. -/

namespace store

open mysql

/-- Modelled from the spec: a row of the table `users(id PK, uuid UNIQUE, email UNIQUE,
password, first_name, last_name, phone_number, created_at, updated_at, deleted_at
NULLABLE)`.  The column `updated_at` is left out: every INSERT writes NULL to it and no
other statement of the repository names it. -/
structure UserRow where
  id : Int
  uuid : String
  email : String
  password : String
  first_name : String
  last_name : String
  phone_number : String
  created_at : Time
  deleted_at : Option Time
deriving DecidableEq, Repr

/-- Modelled from the spec: a row of the table `addresses(user_id FK, type, street, city,
state, postal_code, country, created_at, updated_at, deleted_at NULLABLE)`; `typ` is the
column `type`, and `updated_at` is left out as for `users`. -/
structure AddressRow where
  user_id : Int
  typ : Int
  street : String
  city : String
  state : String
  postal_code : String
  country : String
  created_at : Time
  deleted_at : Option Time
deriving DecidableEq, Repr

/-- The two tables, with the last value given out for the auto-increment column
`users.id`. -/
structure Tables where
  users : List UserRow
  addresses : List AddressRow
  lastID : Int
deriving DecidableEq, Repr

/-- Modelled from the spec: the key constraints of `users`, `id PK` and `uuid UNIQUE`. -/
def Tables.keysUnique (t : Tables) : Prop :=
  (t.users.map (fun u => u.id)).Nodup ∧ (t.users.map (fun u => u.uuid)).Nodup

instance (t : Tables) : Decidable t.keysUnique :=
  inferInstanceAs (Decidable ((t.users.map (fun u : UserRow => u.id)).Nodup
    ∧ (t.users.map (fun u : UserRow => u.uuid)).Nodup))

/-- The statement `UPDATE users SET deleted_at = ? WHERE id = ? LIMIT 1` on the rows: the
first row with the id gets the timestamp. -/
def markUser (ts : Time) (id : Int) : List UserRow → List UserRow
  | [] => []
  | u :: rest =>
      if u.id = id then { u with deleted_at := some ts } :: rest
      else u :: markUser ts id rest

/-- The statement `UPDATE addresses SET deleted_at = ? WHERE user_id = ?` on the rows:
every row of the user gets the timestamp. -/
def markAddresses (ts : Time) (userID : Int) (rows : List AddressRow) : List AddressRow :=
  rows.map (fun a => if a.user_id = userID then { a with deleted_at := some ts } else a)

/-- The statements executed with `ExecContext` that the store knows. -/
inductive Statement where
  | insertUser
  | insertAddress
  | insertAddressByUUID
  | deleteUser
  | deleteAddresses
deriving DecidableEq, Repr

/-- The statement a query text is, by the texts of `repo_user.go`. -/
def statement (query : String) : Option Statement :=
  if query = "\n\t\tINSERT INTO users (uuid, email, password, created_at, updated_at, first_name, last_name, phone_number)\n\t\tVALUES (?, ?, ?, ?, ?, ?, ?, ?)\n\t" then
    some Statement.insertUser
  else if query = "\n\t\tINSERT INTO addresses (user_id, type, street, city, state, postal_code, country, created_at, updated_at)\n\t\tVALUES (?, ?, ?, ?, ?, ?, ?, ?, ?)\n\t" then
    some Statement.insertAddress
  else if query = "\n\t\tINSERT INTO addresses (user_id, type, street, city, state, postal_code, country, created_at, updated_at)\n\t\tVALUES ((SELECT id FROM users WHERE uuid = ? AND deleted_at IS NULL ), ?, ?, ?, ?, ?, ?, ?, ?)\n\t" then
    some Statement.insertAddressByUUID
  else if query = "UPDATE users SET deleted_at = ? WHERE id = ? LIMIT 1" then
    some Statement.deleteUser
  else if query = "UPDATE addresses SET deleted_at = ? WHERE user_id = ?" then
    some Statement.deleteAddresses
  else none

/-- Modelled from the spec: the insert of an address row, refused as a duplicate entry
(MySQL error 1062) when the user already has an address of the type ("at most one address
per type per user"). -/
def insertAddressRow (row : AddressRow) (t : Tables) : Except Err (Int × Tables) :=
  if t.addresses.any (fun a => decide (a.user_id = row.user_id ∧ a.typ = row.typ)) then
    .error (Err.MySQLError 1062 "Duplicate entry")
  else .ok (0, { t with addresses := t.addresses ++ [row] })

/-- One statement on the tables: the error of the database, or the value of
`LastInsertId()` with the tables after.  A user row with a known uuid or email is refused
as a duplicate entry (MySQL error 1062, from `uuid UNIQUE`, `email UNIQUE`), and an
address for a user that the inner SELECT does not find is refused because `user_id` would
be NULL (MySQL error 1048). -/
def exec (query : String) (args : List Value) (t : Tables) : Except Err (Int × Tables) :=
  match statement query, args with
  | some Statement.insertUser,
    [Value.str uuid, Value.str email, Value.str password, Value.time createdAt, Value.null,
     Value.str firstName, Value.str lastName, Value.str phoneNumber] =>
      if t.users.any (fun u => decide (u.uuid = uuid ∨ u.email = email)) then
        .error (Err.MySQLError 1062 "Duplicate entry")
      else
        .ok (t.lastID + 1,
          { t with
            users := t.users ++
              [{ id := t.lastID + 1, uuid := uuid, email := email, password := password,
                 first_name := firstName, last_name := lastName, phone_number := phoneNumber,
                 created_at := createdAt, deleted_at := none }]
            lastID := t.lastID + 1 })
  | some Statement.insertAddress,
    [Value.int userID, Value.int typ, Value.str street, Value.str city, Value.str state,
     Value.str postalCode, Value.str country, Value.time createdAt, Value.null] =>
      insertAddressRow
        { user_id := userID, typ := typ, street := street, city := city, state := state,
          postal_code := postalCode, country := country, created_at := createdAt,
          deleted_at := none } t
  | some Statement.insertAddressByUUID,
    [Value.str uuid, Value.int typ, Value.str street, Value.str city, Value.str state,
     Value.str postalCode, Value.str country, Value.time createdAt, Value.null] =>
      match t.users.find? (fun u => decide (u.uuid = uuid ∧ u.deleted_at = none)) with
      | none => .error (Err.MySQLError 1048 "Column user_id cannot be null")
      | some u =>
          insertAddressRow
            { user_id := u.id, typ := typ, street := street, city := city, state := state,
              postal_code := postalCode, country := country, created_at := createdAt,
              deleted_at := none } t
  | some Statement.deleteUser, [Value.time ts, Value.int id] =>
      .ok (0, { t with users := markUser ts id t.users })
  | some Statement.deleteAddresses, [Value.time ts, Value.int userID] =>
      .ok (0, { t with addresses := markAddresses ts userID t.addresses })
  | _, _ => .error (Err.New "statement not supported")

/-- The statements of a transaction taking effect on the tables, in order. -/
def replay : List (String × List Value) → Tables → Tables
  | [], t => t
  | (query, args) :: rest, t =>
      match exec query args t with
      | .ok (_, t1) => replay rest t1
      | .error _ => replay rest t

/-- The state of the database: the committed tables, which is what every connection
outside a transaction sees; the open transactions, newest first, each with the statements
executed in it so far; the handle the next transaction gets; the faults to come, one entry
per call of the driver (`some err` makes that call fail with `err` and do nothing, as when
the connection is lost; past the end of the list no call fails); and the clock, which
advances with every call. -/
structure Store where
  tables : Tables
  pending : List (Tx × List (String × List Value))
  nextTx : Tx
  faults : List (Option Err)
  clock : Time
deriving DecidableEq, Repr

/-- The fault, if any, that the next call of the driver meets. -/
def Store.fault (st : Store) : Option Err := st.faults.headD none

/-- One call of the driver has gone by. -/
def Store.tick (st : Store) : Store :=
  { st with faults := st.faults.tail, clock := st.clock + 1 }

/-- The error `sql.ErrTxDone`. -/
def ErrTxDone : Err := Err.New "sql: transaction has already been committed or rolled back"

/-- The transaction `tx` is closed. -/
def close (tx : Tx) (pending : List (Tx × List (String × List Value))) :
    List (Tx × List (String × List Value)) :=
  pending.filter (fun p => p.1 != tx)

/-- The answer to `QueryRowContext(...).Scan(&n)` for the three reads of one integer. -/
def queryRowInt (query : String) (args : List Value) (t : Tables) : Except Err Int :=
  if query = "SELECT COUNT(1) FROM users WHERE uuid = ? AND deleted_at IS NULL " then
    match args with
    | [Value.str uuid] =>
        .ok ((t.users.filter (fun u => decide (u.uuid = uuid ∧ u.deleted_at = none))).length)
    | _ => .error (Err.New "statement not supported")
  else if query = "SELECT COUNT(1) FROM addresses WHERE user_id = (SELECT id FROM users WHERE uuid = ? AND deleted_at IS NULL) AND type = ?" then
    match args with
    | [Value.str uuid, Value.int typ] =>
        match t.users.find? (fun u => decide (u.uuid = uuid ∧ u.deleted_at = none)) with
        | none => .ok 0
        | some u =>
            .ok ((t.addresses.filter
              (fun a => decide (a.user_id = u.id ∧ a.typ = typ))).length)
    | _ => .error (Err.New "statement not supported")
  else if query = "SELECT id FROM users WHERE uuid = ?" then
    match args with
    | [Value.str uuid] =>
        match t.users.find? (fun u => decide (u.uuid = uuid)) with
        | none => .error Err.ErrNoRows
        | some u => .ok u.id
    | _ => .error (Err.New "statement not supported")
  else .error (Err.New "statement not supported")

/-- The columns `id, uuid, email, first_name, last_name, phone_number` of a user row. -/
def dbUser (u : UserRow) : entity.DbUser :=
  { ID := some u.id, UUID := some u.uuid, Email := some u.email,
    FirstName := some u.first_name, LastName := some u.last_name,
    PhoneNumber := some u.phone_number }

/-- The columns `type, street, city, state, postal_code, country` of an address row. -/
def dbAddress (a : AddressRow) : entity.DbAddress :=
  { Typ := some a.typ, Street := some a.street, City := some a.city, State := some a.state,
    PostalCode := some a.postal_code, Country := some a.country }

/-- The answer to the read of one user row by uuid. -/
def queryRowUser (query : String) (args : List Value) (t : Tables) : Except Err entity.DbUser :=
  if query = "SELECT id, uuid, email, first_name, last_name, phone_number FROM users WHERE uuid = ? AND deleted_at IS NULL" then
    match args with
    | [Value.str uuid] =>
        match t.users.find? (fun u => decide (u.uuid = uuid ∧ u.deleted_at = none)) with
        | none => .error Err.ErrNoRows
        | some u => .ok (dbUser u)
    | _ => .error (Err.New "statement not supported")
  else .error (Err.New "statement not supported")

/-- The answer to the read of a page of user rows; a negative LIMIT or OFFSET is a syntax
error (MySQL error 1064). -/
def queryUsers (query : String) (args : List Value) (t : Tables) :
    Except Err (List (Except Err entity.DbUser)) :=
  if query = "SELECT id, uuid, email, first_name, last_name, phone_number FROM users WHERE deleted_at IS NULL LIMIT ? OFFSET ?" then
    match args with
    | [Value.int limit, Value.int offset] =>
        if limit < 0 ∨ offset < 0 then .error (Err.MySQLError 1064 "You have an error in your SQL syntax")
        else
          .ok ((((t.users.filter (fun u => decide (u.deleted_at = none))).drop
            offset.toNat).take limit.toNat).map (fun u => .ok (dbUser u)))
    | _ => .error (Err.New "statement not supported")
  else .error (Err.New "statement not supported")

/-- The answer to the read of the address rows of a user (the text of `GetByUUID`, and
the text of `Get`, which ends with a blank). -/
def queryAddresses (query : String) (args : List Value) (t : Tables) :
    Except Err (List (Except Err entity.DbAddress)) :=
  if query = "SELECT type, street, city, state, postal_code, country FROM addresses WHERE user_id = ? AND deleted_at IS NULL"
      ∨ query = "SELECT type, street, city, state, postal_code, country FROM addresses WHERE user_id = ? AND deleted_at IS NULL " then
    match args with
    | [Value.int userID] =>
        .ok ((t.addresses.filter
          (fun a => decide (a.user_id = userID ∧ a.deleted_at = none))).map
            (fun a => .ok (dbAddress a)))
    | [Value.null] => .ok []
    | _ => .error (Err.New "statement not supported")
  else .error (Err.New "statement not supported")

/-- The database as a `Driver`. -/
def driver : Driver Store where
  BeginTx _ st :=
    match st.fault with
    | some err => (.error err, st.tick)
    | none =>
        (.ok st.nextTx,
          { st.tick with pending := (st.nextTx, []) :: st.pending, nextTx := st.nextTx + 1 })
  Commit tx st :=
    match st.fault with
    | some err => (some err, { st.tick with pending := close tx st.pending })
    | none =>
        match st.pending.lookup tx with
        | none => (some ErrTxDone, st.tick)
        | some statements =>
            (none, { st.tick with tables := replay statements st.tables,
                                  pending := close tx st.pending })
  Rollback tx st :=
    match st.fault with
    | some err => (some err, { st.tick with pending := close tx st.pending })
    | none =>
        match st.pending.lookup tx with
        | none => (some ErrTxDone, st.tick)
        | some _ => (none, { st.tick with pending := close tx st.pending })
  ExecContext c query args st :=
    match st.fault with
    | some err => (.error err, st.tick)
    | none =>
        match c with
        | Conn.pool _ =>
            match exec query args st.tables with
            | .error err => (.error err, st.tick)
            | .ok (id, t1) => (.ok (.ok id), { st.tick with tables := t1 })
        | Conn.tx tx =>
            match st.pending.lookup tx with
            | none => (.error ErrTxDone, st.tick)
            | some statements =>
                match exec query args (replay statements st.tables) with
                | .error err => (.error err, st.tick)
                | .ok (id, _) =>
                    (.ok (.ok id),
                      { st.tick with
                        pending := (tx, statements ++ [(query, args)]) :: close tx st.pending })
  QueryRowInt _ query args st :=
    match st.fault with
    | some err => (.error err, st.tick)
    | none => (queryRowInt query args st.tables, st.tick)
  QueryRowUser _ query args st :=
    match st.fault with
    | some err => (.error err, st.tick)
    | none => (queryRowUser query args st.tables, st.tick)
  QueryUsers _ query args st :=
    match st.fault with
    | some err => (.error err, st.tick)
    | none => (queryUsers query args st.tables, st.tick)
  QueryAddresses _ query args st :=
    match st.fault with
    | some err => (.error err, st.tick)
    | none => (queryAddresses query args st.tables, st.tick)
  Now st := st.clock

/-- The MySQL repository over the store (`NewUserRepository`); a map is visited in the
order of its list. -/
def repo (Parse : String → Except Err uuid.UUID) : userRepository Store :=
  { db := driver, mapOrder := fun fields => fields, Parse := Parse }

/-- A store without rows and without open transactions, with the faults to come. -/
def empty (faults : List (Option Err)) : Store :=
  { tables := { users := [], addresses := [], lastID := 0 }, pending := [], nextTx := 1,
    faults := faults, clock := 1000 }

end store

/-! ## Sample collaborators

Concrete collaborators on which the statements below are instantiated: a parser that
knows one identifier, and repositories over a clock that ticks at every call. -/

namespace sample

open user service

/-- An identifier value. -/
def uuid1 : uuid.UUID := 0x6ba7b8109dad11d180b400c04fd430c8

/-- The identifier of `uuid1`. -/
def id1 : domain.ID := { value := uuid1 }

/-- A parser that accepts the text of `uuid1` and nothing else. -/
def Parse (s : String) : Except Err uuid.UUID :=
  if s = "6ba7b810-9dad-11d1-80b4-00c04fd430c8" then .ok uuid1
  else .error (Err.New "invalid UUID format")

/-- A repository whose state is a clock: every call advances it by one, and the error a
call returns is given by `answer`. -/
def scripted (answer : Call → Option Err) : Repository Nat where
  Create u createdAt st := (answer (Call.Create u createdAt), st + 1)
  UpdateBasicFields id fields st := (answer (Call.UpdateBasicFields id fields), st + 1)
  UpdateAddress id addrType fields st := (answer (Call.UpdateAddress id addrType fields), st + 1)
  InsertAddress id addr createdAt st := (answer (Call.InsertAddress id addr createdAt), st + 1)
  Delete id st := (answer (Call.Delete id), st + 1)
  GetByUUID id st := ((none, answer (Call.GetByUUID id)), st + 1)
  Get page pageSize st := (([], answer (Call.Get page pageSize)), st + 1)

/-- A service over a scripted repository; the time source reads the clock. -/
def svc (answer : Call → Option Err) : userService Nat where
  userRepo := scripted answer
  timeProvider := { UtcNow := fun st => (st : Int) }

/-- Every call succeeds. -/
def allOk : Call → Option Err := fun _ => none

/-- The basic-field update fails, every other call succeeds. -/
def failBasic : Call → Option Err
  | Call.UpdateBasicFields _ _ => some (Err.New "some error")
  | _ => none

/-- The user has no address of type 1: updating it reports address-not-found; every other
call succeeds. -/
def noAddress1 : Call → Option Err
  | Call.UpdateAddress _ 1 _ => some Err.ErrAddressNotFound
  | _ => none

/-- The user does not exist: the basic-field update reports `ErrNotFound`. -/
def userMissing : Call → Option Err
  | Call.UpdateBasicFields _ _ => some Err.ErrNotFound
  | _ => none

/-- A create DTO with two address entries of type 1. -/
def twoOfType1 : CreateUserDTO :=
  { ID := id1, Email := "a@b.com", Password := "hash", FirstName := "A", LastName := "B",
    PhoneNumber := "123456789",
    Addresses :=
      [{ Typ := 1, Street := "S1", City := "C1", State := "", PostalCode := "1", Country := "" },
       { Typ := 1, Street := "S2", City := "C2", State := "", PostalCode := "2", Country := "" }] }

/-- A database without any user row, over a clock that ticks at every call: every count is
zero, no row is found, and every `ExecContext` is answered with `exec`. -/
def noUsers (exec : Except Err (Except Err Int)) : mysql.Driver Nat where
  BeginTx _ st := (.ok st, st + 1)
  Commit _ st := (none, st + 1)
  Rollback _ st := (none, st + 1)
  ExecContext _ _ _ st := (exec, st + 1)
  QueryRowInt _ _ _ st := (.ok 0, st + 1)
  QueryRowUser _ _ _ st := (.error Err.ErrNoRows, st + 1)
  QueryUsers _ _ _ st := (.ok [], st + 1)
  QueryAddresses _ _ _ st := (.ok [], st + 1)
  Now st := (st : Int)

/-- The MySQL repository over `noUsers`; a map is visited in the order of its list. -/
def repo (exec : Except Err (Except Err Int)) : mysql.userRepository Nat :=
  { db := noUsers exec, mapOrder := fun fields => fields, Parse := Parse }

/-- The time source that reads the clock of the database state. -/
def clock : domain.TimeProvider Nat := { UtcNow := fun st => (st : Int) }

/-- A parser that accepts the all-zero text as well, with the value `uuid.Parse` gives it. -/
def ParseZero (s : String) : Except Err uuid.UUID :=
  if s = "00000000-0000-0000-0000-000000000000" then .ok uuid.Nil else Parse s

/-- A create request with an upper-case email and one address of external type 1. -/
def upperRequest : handlers.createUserRequest :=
  { Email := "A@B.com", Password := "password1", FirstName := "A", LastName := "B",
    PhoneNumber := "123456789",
    Addresses :=
      [{ Typ := 1, Street := "S1", City := "C1", State := "", PostalCode := "1", Country := "" }] }

/-- A second identifier. -/
def id2 : domain.ID := { value := 0x6ba7b8119dad11d180b400c04fd430c8 }

/-- A user aggregate with an address of type 1 and an address of type 2. -/
def user1 : User :=
  { ID := id1, Email := "a@b.com", Password := "hash", FirstName := "A", LastName := "B",
    PhoneNumber := "123456789",
    Addresses :=
      [{ Typ := 1, Street := "S1", City := "C1", State := "", PostalCode := "1", Country := "" },
       { Typ := 2, Street := "S2", City := "C2", State := "", PostalCode := "2", Country := "" }] }

/-- The row of `user1` in the table `users`, with its deletion mark. -/
def row1 (deleted_at : Option Time) : store.UserRow :=
  { id := 1, uuid := "6ba7b810-9dad-11d1-80b4-00c04fd430c8", email := "a@b.com",
    password := "hash", first_name := "A", last_name := "B", phone_number := "123456789",
    created_at := 5, deleted_at := deleted_at }

/-- The two rows of `user1` in the table `addresses`, with their deletion mark. -/
def addressRows1 (deleted_at : Option Time) : List store.AddressRow :=
  [{ user_id := 1, typ := 1, street := "S1", city := "C1", state := "", postal_code := "1",
     country := "", created_at := 5, deleted_at := deleted_at },
   { user_id := 1, typ := 2, street := "S2", city := "C2", state := "", postal_code := "2",
     country := "", created_at := 5, deleted_at := deleted_at }]

/-- A store that holds `user1`, not deleted, and nothing else, with the faults to come. -/
def stored (faults : List (Option Err)) : store.Store :=
  { tables := { users := [row1 none], addresses := addressRows1 none, lastID := 1 },
    pending := [], nextTx := 2, faults := faults, clock := 1000 }

/-- The store after `user1` has been deleted once: `stored` after a `Delete` that met no
fault. -/
def afterDelete : store.Store := ((store.repo Parse).Delete id1 (stored [])).2

/-- The time source that reads the clock of the store. -/
def storeClock : domain.TimeProvider store.Store := { UtcNow := fun st => st.clock }

/-- An update request with nothing present. -/
def emptyRequest : handlers.updateUserRequest :=
  { Password := none, FirstName := none, LastName := none, PhoneNumber := none, Addresses := [] }

/-- An update request as bound with nothing present. -/
def emptyBound : handlers.updateUserRequestBound :=
  { Password := none, FirstName := none, LastName := none, PhoneNumber := none, Addresses := [] }

/-- An update request as bound whose one address entry is the nil pointer. -/
def nullAddressBound : handlers.updateUserRequestBound :=
  { Password := none, FirstName := none, LastName := none, PhoneNumber := none,
    Addresses := [none] }

/-- Library functions for the handlers: the parser of `Parse`; a binder that knows four
bodies, the empty one and an opening brace (both refused with the text `encoding/json`
gives), the empty object, and the object whose member "addresses" is an array with the one
entry `null`; and a hash function that marks its argument. -/
def lib : handlers.Library :=
  { Parse := Parse
    ShouldBindJSON := fun body =>
      if body = "" then .error (Err.New "EOF")
      else if body = "\x7b" then .error (Err.New "unexpected EOF")
      else if body = "\x7b\x7d" then .ok emptyBound
      else if body = "\x7b\"addresses\":[null]\x7d" then .ok nullAddressBound
      else .error (Err.New "invalid request")
    GenerateFromPassword := fun password => .ok ("$2a$10$" ++ password) }

/-- A handler over the service of `svc`, with a validator that accepts every request. -/
def handler (answer : Call → Option Err) : handlers.UserHTTPHandler Nat :=
  { validator := fun _ => none, userService := (svc answer).toUserPort Parse }

/-- An update DTO with nothing present. -/
def emptyDTO : UpdateUserDTO :=
  { Password := none, FirstName := none, LastName := none, PhoneNumber := none, Addresses := [] }

/-- An address patch of type `t` that sets the street. -/
def street (t : Int) (v : String) : UpdateUserAddress :=
  { Typ := t, Street := some v, City := none, State := none, PostalCode := none, Country := none }

end sample

/-! # Theorems -/

namespace service

open user

variable {σ : Type}

/-- The recording service answers `UpdateAddress` as the service does and appends the call. -/
theorem recorded_UpdateAddress (s : userService σ) (id : domain.ID) (t : Int) (f : Fields)
    (st : σ) (log : List (Event σ)) :
    s.recorded.userRepo.UpdateAddress id t f (st, log)
      = ((s.userRepo.UpdateAddress id t f st).1,
         ((s.userRepo.UpdateAddress id t f st).2,
          log ++ [⟨Call.UpdateAddress id t f, st, (s.userRepo.UpdateAddress id t f st).1,
                   (s.userRepo.UpdateAddress id t f st).2⟩])) := rfl

/-- The recording service answers `InsertAddress` as the service does and appends the call. -/
theorem recorded_InsertAddress (s : userService σ) (id : domain.ID) (a : Address) (t : Time)
    (st : σ) (log : List (Event σ)) :
    s.recorded.userRepo.InsertAddress id a t (st, log)
      = ((s.userRepo.InsertAddress id a t st).1,
         ((s.userRepo.InsertAddress id a t st).2,
          log ++ [⟨Call.InsertAddress id a t, st, (s.userRepo.InsertAddress id a t st).1,
                   (s.userRepo.InsertAddress id a t st).2⟩])) := rfl

/-- The recording service answers `UpdateBasicFields` as the service does and appends the call. -/
theorem recorded_UpdateBasicFields (s : userService σ) (id : domain.ID) (f : Fields)
    (st : σ) (log : List (Event σ)) :
    s.recorded.userRepo.UpdateBasicFields id f (st, log)
      = ((s.userRepo.UpdateBasicFields id f st).1,
         ((s.userRepo.UpdateBasicFields id f st).2,
          log ++ [⟨Call.UpdateBasicFields id f, st, (s.userRepo.UpdateBasicFields id f st).1,
                   (s.userRepo.UpdateBasicFields id f st).2⟩])) := rfl

/-- The recording service reads the clock of the underlying state. -/
theorem recorded_UtcNow (s : userService σ) (st : σ) (log : List (Event σ)) :
    s.recorded.timeProvider.UtcNow (st, log) = s.timeProvider.UtcNow st := rfl

/-- The record of a run of the address loop extends the record it started with. -/
theorem updateAddresses_recorded (s : userService σ) (id : domain.ID)
    (addrs : List UpdateUserAddress) (st : σ) (log : List (Event σ)) :
    s.recorded.updateAddresses id addrs (st, log)
      = ((s.updateAddresses id addrs st).1,
         ((s.updateAddresses id addrs st).2,
          log ++ (s.recorded.updateAddresses id addrs (st, [])).2.2)) := by
  induction addrs generalizing st log with
  | nil => simp [userService.updateAddresses]
  | cons addr rest ih =>
    simp only [userService.updateAddresses, recorded_UpdateAddress, recorded_InsertAddress,
      recorded_UtcNow]
    by_cases hf : (addrFields addr).length > 0
    · simp only [hf, if_true]
      rcases hu : s.userRepo.UpdateAddress id addr.Typ (addrFields addr) st with ⟨_ | err, st1⟩
      · simp only [List.nil_append]
        rw [ih st1 (log ++ _), ih st1 [_]]
        simp
      · simp only [List.nil_append]
        by_cases he : err.Is Err.ErrAddressNotFound = true
        · simp only [he, if_true]
          rcases hi : s.userRepo.InsertAddress id (newAddr addr) (s.timeProvider.UtcNow st1) st1
            with ⟨_ | err2, st2⟩ <;> simp [recorded_InsertAddress, recorded_UtcNow, hi]
        · simp [he]
    · simp only [hf, if_false]
      exact ih st log

/-- The address loop returns the same error and state with or without the record. -/
theorem updateAddresses_recorded_result (s : userService σ) (id : domain.ID)
    (addrs : List UpdateUserAddress) (st : σ) (log : List (Event σ)) :
    (s.recorded.updateAddresses id addrs (st, log)).1 = (s.updateAddresses id addrs st).1
      ∧ (s.recorded.updateAddresses id addrs (st, log)).2.1 = (s.updateAddresses id addrs st).2
      ∧ (s.recorded.updateAddresses id addrs (st, log)).2.2 = log ++ s.addressCalls id addrs st := by
  rw [updateAddresses_recorded]
  exact ⟨rfl, rfl, rfl⟩

/-- No call is recorded for an empty list of address entries. -/
theorem addressCalls_nil (s : userService σ) (id : domain.ID) (st : σ) :
    s.addressCalls id [] st = [] := rfl

/-- An entry without a present sub-field adds no call. -/
theorem addressCalls_skip (s : userService σ) (id : domain.ID) (addr : UpdateUserAddress)
    (rest : List UpdateUserAddress) (st : σ) (hf : ¬ (addrFields addr).length > 0) :
    s.addressCalls id (addr :: rest) st = s.addressCalls id rest st := by
  simp only [userService.addressCalls, userService.updateAddresses, hf, if_false]

/-- An entry whose update succeeds adds that call and the loop goes on. -/
theorem addressCalls_updated (s : userService σ) (id : domain.ID) (addr : UpdateUserAddress)
    (rest : List UpdateUserAddress) (st st1 : σ) (hf : (addrFields addr).length > 0)
    (hu : s.userRepo.UpdateAddress id addr.Typ (addrFields addr) st = (none, st1)) :
    s.addressCalls id (addr :: rest) st
      = ⟨Call.UpdateAddress id addr.Typ (addrFields addr), st, none, st1⟩
          :: s.addressCalls id rest st1 := by
  simp only [userService.addressCalls, userService.updateAddresses, hf, if_true,
    recorded_UpdateAddress, hu, List.nil_append]
  rw [updateAddresses_recorded]
  rfl

/-- An entry whose update fails with another error than address-not-found ends the record. -/
theorem addressCalls_failed (s : userService σ) (id : domain.ID) (addr : UpdateUserAddress)
    (rest : List UpdateUserAddress) (st st1 : σ) (err : Err)
    (hf : (addrFields addr).length > 0)
    (hu : s.userRepo.UpdateAddress id addr.Typ (addrFields addr) st = (some err, st1))
    (he : ¬ err.Is Err.ErrAddressNotFound = true) :
    s.addressCalls id (addr :: rest) st
      = [⟨Call.UpdateAddress id addr.Typ (addrFields addr), st, some err, st1⟩] := by
  simp [userService.addressCalls, userService.updateAddresses, hf,
    recorded_UpdateAddress, hu, he]

/-- An entry whose update reports address-not-found adds the update and the insert, and
ends the record. -/
theorem addressCalls_inserted (s : userService σ) (id : domain.ID) (addr : UpdateUserAddress)
    (rest : List UpdateUserAddress) (st st1 : σ) (err : Err)
    (hf : (addrFields addr).length > 0)
    (hu : s.userRepo.UpdateAddress id addr.Typ (addrFields addr) st = (some err, st1))
    (he : err.Is Err.ErrAddressNotFound = true) :
    s.addressCalls id (addr :: rest) st
      = [⟨Call.UpdateAddress id addr.Typ (addrFields addr), st, some err, st1⟩,
         ⟨Call.InsertAddress id (newAddr addr) (s.timeProvider.UtcNow st1), st1,
           (s.userRepo.InsertAddress id (newAddr addr) (s.timeProvider.UtcNow st1) st1).1,
           (s.userRepo.InsertAddress id (newAddr addr) (s.timeProvider.UtcNow st1) st1).2⟩] := by
  simp only [userService.addressCalls, userService.updateAddresses, hf, if_true,
    recorded_UpdateAddress, hu, he, List.nil_append, recorded_InsertAddress, recorded_UtcNow]
  rcases hi : s.userRepo.InsertAddress id (newAddr addr) (s.timeProvider.UtcNow st1) st1
    with ⟨_ | err2, st2⟩ <;> simp

/-- The calls of `Update` when the identifier does not parse: none. -/
theorem UpdateCalls_parse_error (s : userService σ) (Parse : String → Except Err uuid.UUID)
    (userID : String) (dto : UpdateUserDTO) (st : σ) (err : Err)
    (hid : domain.ParseID Parse userID = .error err) :
    s.UpdateCalls Parse userID dto st = [] := by
  simp [userService.UpdateCalls, userService.Update, hid]

/-- The calls of `Update` when no basic field is present: those of the address loop. -/
theorem UpdateCalls_no_basic (s : userService σ) (Parse : String → Except Err uuid.UUID)
    (userID : String) (dto : UpdateUserDTO) (st : σ) (id : domain.ID)
    (hid : domain.ParseID Parse userID = .ok id) (hf : ¬ (userFields dto).length > 0) :
    s.UpdateCalls Parse userID dto st = s.addressCalls id dto.Addresses st := by
  simp only [userService.UpdateCalls, userService.Update, hid, hf, if_false]
  rfl

/-- The calls of `Update` when the basic-field update fails: that call alone. -/
theorem UpdateCalls_basic_failed (s : userService σ) (Parse : String → Except Err uuid.UUID)
    (userID : String) (dto : UpdateUserDTO) (st st1 : σ) (id : domain.ID) (err : Err)
    (hid : domain.ParseID Parse userID = .ok id) (hf : (userFields dto).length > 0)
    (hu : s.userRepo.UpdateBasicFields id (userFields dto) st = (some err, st1)) :
    s.UpdateCalls Parse userID dto st
      = [⟨Call.UpdateBasicFields id (userFields dto), st, some err, st1⟩] := by
  simp [userService.UpdateCalls, userService.Update, hid, hf, recorded_UpdateBasicFields, hu]

/-- The calls of `Update` when the basic-field update succeeds: that call, then the
address loop. -/
theorem UpdateCalls_basic_ok (s : userService σ) (Parse : String → Except Err uuid.UUID)
    (userID : String) (dto : UpdateUserDTO) (st st1 : σ) (id : domain.ID)
    (hid : domain.ParseID Parse userID = .ok id) (hf : (userFields dto).length > 0)
    (hu : s.userRepo.UpdateBasicFields id (userFields dto) st = (none, st1)) :
    s.UpdateCalls Parse userID dto st
      = ⟨Call.UpdateBasicFields id (userFields dto), st, none, st1⟩
          :: s.addressCalls id dto.Addresses st1 := by
  simp only [userService.UpdateCalls, userService.Update, hid, hf, if_true,
    recorded_UpdateBasicFields, hu, List.nil_append]
  rw [updateAddresses_recorded]
  rfl

/-- One step of the address loop: what the head entry adds to the record and to the result,
by the four ways the step can go. -/
theorem updateAddresses_cons_cases (s : userService σ) (id : domain.ID)
    (addr : UpdateUserAddress) (rest : List UpdateUserAddress) (st : σ) :
    (¬ (addrFields addr).length > 0
        ∧ s.addressCalls id (addr :: rest) st = s.addressCalls id rest st
        ∧ s.updateAddresses id (addr :: rest) st = s.updateAddresses id rest st)
    ∨ ((addrFields addr).length > 0 ∧ ∃ st1,
        s.userRepo.UpdateAddress id addr.Typ (addrFields addr) st = (none, st1)
        ∧ s.addressCalls id (addr :: rest) st
            = ⟨Call.UpdateAddress id addr.Typ (addrFields addr), st, none, st1⟩
                :: s.addressCalls id rest st1
        ∧ s.updateAddresses id (addr :: rest) st = s.updateAddresses id rest st1)
    ∨ ((addrFields addr).length > 0 ∧ ∃ err st1,
        s.userRepo.UpdateAddress id addr.Typ (addrFields addr) st = (some err, st1)
        ∧ err.Is Err.ErrAddressNotFound = false
        ∧ s.addressCalls id (addr :: rest) st
            = [⟨Call.UpdateAddress id addr.Typ (addrFields addr), st, some err, st1⟩]
        ∧ s.updateAddresses id (addr :: rest) st
            = (some (Err.Wrap "failed updating user address data" err), st1))
    ∨ ((addrFields addr).length > 0 ∧ ∃ err st1 res st2,
        s.userRepo.UpdateAddress id addr.Typ (addrFields addr) st = (some err, st1)
        ∧ err.Is Err.ErrAddressNotFound = true
        ∧ s.userRepo.InsertAddress id (newAddr addr) (s.timeProvider.UtcNow st1) st1 = (res, st2)
        ∧ s.addressCalls id (addr :: rest) st
            = [⟨Call.UpdateAddress id addr.Typ (addrFields addr), st, some err, st1⟩,
               ⟨Call.InsertAddress id (newAddr addr) (s.timeProvider.UtcNow st1), st1, res, st2⟩]
        ∧ s.updateAddresses id (addr :: rest) st
            = (res.map (fun _ => Err.New "failed inserting additional address"), st2)) := by
  by_cases hf : (addrFields addr).length > 0
  · rcases hu : s.userRepo.UpdateAddress id addr.Typ (addrFields addr) st with ⟨_ | err, st1⟩
    · refine Or.inr (Or.inl ⟨hf, st1, rfl, addressCalls_updated s id addr rest st st1 hf hu, ?_⟩)
      simp [userService.updateAddresses, hf, hu]
    · by_cases he : err.Is Err.ErrAddressNotFound = true
      · rcases hi : s.userRepo.InsertAddress id (newAddr addr) (s.timeProvider.UtcNow st1) st1
          with ⟨res, st2⟩
        refine Or.inr (Or.inr (Or.inr ⟨hf, err, st1, res, st2, rfl, he, hi, ?_, ?_⟩))
        · rw [addressCalls_inserted s id addr rest st st1 err hf hu he, hi]
        · cases res <;> simp [userService.updateAddresses, hf, hu, he, hi]
      · refine Or.inr (Or.inr (Or.inl ⟨hf, err, st1, rfl, by simpa using he,
          addressCalls_failed s id addr rest st st1 err hf hu he, ?_⟩))
        simp [userService.updateAddresses, hf, hu, he]
  · exact Or.inl ⟨hf, addressCalls_skip s id addr rest st hf, by
      simp [userService.updateAddresses, hf]⟩

/-- The map built from the basic fields is empty exactly when the four fields are absent. -/
theorem userFields_length_pos (dto : UpdateUserDTO) :
    (userFields dto).length > 0
      ↔ (dto.Password.isSome ∨ dto.FirstName.isSome ∨ dto.LastName.isSome
          ∨ dto.PhoneNumber.isSome) := by
  rcases dto with ⟨_ | p, _ | f, _ | l, _ | n, addrs⟩ <;>
    simp [userFields, Fields.setIfPresent, Fields.set]

/-- The map built from an address entry is empty exactly when its five sub-fields are absent. -/
theorem addrFields_length_pos (addr : UpdateUserAddress) :
    (addrFields addr).length > 0
      ↔ (addr.Street.isSome ∨ addr.City.isSome ∨ addr.State.isSome ∨ addr.PostalCode.isSome
          ∨ addr.Country.isSome) := by
  rcases addr with ⟨t, _ | a, _ | b, _ | c, _ | d, _ | e⟩ <;>
    simp [addrFields, Fields.setIfPresent, Fields.set]

/-- A list of address entries without any present sub-field: no call, success, same state. -/
theorem updateAddresses_all_absent (s : userService σ) (id : domain.ID)
    (addrs : List UpdateUserAddress) (st : σ)
    (h : ∀ addr ∈ addrs, ¬ (addrFields addr).length > 0) :
    s.addressCalls id addrs st = [] ∧ s.updateAddresses id addrs st = (none, st) := by
  induction addrs with
  | nil => exact ⟨rfl, rfl⟩
  | cons addr rest ih =>
    have hf := h addr (List.mem_cons_self _ _)
    have ih2 := ih (fun a ha => h a (List.mem_cons_of_mem _ ha))
    rw [addressCalls_skip s id addr rest st hf]
    refine ⟨ih2.1, ?_⟩
    simp only [userService.updateAddresses, hf, if_false]
    exact ih2.2

/-- The text of a wrapped error contains its context. -/
theorem containsText_Wrap (context : String) (err : Err) :
    containsText (Err.Wrap context err).Error context :=
  ⟨"", ": " ++ err.Error, by simp [Err.Error, String.append_assoc]⟩

/-- C5: for a well-formed identifier and an update DTO whose four basic fields are absent
and whose address entries have every sub-field absent, `Update` makes no repository call,
returns success and leaves the state as it was. -/
theorem Update_empty_delta (s : userService σ) (Parse : String → Except Err uuid.UUID)
    (userID : String) (id : domain.ID) (dto : UpdateUserDTO) (st : σ)
    (hid : domain.ParseID Parse userID = .ok id)
    (hbasic : dto.Password = none ∧ dto.FirstName = none ∧ dto.LastName = none
      ∧ dto.PhoneNumber = none)
    (haddr : ∀ addr ∈ dto.Addresses, addr.Street = none ∧ addr.City = none
      ∧ addr.State = none ∧ addr.PostalCode = none ∧ addr.Country = none) :
    s.UpdateCalls Parse userID dto st = [] ∧ s.Update Parse userID dto st = (none, st) := by
  have hf : ¬ (userFields dto).length > 0 := by
    rw [userFields_length_pos]
    obtain ⟨h1, h2, h3, h4⟩ := hbasic
    simp [h1, h2, h3, h4]
  have ha : ∀ addr ∈ dto.Addresses, ¬ (addrFields addr).length > 0 := by
    intro addr hmem
    rw [addrFields_length_pos]
    obtain ⟨h1, h2, h3, h4, h5⟩ := haddr addr hmem
    simp [h1, h2, h3, h4, h5]
  have hall := updateAddresses_all_absent s id dto.Addresses st ha
  refine ⟨?_, ?_⟩
  · rw [UpdateCalls_no_basic s Parse userID dto st id hid hf]
    exact hall.1
  · simp only [userService.Update, hid, hf, if_false]
    exact hall.2

/-- Witness of `Update_empty_delta`: the empty DTO on the sample service. -/
theorem Update_empty_delta_witness :
    (sample.svc sample.allOk).UpdateCalls sample.Parse "6ba7b810-9dad-11d1-80b4-00c04fd430c8"
        sample.emptyDTO 0 = []
      ∧ (sample.svc sample.allOk).Update sample.Parse "6ba7b810-9dad-11d1-80b4-00c04fd430c8"
        sample.emptyDTO 0 = (none, 0) :=
  Update_empty_delta (sample.svc sample.allOk) sample.Parse
    "6ba7b810-9dad-11d1-80b4-00c04fd430c8" sample.id1 sample.emptyDTO 0
    (by simp [domain.ParseID, sample.Parse, sample.id1])
    ⟨rfl, rfl, rfl, rfl⟩ (by simp [sample.emptyDTO])

/-- C6: for a string that does not parse as an identifier, `Update`, `Delete` and
`GetByUUID` each return an error whose text contains "failed parsing uuid" (`GetByUUID`
with a nil user), make no repository call and leave the state as it was, whatever the DTO
contains. -/
theorem malformed_identifier_rejected (s : userService σ)
    (Parse : String → Except Err uuid.UUID) (userID : String) (err : Err)
    (dto : UpdateUserDTO) (st : σ) (hid : domain.ParseID Parse userID = .error err) :
    (∃ e, s.Update Parse userID dto st = (some e, st)
        ∧ containsText e.Error "failed parsing uuid")
      ∧ s.UpdateCalls Parse userID dto st = []
      ∧ (∃ e, s.Delete Parse userID st = (some e, st)
        ∧ containsText e.Error "failed parsing uuid")
      ∧ s.DeleteCalls Parse userID st = []
      ∧ (∃ e, s.GetByUUID Parse userID st = ((none, some e), st)
        ∧ containsText e.Error "failed parsing uuid")
      ∧ s.GetByUUIDCalls Parse userID st = [] := by
  refine ⟨⟨Err.Wrap "failed parsing uuid" err, ?_, containsText_Wrap _ _⟩,
    UpdateCalls_parse_error s Parse userID dto st err hid,
    ⟨Err.Wrap "failed parsing uuid" err, ?_, containsText_Wrap _ _⟩, ?_,
    ⟨Err.Wrap "failed parsing uuid" err, ?_, containsText_Wrap _ _⟩, ?_⟩
  · simp [userService.Update, hid]
  · simp [userService.Delete, hid]
  · simp [userService.DeleteCalls, userService.Delete, hid]
  · simp [userService.GetByUUID, hid]
  · simp [userService.GetByUUIDCalls, userService.GetByUUID, hid]

/-- Witness of `malformed_identifier_rejected`: the text "invalid-uuid" of the test-suite. -/
theorem malformed_identifier_rejected_witness :
    (∃ e, (sample.svc sample.allOk).Update sample.Parse "invalid-uuid" sample.emptyDTO 0
          = (some e, 0) ∧ containsText e.Error "failed parsing uuid")
      ∧ (sample.svc sample.allOk).UpdateCalls sample.Parse "invalid-uuid" sample.emptyDTO 0 = []
      ∧ (∃ e, (sample.svc sample.allOk).Delete sample.Parse "invalid-uuid" 0 = (some e, 0)
          ∧ containsText e.Error "failed parsing uuid")
      ∧ (sample.svc sample.allOk).DeleteCalls sample.Parse "invalid-uuid" 0 = []
      ∧ (∃ e, (sample.svc sample.allOk).GetByUUID sample.Parse "invalid-uuid" 0
          = ((none, some e), 0) ∧ containsText e.Error "failed parsing uuid")
      ∧ (sample.svc sample.allOk).GetByUUIDCalls sample.Parse "invalid-uuid" 0 = [] :=
  malformed_identifier_rejected (sample.svc sample.allOk) sample.Parse "invalid-uuid"
    (Err.New "invalid UUID format") sample.emptyDTO 0
    (by simp [domain.ParseID, sample.Parse])

/-- The address loop records only `UpdateAddress` and `InsertAddress` calls. -/
theorem addressCalls_not_basic (s : userService σ) (id : domain.ID)
    (addrs : List UpdateUserAddress) (st : σ) :
    ∀ ev ∈ s.addressCalls id addrs st, ev.call.isUpdateBasicFields = false := by
  induction addrs generalizing st with
  | nil => intro ev hev; simp [addressCalls_nil] at hev
  | cons addr rest ih =>
    intro ev hev
    rcases updateAddresses_cons_cases s id addr rest st with
      ⟨_, hc, _⟩ | ⟨_, st1, _, hc, _⟩ | ⟨_, err, st1, _, _, hc, _⟩
        | ⟨_, err, st1, res, st2, _, _, _, hc, _⟩
    · rw [hc] at hev; exact ih st ev hev
    · rw [hc] at hev
      rcases List.mem_cons.1 hev with h | h
      · rw [h]; rfl
      · exact ih st1 ev h
    · rw [hc] at hev
      simp only [List.mem_singleton] at hev
      rw [hev]; rfl
    · rw [hc] at hev
      simp only [List.mem_cons, List.mem_singleton, List.not_mem_nil, or_false] at hev
      rcases hev with h | h <;> rw [h] <;> rfl

/-- The entries of the map built from the basic fields: one per present field, under its
column name, with the value of the DTO. -/
theorem userFields_entries (dto : UpdateUserDTO) :
    Fields.get (userFields dto) "password" = dto.Password
      ∧ Fields.get (userFields dto) "first_name" = dto.FirstName
      ∧ Fields.get (userFields dto) "last_name" = dto.LastName
      ∧ Fields.get (userFields dto) "phone_number" = dto.PhoneNumber
      ∧ (Fields.keys (userFields dto)).Nodup
      ∧ (∀ k ∈ Fields.keys (userFields dto),
          k ∈ ["password", "first_name", "last_name", "phone_number"])
      ∧ (userFields dto).length
          = (dto.Password.toList ++ dto.FirstName.toList ++ dto.LastName.toList
              ++ dto.PhoneNumber.toList).length := by
  rcases dto with ⟨_ | p, _ | f, _ | l, _ | n, addrs⟩ <;>
    simp [userFields, Fields.setIfPresent, Fields.set, Fields.get, Fields.keys]

/-- C1: for a well-formed identifier and any update DTO, the record of `Update` holds
exactly one `UpdateBasicFields` call when at least one of password, first name, last name,
phone number is present, and none when all four are absent; the call carries the parsed
identifier and a field mapping that has one entry per present field, keyed
password / first_name / last_name / phone_number and holding the value of the DTO, and no
entry for an absent field. -/
theorem Update_basic_fields_call (s : userService σ) (Parse : String → Except Err uuid.UUID)
    (userID : String) (id : domain.ID) (dto : UpdateUserDTO) (st : σ)
    (hid : domain.ParseID Parse userID = .ok id) :
    ((dto.Password.isSome ∨ dto.FirstName.isSome ∨ dto.LastName.isSome
          ∨ dto.PhoneNumber.isSome) →
        ∃ fields,
          ((s.UpdateCalls Parse userID dto st).map (fun ev => ev.call)).filter
              Call.isUpdateBasicFields = [Call.UpdateBasicFields id fields]
          ∧ Fields.get fields "password" = dto.Password
          ∧ Fields.get fields "first_name" = dto.FirstName
          ∧ Fields.get fields "last_name" = dto.LastName
          ∧ Fields.get fields "phone_number" = dto.PhoneNumber
          ∧ (Fields.keys fields).Nodup
          ∧ (∀ k ∈ Fields.keys fields,
              k ∈ ["password", "first_name", "last_name", "phone_number"])
          ∧ fields.length
              = (dto.Password.toList ++ dto.FirstName.toList ++ dto.LastName.toList
                  ++ dto.PhoneNumber.toList).length)
      ∧ ((dto.Password = none ∧ dto.FirstName = none ∧ dto.LastName = none
          ∧ dto.PhoneNumber = none) →
        ((s.UpdateCalls Parse userID dto st).map (fun ev => ev.call)).filter
            Call.isUpdateBasicFields = []) := by
  have hnone : ∀ st1, ((s.addressCalls id dto.Addresses st1).map (fun ev => ev.call)).filter
      Call.isUpdateBasicFields = [] := by
    intro st1
    rw [List.filter_eq_nil_iff]
    intro c hc
    obtain ⟨ev, hev, rfl⟩ := List.mem_map.1 hc
    simp [addressCalls_not_basic s id dto.Addresses st1 ev hev]
  constructor
  · intro hpresent
    have hf : (userFields dto).length > 0 := (userFields_length_pos dto).2 hpresent
    obtain ⟨h1, h2, h3, h4, h5, h6, h7⟩ := userFields_entries dto
    refine ⟨userFields dto, ?_, h1, h2, h3, h4, h5, h6, h7⟩
    rcases hu : s.userRepo.UpdateBasicFields id (userFields dto) st with ⟨_ | err, st1⟩
    · rw [UpdateCalls_basic_ok s Parse userID dto st st1 id hid hf hu]
      simp [Call.isUpdateBasicFields, hnone st1]
    · rw [UpdateCalls_basic_failed s Parse userID dto st st1 id err hid hf hu]
      simp [Call.isUpdateBasicFields]
  · intro habsent
    have hf : ¬ (userFields dto).length > 0 := by
      rw [userFields_length_pos]
      obtain ⟨h1, h2, h3, h4⟩ := habsent
      simp [h1, h2, h3, h4]
    rw [UpdateCalls_no_basic s Parse userID dto st id hid hf]
    exact hnone st

/-- Witness of `Update_basic_fields_call`: the patch that sets the first name only. -/
theorem Update_basic_fields_call_witness :
    ∃ fields,
      (((sample.svc sample.allOk).UpdateCalls sample.Parse
          "6ba7b810-9dad-11d1-80b4-00c04fd430c8"
          { sample.emptyDTO with FirstName := some "X" } 0).map (fun ev => ev.call)).filter
          Call.isUpdateBasicFields = [Call.UpdateBasicFields sample.id1 fields]
        ∧ Fields.get fields "first_name" = some "X"
        ∧ Fields.get fields "password" = none := by
  obtain ⟨fields, h0, h1, h2, _⟩ :=
    (Update_basic_fields_call (sample.svc sample.allOk) sample.Parse
      "6ba7b810-9dad-11d1-80b4-00c04fd430c8" sample.id1
      { sample.emptyDTO with FirstName := some "X" } 0
      (by simp [domain.ParseID, sample.Parse, sample.id1])).1 (by simp)
  exact ⟨fields, h0, h2, h1⟩

/-- In the record of the address loop a failed call is the last one, and the loop then
returns an error. -/
theorem addressCalls_fail_fast (s : userService σ) (id : domain.ID)
    (addrs : List UpdateUserAddress) (st : σ) (i : Nat) (ev : Event σ)
    (hev : (s.addressCalls id addrs st)[i]? = some ev) (hfail : failed ev = true) :
    i + 1 = (s.addressCalls id addrs st).length
      ∧ ∃ e, (s.updateAddresses id addrs st).1 = some e := by
  induction addrs generalizing st i with
  | nil => simp [addressCalls_nil] at hev
  | cons addr rest ih =>
    rcases updateAddresses_cons_cases s id addr rest st with
      ⟨_, hc, hr⟩ | ⟨_, st1, _, hc, hr⟩ | ⟨_, err, st1, _, he, hc, hr⟩
        | ⟨_, err, st1, res, st2, _, he, _, hc, hr⟩
    · rw [hc] at hev ⊢
      rw [hr]
      exact ih st i hev
    · rw [hc] at hev ⊢
      rw [hr]
      cases i with
      | zero =>
        simp only [List.getElem?_cons_zero, Option.some.injEq] at hev
        rw [← hev] at hfail
        simp [failed] at hfail
      | succ j =>
        simp only [List.getElem?_cons_succ] at hev
        obtain ⟨h1, h2⟩ := ih st1 j hev
        exact ⟨by simp only [List.length_cons]; omega, h2⟩
    · rw [hc] at hev ⊢
      rw [hr]
      cases i with
      | zero => exact ⟨rfl, _, rfl⟩
      | succ j => simp at hev
    · rw [hc] at hev ⊢
      rw [hr]
      cases i with
      | zero =>
        simp only [List.getElem?_cons_zero, Option.some.injEq] at hev
        rw [← hev] at hfail
        simp [failed, he] at hfail
      | succ j =>
        cases j with
        | zero =>
          simp only [List.getElem?_cons_succ, List.getElem?_cons_zero,
            Option.some.injEq] at hev
          rw [← hev] at hfail
          cases res with
          | none => simp [failed] at hfail
          | some e2 => exact ⟨rfl, _, rfl⟩
        | succ k => simp at hev

/-- C7: `Update` is fail-fast.  A recorded repository call that failed
(`UpdateBasicFields` with any error, `UpdateAddress` with an error other than
address-not-found, `InsertAddress` with any error) is the last call of the record, and
`Update` returns an error: a basic-field failure leaves every address patch unattempted,
an address failure leaves all later entries unattempted. -/
theorem Update_fail_fast (s : userService σ) (Parse : String → Except Err uuid.UUID)
    (userID : String) (dto : UpdateUserDTO) (st : σ) (i : Nat) (ev : Event σ)
    (hev : (s.UpdateCalls Parse userID dto st)[i]? = some ev) (hfail : failed ev = true) :
    i + 1 = (s.UpdateCalls Parse userID dto st).length
      ∧ ∃ e, (s.Update Parse userID dto st).1 = some e := by
  rcases hid : domain.ParseID Parse userID with err | id
  · rw [UpdateCalls_parse_error s Parse userID dto st err hid] at hev
    simp at hev
  · by_cases hf : (userFields dto).length > 0
    · rcases hu : s.userRepo.UpdateBasicFields id (userFields dto) st with ⟨_ | err, st1⟩
      · rw [UpdateCalls_basic_ok s Parse userID dto st st1 id hid hf hu] at hev ⊢
        have hr : s.Update Parse userID dto st = s.updateAddresses id dto.Addresses st1 := by
          simp [userService.Update, hid, hf, hu]
        rw [hr]
        cases i with
        | zero =>
          simp only [List.getElem?_cons_zero, Option.some.injEq] at hev
          rw [← hev] at hfail
          simp [failed] at hfail
        | succ j =>
          simp only [List.getElem?_cons_succ] at hev
          obtain ⟨h1, h2⟩ := addressCalls_fail_fast s id dto.Addresses st1 j ev hev hfail
          exact ⟨by simp only [List.length_cons]; omega, h2⟩
      · rw [UpdateCalls_basic_failed s Parse userID dto st st1 id err hid hf hu] at hev ⊢
        have hr : s.Update Parse userID dto st
            = (some (Err.Wrap "failed updating user personal data" err), st1) := by
          simp [userService.Update, hid, hf, hu]
        rw [hr]
        cases i with
        | zero => exact ⟨rfl, _, rfl⟩
        | succ j => simp at hev
    · rw [UpdateCalls_no_basic s Parse userID dto st id hid hf] at hev ⊢
      have hr : s.Update Parse userID dto st = s.updateAddresses id dto.Addresses st := by
        simp [userService.Update, hid, hf]
      rw [hr]
      exact addressCalls_fail_fast s id dto.Addresses st i ev hev hfail

/-- Witness of `Update_fail_fast`: a failing basic-field update before an address patch. -/
theorem Update_fail_fast_witness :
    0 + 1 = ((sample.svc sample.failBasic).UpdateCalls sample.Parse
        "6ba7b810-9dad-11d1-80b4-00c04fd430c8"
        { sample.emptyDTO with FirstName := some "X", Addresses := [sample.street 1 "A"] }
        0).length
      ∧ ∃ e, ((sample.svc sample.failBasic).Update sample.Parse
        "6ba7b810-9dad-11d1-80b4-00c04fd430c8"
        { sample.emptyDTO with FirstName := some "X", Addresses := [sample.street 1 "A"] }
        0).1 = some e :=
  Update_fail_fast (sample.svc sample.failBasic) sample.Parse
    "6ba7b810-9dad-11d1-80b4-00c04fd430c8"
    { sample.emptyDTO with FirstName := some "X", Addresses := [sample.street 1 "A"] } 0 0
    ⟨Call.UpdateBasicFields sample.id1 [("first_name", "X")], 0,
      some (Err.New "some error"), 1⟩
    (by rfl) (by rfl)

/-- In the record of the address loop, an `UpdateAddress` call that reports
address-not-found comes from an entry of the list and is followed at once by the insert of
that entry, which is the only insert of the record. -/
theorem addressCalls_insert (s : userService σ) (id : domain.ID)
    (addrs : List UpdateUserAddress) (st : σ) (i : Nat) (ev : Event σ)
    (id1 : domain.ID) (t : Int) (f : Fields) (e : Err)
    (hev : (s.addressCalls id addrs st)[i]? = some ev)
    (hcall : ev.call = Call.UpdateAddress id1 t f) (herr : ev.err = some e)
    (he : e.Is Err.ErrAddressNotFound = true) :
    id1 = id ∧ ∃ addr ∈ addrs, addr.Typ = t ∧ f = addrFields addr ∧ ∃ ev2,
      (s.addressCalls id addrs st)[i + 1]? = some ev2
      ∧ ev2.call = Call.InsertAddress id (newAddr addr) (s.timeProvider.UtcNow ev.after)
      ∧ ev2.before = ev.after
      ∧ (s.addressCalls id addrs st).filter (fun x => x.call.isInsertAddress) = [ev2] := by
  induction addrs generalizing st i with
  | nil => simp [addressCalls_nil] at hev
  | cons addr rest ih =>
    rcases updateAddresses_cons_cases s id addr rest st with
      ⟨_, hc, _⟩ | ⟨_, st1, _, hc, _⟩ | ⟨_, err, st1, _, he1, hc, _⟩
        | ⟨_, err, st1, res, st2, _, he1, _, hc, _⟩
    · rw [hc] at hev ⊢
      obtain ⟨h0, a, ha, h1⟩ := ih st i hev
      exact ⟨h0, a, List.mem_cons_of_mem _ ha, h1⟩
    · rw [hc] at hev ⊢
      cases i with
      | zero =>
        simp only [List.getElem?_cons_zero, Option.some.injEq] at hev
        rw [← hev] at herr
        simp at herr
      | succ j =>
        simp only [List.getElem?_cons_succ] at hev
        obtain ⟨h0, a, ha, h1, h2, ev2, h3, h4, h5, h6⟩ := ih st1 j hev
        refine ⟨h0, a, List.mem_cons_of_mem _ ha, h1, h2, ev2, ?_, h4, h5, ?_⟩
        · simpa only [List.getElem?_cons_succ] using h3
        · simpa [List.filter_cons, Call.isInsertAddress] using h6
    · rw [hc] at hev
      cases i with
      | zero =>
        simp only [List.getElem?_cons_zero, Option.some.injEq] at hev
        rw [← hev] at herr
        simp only [Option.some.injEq] at herr
        rw [herr, he] at he1
        simp at he1
      | succ j => simp at hev
    · rw [hc] at hev ⊢
      cases i with
      | zero =>
        simp only [List.getElem?_cons_zero, Option.some.injEq] at hev
        rw [← hev] at hcall
        simp only [Call.UpdateAddress.injEq] at hcall
        obtain ⟨h1, h2, h3⟩ := hcall
        refine ⟨h1.symm, addr, List.mem_cons_self _ _, h2, h3.symm, _, rfl, ?_, ?_, ?_⟩
        · rw [← hev]; rfl
        · rw [← hev]; rfl
        · simp [List.filter_cons, Call.isInsertAddress]
      | succ j =>
        cases j with
        | zero =>
          simp only [List.getElem?_cons_succ, List.getElem?_cons_zero,
            Option.some.injEq] at hev
          rw [← hev] at hcall
          simp at hcall
        | succ k => simp at hev

/-- C3: when a recorded `UpdateAddress` call of `Update` reports address-not-found, the
call comes from an address entry of the DTO, and the very next recorded call is
`InsertAddress` with the same (parsed) identifier, an address whose type is the type of
the entry and whose street, city, state, postal code and country are the supplied values
where present and the empty string where absent, and with the value the time source holds
after the failed update as creation timestamp; it is the only insert of the record. -/
theorem Update_insert_on_address_not_found (s : userService σ)
    (Parse : String → Except Err uuid.UUID) (userID : String) (dto : UpdateUserDTO) (st : σ)
    (i : Nat) (ev : Event σ) (id : domain.ID) (t : Int) (f : Fields) (e : Err)
    (hev : (s.UpdateCalls Parse userID dto st)[i]? = some ev)
    (hcall : ev.call = Call.UpdateAddress id t f) (herr : ev.err = some e)
    (he : e.Is Err.ErrAddressNotFound = true) :
    domain.ParseID Parse userID = .ok id
      ∧ ∃ addr ∈ dto.Addresses, addr.Typ = t ∧ f = addrFields addr ∧ ∃ ev2,
        (s.UpdateCalls Parse userID dto st)[i + 1]? = some ev2
        ∧ ev2.call = Call.InsertAddress id
            { Typ := addr.Typ
              Street := addr.Street.getD ""
              City := addr.City.getD ""
              State := addr.State.getD ""
              PostalCode := addr.PostalCode.getD ""
              Country := addr.Country.getD "" }
            (s.timeProvider.UtcNow ev.after)
        ∧ ev2.before = ev.after
        ∧ (s.UpdateCalls Parse userID dto st).filter (fun x => x.call.isInsertAddress)
            = [ev2] := by
  rcases hid : domain.ParseID Parse userID with err | id0
  · rw [UpdateCalls_parse_error s Parse userID dto st err hid] at hev
    simp at hev
  · by_cases hf : (userFields dto).length > 0
    · rcases hu : s.userRepo.UpdateBasicFields id0 (userFields dto) st with ⟨_ | err, st1⟩
      · rw [UpdateCalls_basic_ok s Parse userID dto st st1 id0 hid hf hu] at hev ⊢
        cases i with
        | zero =>
          simp only [List.getElem?_cons_zero, Option.some.injEq] at hev
          rw [← hev] at hcall
          simp at hcall
        | succ j =>
          simp only [List.getElem?_cons_succ] at hev
          obtain ⟨h0, a, ha, h1, h2, ev2, h3, h4, h5, h6⟩ :=
            addressCalls_insert s id0 dto.Addresses st1 j ev id t f e hev hcall herr he
          subst h0
          refine ⟨rfl, a, ha, h1, h2, ev2, ?_, h4, h5, ?_⟩
          · simpa only [List.getElem?_cons_succ] using h3
          · simpa [List.filter_cons, Call.isInsertAddress] using h6
      · rw [UpdateCalls_basic_failed s Parse userID dto st st1 id0 err hid hf hu] at hev
        cases i with
        | zero =>
          simp only [List.getElem?_cons_zero, Option.some.injEq] at hev
          rw [← hev] at hcall
          simp at hcall
        | succ j => simp at hev
    · rw [UpdateCalls_no_basic s Parse userID dto st id0 hid hf] at hev ⊢
      obtain ⟨h0, a, ha, h1, h2, ev2, h3, h4, h5, h6⟩ :=
        addressCalls_insert s id0 dto.Addresses st i ev id t f e hev hcall herr he
      subst h0
      exact ⟨rfl, a, ha, h1, h2, ev2, h3, h4, h5, h6⟩

/-- Witness of `Update_insert_on_address_not_found`: a patch of the street of the missing
type 1 is inserted with the other fields empty, at the time read after the failed update. -/
theorem Update_insert_on_address_not_found_witness :
    ∃ ev2,
      ((sample.svc sample.noAddress1).UpdateCalls sample.Parse
          "6ba7b810-9dad-11d1-80b4-00c04fd430c8"
          { sample.emptyDTO with Addresses := [sample.street 1 "A"] } 0)[0 + 1]? = some ev2
        ∧ ev2.call = Call.InsertAddress sample.id1
            { Typ := 1, Street := "A", City := "", State := "", PostalCode := "", Country := "" }
            1 := by
  obtain ⟨_, addr, hmem, _, _, ev2, h1, h2, _⟩ :=
    Update_insert_on_address_not_found (sample.svc sample.noAddress1) sample.Parse
      "6ba7b810-9dad-11d1-80b4-00c04fd430c8"
      { sample.emptyDTO with Addresses := [sample.street 1 "A"] } 0 0
      ⟨Call.UpdateAddress sample.id1 1 [("street", "A")], 0, some Err.ErrAddressNotFound, 1⟩
      sample.id1 1 [("street", "A")] Err.ErrAddressNotFound (by rfl) rfl rfl (by rfl)
  simp only [List.mem_singleton] at hmem
  subst hmem
  exact ⟨ev2, h1, h2⟩

/-- C2, the run that breaks it: two address patches with a present street, types 1 and 2,
for a user that has no address of type 1.  `Update` calls `UpdateAddress` for type 1,
inserts the address, and returns success without any call for the entry of type 2. -/
theorem Update_stops_after_insert :
    ((sample.svc sample.noAddress1).UpdateCalls sample.Parse
        "6ba7b810-9dad-11d1-80b4-00c04fd430c8"
        { sample.emptyDTO with Addresses := [sample.street 1 "A", sample.street 2 "B"] }
        0).map (fun ev => (ev.call, ev.err))
      = [(Call.UpdateAddress sample.id1 1 [("street", "A")], some Err.ErrAddressNotFound),
         (Call.InsertAddress sample.id1
            { Typ := 1, Street := "A", City := "", State := "", PostalCode := "", Country := "" }
            1, none)]
    ∧ (sample.svc sample.noAddress1).Update sample.Parse
        "6ba7b810-9dad-11d1-80b4-00c04fd430c8"
        { sample.emptyDTO with Addresses := [sample.street 1 "A", sample.street 2 "B"] } 0
      = (none, 2)
    ∧ ((sample.svc sample.allOk).UpdateCalls sample.Parse
        "6ba7b810-9dad-11d1-80b4-00c04fd430c8"
        { sample.emptyDTO with Addresses := [sample.street 1 "A", sample.street 2 "B"] }
        0).map (fun ev => (ev.call, ev.err))
      = [(Call.UpdateAddress sample.id1 1 [("street", "A")], none),
         (Call.UpdateAddress sample.id1 2 [("street", "B")], none)] := by
  refine ⟨by rfl, by rfl, by rfl⟩

/-- The loop of `Create` that appends one converted address per entry is a map. -/
theorem foldl_append_singleton {α β : Type} (g : α → β) (l : List α) (acc : List β) :
    l.foldl (fun addresses addr => addresses ++ [g addr]) acc = acc ++ l.map g := by
  induction l generalizing acc with
  | nil => simp
  | cons a rest ih => simp [List.foldl_cons, ih]

/-- The recording service answers `Create` as the service does and appends the call. -/
theorem recorded_Create (s : userService σ) (u : User) (t : Time)
    (st : σ) (log : List (Event σ)) :
    s.recorded.userRepo.Create u t (st, log)
      = ((s.userRepo.Create u t st).1,
         ((s.userRepo.Create u t st).2,
          log ++ [⟨Call.Create u t, st, (s.userRepo.Create u t st).1,
                   (s.userRepo.Create u t st).2⟩])) := rfl

/-- The recording service answers `Delete` as the service does and appends the call. -/
theorem recorded_Delete (s : userService σ) (id : domain.ID)
    (st : σ) (log : List (Event σ)) :
    s.recorded.userRepo.Delete id (st, log)
      = ((s.userRepo.Delete id st).1,
         ((s.userRepo.Delete id st).2,
          log ++ [⟨Call.Delete id, st, (s.userRepo.Delete id st).1,
                   (s.userRepo.Delete id st).2⟩])) := rfl

/-- The aggregate of `Create` holds the converted address entries of the DTO, in order. -/
theorem newUser_Addresses (dto : CreateUserDTO) :
    (newUser dto).Addresses = dto.Addresses.map (fun addr =>
      { Typ := addr.Typ, Street := addr.Street, City := addr.City,
        State := addr.State, PostalCode := addr.PostalCode, Country := addr.Country }) := by
  simp [newUser, foldl_append_singleton]

/-- The record of `Create`: its one repository call with the answer of the repository,
and the error `Create` makes of that answer. -/
theorem CreateCalls_event (s : userService σ) (dto : CreateUserDTO) (st : σ) :
    s.CreateCalls dto st
        = [⟨Call.Create (newUser dto) (s.timeProvider.UtcNow st), st,
            (s.userRepo.Create (newUser dto) (s.timeProvider.UtcNow st) st).1,
            (s.userRepo.Create (newUser dto) (s.timeProvider.UtcNow st) st).2⟩]
      ∧ (s.Create dto st).1
        = (s.userRepo.Create (newUser dto) (s.timeProvider.UtcNow st) st).1.map (fun err =>
            if err.Is Err.ErrEmailAlreadyExists then Err.ErrEmailAlreadyExists
            else Err.Wrap "failed creating user" err) := by
  constructor
  · simp only [userService.CreateCalls, userService.Create, recorded_Create, recorded_UtcNow,
      List.nil_append]
    rcases hc : s.userRepo.Create (newUser dto) (s.timeProvider.UtcNow st) st
      with ⟨_ | err, st1⟩
    · rfl
    · by_cases he : err.Is Err.ErrEmailAlreadyExists = true <;> simp [he]
  · simp only [userService.Create]
    rcases hc : s.userRepo.Create (newUser dto) (s.timeProvider.UtcNow st) st
      with ⟨_ | err, st1⟩
    · rfl
    · by_cases he : err.Is Err.ErrEmailAlreadyExists = true <;> simp [he]

/-- When every call of the address loop succeeds, its record is one `UpdateAddress` per
entry with a present sub-field, in the order of the list. -/
theorem addressCalls_all_ok (s : userService σ) (id : domain.ID)
    (addrs : List UpdateUserAddress) (st : σ)
    (hall : ∀ ev ∈ s.addressCalls id addrs st, ev.err = none) :
    (s.addressCalls id addrs st).map (fun ev => ev.call)
      = (addrs.filter (fun addr => decide ((addrFields addr).length > 0))).map
          (fun addr => Call.UpdateAddress id addr.Typ (addrFields addr)) := by
  induction addrs generalizing st with
  | nil => simp [addressCalls_nil]
  | cons addr rest ih =>
    rcases updateAddresses_cons_cases s id addr rest st with
      ⟨hf, hc, _⟩ | ⟨hf, st1, _, hc, _⟩ | ⟨_, err, st1, _, _, hc, _⟩
        | ⟨_, err, st1, res, st2, _, _, _, hc, _⟩
    · rw [hc] at hall ⊢
      simp only [List.filter_cons, hf, decide_False, Bool.false_eq_true, if_false]
      exact ih st hall
    · rw [hc] at hall ⊢
      simp only [List.filter_cons, hf, decide_True, if_true, List.map_cons]
      rw [ih st1 (fun ev hev => hall ev (List.mem_cons_of_mem _ hev))]
    · rw [hc] at hall
      have := hall _ (List.mem_cons_self _ _)
      simp at this
    · rw [hc] at hall
      have := hall _ (List.mem_cons_self _ _)
      simp at this

/-- C9 as stated fails: for a Create DTO with two address entries of type 1 the aggregate
the service passes to the repository holds both entries, and for an Update DTO with two
patches of type 1 the service calls `UpdateAddress` for both. -/
theorem service_keeps_duplicate_types :
    ((sample.svc sample.allOk).CreateCalls sample.twoOfType1 0).map (fun ev => ev.call)
      = [Call.Create
          { ID := sample.id1, Email := "a@b.com", Password := "hash", FirstName := "A",
            LastName := "B", PhoneNumber := "123456789",
            Addresses :=
              [{ Typ := 1, Street := "S1", City := "C1", State := "", PostalCode := "1",
                 Country := "" },
               { Typ := 1, Street := "S2", City := "C2", State := "", PostalCode := "2",
                 Country := "" }] } 0]
    ∧ ((sample.svc sample.allOk).UpdateCalls sample.Parse
        "6ba7b810-9dad-11d1-80b4-00c04fd430c8"
        { sample.emptyDTO with Addresses := [sample.street 1 "A", sample.street 1 "B"] }
        0).map (fun ev => ev.call)
      = [Call.UpdateAddress sample.id1 1 [("street", "A")],
         Call.UpdateAddress sample.id1 1 [("street", "B")]] := by
  refine ⟨by rfl, by rfl⟩

/-- C9 amended: the service does not de-duplicate by type.  `Create` makes one repository
call whose aggregate holds every address entry of the DTO, converted field by field, in
the order of the DTO, duplicates of a type included; and in a run of `Update` with a
well-formed identifier in which every repository call succeeds, the `UpdateAddress` calls
are exactly one per entry with a present sub-field, in the order of the DTO, duplicates
of a type included. -/
theorem service_passes_every_address (s : userService σ)
    (Parse : String → Except Err uuid.UUID) :
    (∀ (dto : CreateUserDTO) (st : σ), ∃ u createdAt,
        (s.CreateCalls dto st).map (fun ev => ev.call) = [Call.Create u createdAt]
        ∧ u.Addresses = dto.Addresses.map (fun addr =>
            { Typ := addr.Typ, Street := addr.Street, City := addr.City,
              State := addr.State, PostalCode := addr.PostalCode, Country := addr.Country })
        ∧ u.Addresses.length = dto.Addresses.length)
    ∧ (∀ (userID : String) (id : domain.ID) (dto : UpdateUserDTO) (st : σ),
        domain.ParseID Parse userID = .ok id →
        (∀ ev ∈ s.UpdateCalls Parse userID dto st, ev.err = none) →
        ((s.UpdateCalls Parse userID dto st).map (fun ev => ev.call)).filter
            Call.isUpdateAddress
          = (dto.Addresses.filter (fun addr => decide ((addrFields addr).length > 0))).map
              (fun addr => Call.UpdateAddress id addr.Typ (addrFields addr))) := by
  constructor
  · intro dto st
    refine ⟨newUser dto, s.timeProvider.UtcNow st, ?_, newUser_Addresses dto, ?_⟩
    · rw [(CreateCalls_event s dto st).1]
      rfl
    · rw [newUser_Addresses, List.length_map]
  · intro userID id dto st hid hall
    have hfilter : ∀ l : List UpdateUserAddress,
        (l.map (fun addr => Call.UpdateAddress id addr.Typ (addrFields addr))).filter
          Call.isUpdateAddress
          = l.map (fun addr => Call.UpdateAddress id addr.Typ (addrFields addr)) := by
      intro l
      rw [List.filter_eq_self]
      intro c hc
      obtain ⟨a, _, rfl⟩ := List.mem_map.1 hc
      rfl
    by_cases hf : (userFields dto).length > 0
    · rcases hu : s.userRepo.UpdateBasicFields id (userFields dto) st with ⟨_ | err, st1⟩
      · rw [UpdateCalls_basic_ok s Parse userID dto st st1 id hid hf hu] at hall ⊢
        rw [List.map_cons, List.filter_cons]
        simp only [Call.isUpdateBasicFields, Call.isUpdateAddress, Bool.false_eq_true,
          if_false]
        rw [addressCalls_all_ok s id dto.Addresses st1
          (fun ev hev => hall ev (List.mem_cons_of_mem _ hev))]
        exact hfilter _
      · rw [UpdateCalls_basic_failed s Parse userID dto st st1 id err hid hf hu] at hall
        have := hall _ (List.mem_cons_self _ _)
        simp at this
    · rw [UpdateCalls_no_basic s Parse userID dto st id hid hf] at hall ⊢
      rw [addressCalls_all_ok s id dto.Addresses st hall]
      exact hfilter _

/-- Witness of `service_passes_every_address`: two patches of type 1 on a repository whose
calls all succeed. -/
theorem service_passes_every_address_witness :
    (((sample.svc sample.allOk).UpdateCalls sample.Parse
        "6ba7b810-9dad-11d1-80b4-00c04fd430c8"
        { sample.emptyDTO with Addresses := [sample.street 1 "A", sample.street 1 "B"] }
        0).map (fun ev => ev.call)).filter Call.isUpdateAddress
      = [Call.UpdateAddress sample.id1 1 [("street", "A")],
         Call.UpdateAddress sample.id1 1 [("street", "B")]] :=
  (service_passes_every_address (sample.svc sample.allOk) sample.Parse).2
    "6ba7b810-9dad-11d1-80b4-00c04fd430c8" sample.id1
    { sample.emptyDTO with Addresses := [sample.street 1 "A", sample.street 1 "B"] } 0
    (by rfl)
    (by
      intro ev hev
      have h : (sample.svc sample.allOk).UpdateCalls sample.Parse
          "6ba7b810-9dad-11d1-80b4-00c04fd430c8"
          { sample.emptyDTO with Addresses := [sample.street 1 "A", sample.street 1 "B"] } 0
          = [⟨Call.UpdateAddress sample.id1 1 [("street", "A")], 0, none, 1⟩,
             ⟨Call.UpdateAddress sample.id1 1 [("street", "B")], 1, none, 2⟩] := by rfl
      rw [h] at hev
      simp only [List.mem_cons, List.mem_singleton, List.not_mem_nil, or_false] at hev
      rcases hev with h1 | h1 <;> rw [h1])

/-- An error is itself, in the sense of `errors.Is`. -/
theorem Is_self (e : Err) : e.Is e = true := by
  cases e <;> simp [Err.Is]

/-- Wrapping with `%w` keeps the cause and everything the cause is recognised as. -/
theorem Is_Wrap (context : String) (e target : Err) :
    (Err.Wrap context e).Is e = true
      ∧ (e.Is target = true → (Err.Wrap context e).Is target = true) := by
  constructor
  · simp [Err.Is, Is_self]
  · intro h
    simp [Err.Is, h]

/-- The record of `Delete` for a well-formed identifier: its one repository call, and
the error `Delete` makes of the answer. -/
theorem DeleteCalls_event (s : userService σ) (Parse : String → Except Err uuid.UUID)
    (userID : String) (id : domain.ID) (st : σ)
    (hid : domain.ParseID Parse userID = .ok id) :
    s.DeleteCalls Parse userID st
        = [⟨Call.Delete id, st, (s.userRepo.Delete id st).1, (s.userRepo.Delete id st).2⟩]
      ∧ (s.Delete Parse userID st).1
        = (s.userRepo.Delete id st).1.map (fun err =>
            if err.Is Err.ErrNotFound then err else Err.Wrap "failed deleting user" err) := by
  constructor
  · simp only [userService.DeleteCalls, userService.Delete, hid, recorded_Delete,
      List.nil_append]
    rcases hc : s.userRepo.Delete id st with ⟨_ | err, st1⟩
    · rfl
    · by_cases he : err.Is Err.ErrNotFound = true <;> simp [he]
  · simp only [userService.Delete, hid]
    rcases hc : s.userRepo.Delete id st with ⟨_ | err, st1⟩
    · rfl
    · by_cases he : err.Is Err.ErrNotFound = true <;> simp [he]

/-- In the address loop, an `UpdateAddress` error that is not address-not-found is
returned wrapped with the context of the operation. -/
theorem updateAddresses_error (s : userService σ) (id : domain.ID)
    (addrs : List UpdateUserAddress) (st : σ) (ev : Event σ) (e : Err)
    (hev : ev ∈ s.addressCalls id addrs st) (herr : ev.err = some e)
    (hcall : ev.call.isUpdateAddress = true) (he : e.Is Err.ErrAddressNotFound = false) :
    (s.updateAddresses id addrs st).1
      = some (Err.Wrap "failed updating user address data" e) := by
  induction addrs generalizing st with
  | nil => simp [addressCalls_nil] at hev
  | cons addr rest ih =>
    rcases updateAddresses_cons_cases s id addr rest st with
      ⟨_, hc, hr⟩ | ⟨_, st1, _, hc, hr⟩ | ⟨_, err, st1, _, _, hc, hr⟩
        | ⟨_, err, st1, res, st2, _, he1, _, hc, hr⟩
    · rw [hc] at hev
      rw [hr]
      exact ih st hev
    · rw [hc] at hev
      rw [hr]
      rcases List.mem_cons.1 hev with h | h
      · rw [h] at herr
        simp at herr
      · exact ih st1 h
    · rw [hc] at hev
      rw [hr]
      simp only [List.mem_singleton] at hev
      rw [hev] at herr
      simp only [Option.some.injEq] at herr
      rw [herr]
    · rw [hc] at hev
      simp only [List.mem_cons, List.mem_singleton, List.not_mem_nil, or_false] at hev
      rcases hev with h | h
      · rw [h] at herr
        simp only [Option.some.injEq] at herr
        rw [herr, he] at he1
        simp at he1
      · rw [h] at hcall
        simp [Call.isUpdateAddress] at hcall

/-- C8 as stated fails: a taxonomy error is not always returned unchanged.  When
`UpdateBasicFields` reports `ErrNotFound`, `Update` returns it wrapped with the context of
the operation (still recognised as `ErrNotFound`); when the repository `Create` reports
`ErrAddressAlreadyExists`, `Create` returns it wrapped as well. -/
theorem taxonomy_error_is_wrapped :
    (sample.svc sample.userMissing).Update sample.Parse
        "6ba7b810-9dad-11d1-80b4-00c04fd430c8"
        { sample.emptyDTO with FirstName := some "X" } 0
      = (some (Err.Wrap "failed updating user personal data" Err.ErrNotFound), 1)
    ∧ Err.Wrap "failed updating user personal data" Err.ErrNotFound ≠ Err.ErrNotFound
    ∧ (Err.Wrap "failed updating user personal data" Err.ErrNotFound).Is Err.ErrNotFound = true
    ∧ (sample.svc (fun _ => some Err.ErrAddressAlreadyExists)).Create sample.twoOfType1 0
      = (some (Err.Wrap "failed creating user" Err.ErrAddressAlreadyExists), 1) := by
  refine ⟨by rfl, by simp, by rfl, by rfl⟩

/-- C8 amended: for every repository failure `e` met by `Create`, by `Delete`, or by
`Update` in `UpdateBasicFields` or in `UpdateAddress` (with `e` not recognised as
address-not-found): `Create` returns the sentinel `ErrEmailAlreadyExists` when `e` is
recognised as it, `Delete` returns `e` unchanged when `e` is recognised as `ErrNotFound`,
and in every other case the service returns `e` wrapped with the context of the operation
("failed creating user", "failed deleting user", "failed updating user personal data",
"failed updating user address data"); a wrapped error carries its context in its text and
keeps `e`, and whatever `e` is recognised as, reachable through `errors.Is`. -/
theorem service_error_translation (s : userService σ)
    (Parse : String → Except Err uuid.UUID) :
    (∀ (dto : CreateUserDTO) (st : σ) (ev : Event σ) (e : Err),
        ev ∈ s.CreateCalls dto st → ev.err = some e →
        (s.Create dto st).1
          = some (if e.Is Err.ErrEmailAlreadyExists then Err.ErrEmailAlreadyExists
                  else Err.Wrap "failed creating user" e))
    ∧ (∀ (userID : String) (st : σ) (ev : Event σ) (e : Err),
        ev ∈ s.DeleteCalls Parse userID st → ev.err = some e →
        (s.Delete Parse userID st).1
          = some (if e.Is Err.ErrNotFound then e else Err.Wrap "failed deleting user" e))
    ∧ (∀ (userID : String) (dto : UpdateUserDTO) (st : σ) (ev : Event σ) (e : Err),
        ev ∈ s.UpdateCalls Parse userID dto st → ev.err = some e →
        (ev.call.isUpdateBasicFields = true →
          (s.Update Parse userID dto st).1
            = some (Err.Wrap "failed updating user personal data" e))
        ∧ (ev.call.isUpdateAddress = true → e.Is Err.ErrAddressNotFound = false →
          (s.Update Parse userID dto st).1
            = some (Err.Wrap "failed updating user address data" e)))
    ∧ (∀ (context : String) (e target : Err),
        (Err.Wrap context e).Is e = true
        ∧ (e.Is target = true → (Err.Wrap context e).Is target = true)
        ∧ containsText (Err.Wrap context e).Error context) := by
  refine ⟨?_, ?_, ?_, ?_⟩
  · intro dto st ev e hev herr
    obtain ⟨h1, h2⟩ := CreateCalls_event s dto st
    rw [h1] at hev
    simp only [List.mem_singleton] at hev
    rw [hev] at herr
    simp only at herr
    rw [h2, herr]
    rfl
  · intro userID st ev e hev herr
    rcases hid : domain.ParseID Parse userID with err | id
    · simp [userService.DeleteCalls, userService.Delete, hid] at hev
    · obtain ⟨h1, h2⟩ := DeleteCalls_event s Parse userID id st hid
      rw [h1] at hev
      simp only [List.mem_singleton] at hev
      rw [hev] at herr
      simp only at herr
      rw [h2, herr]
      rfl
  · intro userID dto st ev e hev herr
    rcases hid : domain.ParseID Parse userID with err | id
    · rw [UpdateCalls_parse_error s Parse userID dto st err hid] at hev
      simp at hev
    · by_cases hf : (userFields dto).length > 0
      · rcases hu : s.userRepo.UpdateBasicFields id (userFields dto) st with ⟨_ | err, st1⟩
        · rw [UpdateCalls_basic_ok s Parse userID dto st st1 id hid hf hu] at hev
          have hr : s.Update Parse userID dto st = s.updateAddresses id dto.Addresses st1 := by
            simp [userService.Update, hid, hf, hu]
          rw [hr]
          rcases List.mem_cons.1 hev with h | h
          · rw [h] at herr
            simp at herr
          · constructor
            · intro hb
              rw [addressCalls_not_basic s id dto.Addresses st1 ev h] at hb
              simp at hb
            · intro hc he
              exact updateAddresses_error s id dto.Addresses st1 ev e h herr hc he
        · rw [UpdateCalls_basic_failed s Parse userID dto st st1 id err hid hf hu] at hev
          have hr : s.Update Parse userID dto st
              = (some (Err.Wrap "failed updating user personal data" err), st1) := by
            simp [userService.Update, hid, hf, hu]
          rw [hr]
          simp only [List.mem_singleton] at hev
          rw [hev] at herr ⊢
          simp only [Option.some.injEq] at herr
          rw [herr]
          exact ⟨fun _ => rfl, fun hc => by simp [Call.isUpdateAddress] at hc⟩
      · rw [UpdateCalls_no_basic s Parse userID dto st id hid hf] at hev
        have hr : s.Update Parse userID dto st = s.updateAddresses id dto.Addresses st := by
          simp [userService.Update, hid, hf]
        rw [hr]
        constructor
        · intro hb
          rw [addressCalls_not_basic s id dto.Addresses st ev hev] at hb
          simp at hb
        · intro hc he
          exact updateAddresses_error s id dto.Addresses st ev e hev herr hc he
  · intro context e target
    exact ⟨(Is_Wrap context e target).1, (Is_Wrap context e target).2,
      containsText_Wrap context e⟩

/-- Witness of `service_error_translation`: an unknown repository error met by `Create`. -/
theorem service_error_translation_witness :
    ((sample.svc (fun _ => some (Err.New "some repository error"))).Create
        sample.twoOfType1 0).1
      = some (Err.Wrap "failed creating user" (Err.New "some repository error")) :=
  (service_error_translation (sample.svc (fun _ => some (Err.New "some repository error")))
      sample.Parse).1 sample.twoOfType1 0
    ⟨Call.Create (newUser sample.twoOfType1) 0, 0, some (Err.New "some repository error"), 1⟩
    (Err.New "some repository error")
    (by
      rw [(CreateCalls_event _ sample.twoOfType1 0).1]
      exact List.mem_singleton.2 rfl)
    rfl

end service

namespace handlers

open user service

variable {α β : Type}

/-- Keys that are already present may be recorded again without effect. -/
theorem firstPerType_seen_dup (typ : α → AddressType) (l : List α) (seen : List AddressType)
    (t : AddressType) (ht : t ∈ seen) :
    firstPerType typ l (t :: seen) = firstPerType typ l seen := by
  suffices h : ∀ (l : List α) (s1 s2 : List AddressType), (∀ x, x ∈ s1 ↔ x ∈ s2) →
      firstPerType typ l s1 = firstPerType typ l s2 by
    apply h
    intro x
    simp only [List.mem_cons]
    constructor
    · rintro (rfl | h1)
      · exact ht
      · exact h1
    · exact Or.inr
  intro l
  induction l with
  | nil => intro s1 s2 _; rfl
  | cons a rest ih =>
    intro s1 s2 hs
    simp only [firstPerType, hs (typ a)]
    by_cases h : typ a ∈ s2
    · simp only [h, if_true]
      exact ih s1 s2 hs
    · simp only [h, if_false]
      rw [ih (typ a :: s1) (typ a :: s2)]
      intro x
      simp only [List.mem_cons, hs x]

/-- The loop of the handlers computes the first entry per type, converted. -/
theorem addressLoop_eq (typ : α → AddressType) (conv : α → β) (l : List α)
    (seen : List AddressType) (acc : List β) :
    addressLoop typ conv l seen acc = acc ++ (firstPerType typ l seen).map conv := by
  induction l generalizing seen acc with
  | nil => simp [addressLoop, firstPerType]
  | cons a rest ih =>
    simp only [addressLoop, firstPerType]
    by_cases h : typ a ∈ seen
    · simp only [h, if_true]
      rw [ih, firstPerType_seen_dup typ rest seen (typ a) h]
    · simp only [h, if_false]
      rw [ih]
      simp

/-- An entry that is kept is an entry of the list whose type was not seen before. -/
theorem firstPerType_mem (typ : α → AddressType) (l : List α) (seen : List AddressType)
    (a : α) (ha : a ∈ firstPerType typ l seen) : a ∈ l ∧ typ a ∉ seen := by
  induction l generalizing seen with
  | nil => simp [firstPerType] at ha
  | cons b rest ih =>
    simp only [firstPerType] at ha
    by_cases h : typ b ∈ seen
    · simp only [h, if_true] at ha
      exact ⟨List.mem_cons_of_mem _ (ih seen ha).1, (ih seen ha).2⟩
    · simp only [h, if_false, List.mem_cons] at ha
      rcases ha with rfl | ha
      · exact ⟨List.mem_cons_self _ _, h⟩
      · obtain ⟨h1, h2⟩ := ih (typ b :: seen) ha
        exact ⟨List.mem_cons_of_mem _ h1, fun hc => h2 (List.mem_cons_of_mem _ hc)⟩

/-- The types of the kept entries are pairwise distinct. -/
theorem firstPerType_nodup (typ : α → AddressType) (l : List α) (seen : List AddressType) :
    ((firstPerType typ l seen).map typ).Nodup := by
  induction l generalizing seen with
  | nil => simp [firstPerType]
  | cons b rest ih =>
    simp only [firstPerType]
    by_cases h : typ b ∈ seen
    · simp only [h, if_true]
      exact ih seen
    · simp only [h, if_false, List.map_cons, List.nodup_cons]
      refine ⟨?_, ih _⟩
      intro hc
      obtain ⟨a, ha, hta⟩ := List.mem_map.1 hc
      exact (firstPerType_mem typ rest (typ b :: seen) a ha).2 (by simp [hta])

/-- Every type of the list is seen before or is the type of a kept entry. -/
theorem firstPerType_covers (typ : α → AddressType) (l : List α) (seen : List AddressType)
    (r : α) (hr : r ∈ l) : typ r ∈ seen ∨ typ r ∈ (firstPerType typ l seen).map typ := by
  induction l generalizing seen with
  | nil => simp at hr
  | cons b rest ih =>
    simp only [firstPerType]
    by_cases h : typ b ∈ seen
    · simp only [h, if_true]
      rcases List.mem_cons.1 hr with rfl | hr
      · exact Or.inl h
      · exact ih seen hr
    · simp only [h, if_false, List.map_cons, List.mem_cons]
      rcases List.mem_cons.1 hr with rfl | hr
      · exact Or.inr (Or.inl rfl)
      · rcases ih (typ b :: seen) hr with h1 | h1
        · rcases List.mem_cons.1 h1 with h2 | h2
          · exact Or.inr (Or.inl h2)
          · exact Or.inl h2
        · exact Or.inr (Or.inr h1)

/-- A kept entry is the first entry of its type in the list. -/
theorem firstPerType_first (typ : α → AddressType) (l : List α) (seen : List AddressType)
    (a : α) (ha : a ∈ firstPerType typ l seen) :
    l.find? (fun r => typ r == typ a) = some a := by
  induction l generalizing seen with
  | nil => simp [firstPerType] at ha
  | cons b rest ih =>
    simp only [firstPerType] at ha
    by_cases h : typ b ∈ seen
    · simp only [h, if_true] at ha
      have hne : typ b ≠ typ a := fun hc =>
        (firstPerType_mem typ rest seen a ha).2 (hc ▸ h)
      have hb : (typ b == typ a) = false := by simpa using hne
      rw [List.find?_cons, hb]
      exact ih seen ha
    · simp only [h, if_false, List.mem_cons] at ha
      rcases ha with rfl | ha
      · simp
      · have hne : typ b ≠ typ a := fun hc =>
          (firstPerType_mem typ rest (typ b :: seen) a ha).2 (by simp [hc])
        have hb : (typ b == typ a) = false := by simpa using hne
        rw [List.find?_cons, hb]
        exact ih (typ b :: seen) ha

/-- The kept entries are a sub-list of the list: relative order is preserved. -/
theorem firstPerType_sublist (typ : α → AddressType) (l : List α) (seen : List AddressType) :
    (firstPerType typ l seen).Sublist l := by
  induction l generalizing seen with
  | nil => simp [firstPerType]
  | cons b rest ih =>
    simp only [firstPerType]
    by_cases h : typ b ∈ seen
    · simp only [h, if_true]
      exact (ih seen).cons b
    · simp only [h, if_false]
      exact (ih _).cons₂ b

/-- A list whose types are pairwise distinct and unseen is kept whole. -/
theorem firstPerType_of_nodup (typ : α → AddressType) (l : List α) (seen : List AddressType)
    (hnd : (l.map typ).Nodup) (hs : ∀ a ∈ l, typ a ∉ seen) :
    firstPerType typ l seen = l := by
  induction l generalizing seen with
  | nil => rfl
  | cons b rest ih =>
    simp only [List.map_cons, List.nodup_cons] at hnd
    simp only [firstPerType, hs b (List.mem_cons_self _ _), if_false]
    rw [ih (typ b :: seen) hnd.2]
    intro a ha hc
    rcases List.mem_cons.1 hc with h1 | h1
    · exact hnd.1 (h1 ▸ List.mem_map_of_mem typ ha)
    · exact hs a (List.mem_cons_of_mem _ ha) h1

/-- The loop of the handlers, started with no key and no address, keeps the first entry
of each type: distinct types, every type of the request, each entry the conversion of the
first request entry of its type, order preserved, and nothing changes on a second pass. -/
theorem addressLoop_first_per_type (typ : α → AddressType) (conv : α → β)
    (typB : β → AddressType) (back : β → α)
    (h1 : ∀ a, typB (conv a) = typ a) (h2 : ∀ b, conv (back b) = b) (l : List α) :
    ((addressLoop typ conv l [] []).map typB).Nodup
      ∧ (∀ r ∈ l, typ r ∈ (addressLoop typ conv l [] []).map typB)
      ∧ (∀ b ∈ addressLoop typ conv l [] [],
          ∃ r, l.find? (fun r => typ r == typB b) = some r ∧ b = conv r)
      ∧ (addressLoop typ conv l [] []).Sublist (l.map conv)
      ∧ addressLoop typ conv ((addressLoop typ conv l [] []).map back) [] []
          = addressLoop typ conv l [] [] := by
  have hmap : ∀ l1 : List α, (l1.map conv).map typB = l1.map typ := by
    intro l1
    rw [List.map_map]
    exact List.map_congr_left (fun a _ => h1 a)
  have hnd : ((addressLoop typ conv l [] []).map typB).Nodup := by
    rw [addressLoop_eq, List.nil_append, hmap]
    exact firstPerType_nodup typ l []
  refine ⟨hnd, ?_, ?_, ?_, ?_⟩
  · intro r hr
    rw [addressLoop_eq, List.nil_append, hmap]
    rcases firstPerType_covers typ l [] r hr with h | h
    · simp at h
    · exact h
  · intro b hb
    rw [addressLoop_eq, List.nil_append] at hb
    obtain ⟨a, ha, rfl⟩ := List.mem_map.1 hb
    refine ⟨a, ?_, rfl⟩
    rw [h1]
    exact firstPerType_first typ l [] a ha
  · rw [addressLoop_eq, List.nil_append]
    exact (firstPerType_sublist typ l []).map conv
  · have hback : ∀ out : List β, (out.map back).map typ = out.map typB := by
      intro out
      rw [List.map_map]
      refine List.map_congr_left (fun b _ => ?_)
      show typ (back b) = typB b
      rw [← h1 (back b), h2]
    rw [addressLoop_eq typ conv ((addressLoop typ conv l [] []).map back), List.nil_append,
      firstPerType_of_nodup typ _ [] (by rw [hback]; exact hnd) (by simp), List.map_map]
    conv_rhs => rw [← List.map_id (addressLoop typ conv l [] [])]
    exact List.map_congr_left (fun b _ => h2 b)

/-- C10: in the handlers `CreateUser` and `UpdateUser`, for every list of request
addresses the address list handed to the service is the first-occurrence-per-type
sub-list of the request: its types are pairwise distinct, every type of the request
occurs in it, each entry equals the first request entry of its type field for field,
relative order is preserved, and de-duplicating the result again changes nothing. -/
theorem handlers_first_occurrence_per_type (userID : domain.ID) (hashedPassword : String)
    (creq : createUserRequest) (hashed : Option String) (ureq : updateUserRequest) :
    (((createUserDTO userID hashedPassword creq).Addresses.map (fun a => a.Typ)).Nodup
      ∧ (∀ r ∈ creq.Addresses,
          r.Typ ∈ (createUserDTO userID hashedPassword creq).Addresses.map (fun a => a.Typ))
      ∧ (∀ a ∈ (createUserDTO userID hashedPassword creq).Addresses,
          ∃ r, creq.Addresses.find? (fun r => r.Typ == a.Typ) = some r
            ∧ a = { Typ := r.Typ, Street := r.Street, City := r.City, State := r.State,
                    PostalCode := r.PostalCode, Country := r.Country })
      ∧ (createUserDTO userID hashedPassword creq).Addresses.Sublist
          (creq.Addresses.map (fun r =>
            { Typ := r.Typ, Street := r.Street, City := r.City, State := r.State,
              PostalCode := r.PostalCode, Country := r.Country }))
      ∧ (createUserDTO userID hashedPassword
          { creq with
            Addresses := (createUserDTO userID hashedPassword creq).Addresses.map
              (fun a => { Typ := a.Typ, Street := a.Street, City := a.City, State := a.State,
                          PostalCode := a.PostalCode, Country := a.Country }) }).Addresses
          = (createUserDTO userID hashedPassword creq).Addresses)
    ∧ (((updateUserDTO hashed ureq).Addresses.map (fun a => a.Typ)).Nodup
      ∧ (∀ r ∈ ureq.Addresses,
          r.Typ ∈ (updateUserDTO hashed ureq).Addresses.map (fun a => a.Typ))
      ∧ (∀ a ∈ (updateUserDTO hashed ureq).Addresses,
          ∃ r, ureq.Addresses.find? (fun r => r.Typ == a.Typ) = some r
            ∧ a = { Typ := r.Typ, Street := r.Street, City := r.City, State := r.State,
                    PostalCode := r.PostalCode, Country := r.Country })
      ∧ (updateUserDTO hashed ureq).Addresses.Sublist
          (ureq.Addresses.map (fun r =>
            { Typ := r.Typ, Street := r.Street, City := r.City, State := r.State,
              PostalCode := r.PostalCode, Country := r.Country }))
      ∧ (updateUserDTO hashed
          { ureq with
            Addresses := (updateUserDTO hashed ureq).Addresses.map
              (fun a => { Typ := a.Typ, Street := a.Street, City := a.City, State := a.State,
                          PostalCode := a.PostalCode, Country := a.Country }) }).Addresses
          = (updateUserDTO hashed ureq).Addresses) := by
  constructor
  · exact addressLoop_first_per_type (fun addr : createUserAddressRequest => addr.Typ)
      (fun addr => ({ Typ := addr.Typ, Street := addr.Street, City := addr.City,
                      State := addr.State, PostalCode := addr.PostalCode,
                      Country := addr.Country } : CreateUserAddress))
      (fun a => a.Typ)
      (fun a => { Typ := a.Typ, Street := a.Street, City := a.City, State := a.State,
                  PostalCode := a.PostalCode, Country := a.Country })
      (fun _ => rfl) (fun _ => rfl) creq.Addresses
  · exact addressLoop_first_per_type (fun addr : updateUserAddressRequest => addr.Typ)
      (fun addr => ({ Typ := addr.Typ, Street := addr.Street, City := addr.City,
                      State := addr.State, PostalCode := addr.PostalCode,
                      Country := addr.Country } : UpdateUserAddress))
      (fun a => a.Typ)
      (fun a => { Typ := a.Typ, Street := a.Street, City := a.City, State := a.State,
                  PostalCode := a.PostalCode, Country := a.Country })
      (fun _ => rfl) (fun _ => rfl) ureq.Addresses

end handlers

namespace mysql

open user service

variable {σ : Type}

/-- C4 as stated fails.  On a database without any user row: `Update` with an empty DTO
returns success; and `Update` with only an address patch reads a zero address count,
issues the INSERT of `InsertAddress` on the write pool, and returns an error that is not
recognised as `ErrNotFound` when the database refuses the insert, success when it
accepts it. -/
theorem Update_missing_user_not_always_not_found :
    (NewUserService (sample.repo (.ok (.ok 0))).toRepository sample.clock).Update sample.Parse
        "6ba7b810-9dad-11d1-80b4-00c04fd430c8" sample.emptyDTO 0 = (none, 0)
    ∧ (NewUserService
          (sample.repo (.error (Err.MySQLError 1048 "Column user_id cannot be null"))).toRepository
          sample.clock).Update sample.Parse "6ba7b810-9dad-11d1-80b4-00c04fd430c8"
        { sample.emptyDTO with Addresses := [sample.street 1 "A"] } 0
      = (some (Err.New "failed inserting additional address"), 2)
    ∧ (Err.New "failed inserting additional address").Is Err.ErrNotFound = false
    ∧ ((UpdateStatements
          (sample.repo (.error (Err.MySQLError 1048 "Column user_id cannot be null")))
          sample.clock sample.Parse "6ba7b810-9dad-11d1-80b4-00c04fd430c8"
          { sample.emptyDTO with Addresses := [sample.street 1 "A"] } 0).filter
          DbCall.isWrite).length = 1
    ∧ (NewUserService (sample.repo (.ok (.ok 0))).toRepository sample.clock).Update sample.Parse
        "6ba7b810-9dad-11d1-80b4-00c04fd430c8"
        { sample.emptyDTO with Addresses := [sample.street 1 "A"] } 0 = (none, 2) := by
  refine ⟨by rfl, by rfl, by rfl, by rfl, by rfl⟩

/-- C4 amended: for a well-formed identifier, an update DTO with at least one of password,
first name, last name, phone number present, and a database whose existence read
(`SELECT COUNT(1) FROM users WHERE uuid = ? AND deleted_at IS NULL`) succeeds and counts
no row, `Update` of the service wired to the MySQL repository returns an error recognised
as `ErrNotFound`, its only repository call is `UpdateBasicFields`, and the only statement
the database receives is that read on the read pool: no UPDATE on users, no UPDATE on
addresses and no INSERT. -/
theorem Update_missing_user (r : userRepository σ) (timeProvider : domain.TimeProvider σ)
    (Parse : String → Except Err uuid.UUID) (userID : String) (id : domain.ID)
    (dto : UpdateUserDTO) (st st1 : σ)
    (hid : domain.ParseID Parse userID = .ok id)
    (hpresent : dto.Password.isSome ∨ dto.FirstName.isSome ∨ dto.LastName.isSome
      ∨ dto.PhoneNumber.isSome)
    (hread : r.db.QueryRowInt Pool.dbRead
        "SELECT COUNT(1) FROM users WHERE uuid = ? AND deleted_at IS NULL "
        [Value.str id.String] st = (.ok 0, st1)) :
    (∃ e, (NewUserService r.toRepository timeProvider).Update Parse userID dto st
        = (some e, st1) ∧ e.Is Err.ErrNotFound = true)
      ∧ ((NewUserService r.toRepository timeProvider).UpdateCalls Parse userID dto st).map
          (fun ev => ev.call) = [Call.UpdateBasicFields id (userFields dto)]
      ∧ UpdateStatements r timeProvider Parse userID dto st
          = [DbCall.Query Pool.dbRead
              "SELECT COUNT(1) FROM users WHERE uuid = ? AND deleted_at IS NULL "
              [Value.str id.String]]
      ∧ (UpdateStatements r timeProvider Parse userID dto st).filter DbCall.isWrite = [] := by
  have hf : (userFields dto).length > 0 := (userFields_length_pos dto).2 hpresent
  have hu : (NewUserService r.toRepository timeProvider).userRepo.UpdateBasicFields id
      (userFields dto) st = (some Err.ErrNotFound, st1) := by
    simp [NewUserService, userRepository.toRepository, userRepository.UpdateBasicFields, hread]
  have hstm : UpdateStatements r timeProvider Parse userID dto st
      = [DbCall.Query Pool.dbRead
          "SELECT COUNT(1) FROM users WHERE uuid = ? AND deleted_at IS NULL "
          [Value.str id.String]] := by
    simp [UpdateStatements, userService.Update, hid, hf, NewUserService,
      userRepository.toRepository, userRepository.UpdateBasicFields, userRepository.recorded,
      Driver.recorded, hread]
  refine ⟨⟨Err.Wrap "failed updating user personal data" Err.ErrNotFound, ?_, by rfl⟩, ?_,
    hstm, ?_⟩
  · simp [userService.Update, hid, hf, hu]
  · rw [UpdateCalls_basic_failed _ Parse userID dto st st1 id Err.ErrNotFound hid hf hu]
    rfl
  · rw [hstm]
    rfl

/-- Witness of `Update_missing_user`: a first-name patch on the database without users. -/
theorem Update_missing_user_witness :
    (∃ e, (NewUserService (sample.repo (.ok (.ok 0))).toRepository sample.clock).Update
          sample.Parse "6ba7b810-9dad-11d1-80b4-00c04fd430c8"
          { sample.emptyDTO with FirstName := some "X" } 0 = (some e, 1)
        ∧ e.Is Err.ErrNotFound = true)
      ∧ (UpdateStatements (sample.repo (.ok (.ok 0))) sample.clock sample.Parse
          "6ba7b810-9dad-11d1-80b4-00c04fd430c8"
          { sample.emptyDTO with FirstName := some "X" } 0).filter DbCall.isWrite = [] := by
  obtain ⟨h1, _, _, h4⟩ := Update_missing_user (sample.repo (.ok (.ok 0))) sample.clock
    sample.Parse "6ba7b810-9dad-11d1-80b4-00c04fd430c8" sample.id1
    { sample.emptyDTO with FirstName := some "X" } 0 1 (by rfl) (by simp) (by rfl)
  exact ⟨h1, h4⟩

end mysql

namespace service

open user

variable {σ : Type}

/-- C15: service `Create`, and service `Delete` with a well-formed identifier, each make
exactly one repository call and translate its answer: nil gives nil; an error recognised
as the sentinel of the operation (`ErrEmailAlreadyExists` for `Create`, `ErrNotFound` for
`Delete`) gives an error recognised as that sentinel; any other error `e` gives
`e` wrapped, with "failed creating user", respectively "failed deleting user", in its
text and `e` reachable through `errors.Is`. -/
theorem Create_Delete_translation (s : userService σ)
    (Parse : String → Except Err uuid.UUID) :
    (∀ (dto : CreateUserDTO) (st : σ), ∃ ev,
        s.CreateCalls dto st = [ev]
        ∧ ev.call = Call.Create (newUser dto) (s.timeProvider.UtcNow st)
        ∧ (ev.err = none → (s.Create dto st).1 = none)
        ∧ (∀ e, ev.err = some e → e.Is Err.ErrEmailAlreadyExists = true →
            ∃ res, (s.Create dto st).1 = some res ∧ res.Is Err.ErrEmailAlreadyExists = true)
        ∧ (∀ e, ev.err = some e → e.Is Err.ErrEmailAlreadyExists = false →
            (s.Create dto st).1 = some (Err.Wrap "failed creating user" e)
            ∧ (Err.Wrap "failed creating user" e).Is e = true
            ∧ containsText (Err.Wrap "failed creating user" e).Error "failed creating user"))
    ∧ (∀ (userID : String) (id : domain.ID) (st : σ),
        domain.ParseID Parse userID = .ok id → ∃ ev,
        s.DeleteCalls Parse userID st = [ev]
        ∧ ev.call = Call.Delete id
        ∧ (ev.err = none → (s.Delete Parse userID st).1 = none)
        ∧ (∀ e, ev.err = some e → e.Is Err.ErrNotFound = true →
            ∃ res, (s.Delete Parse userID st).1 = some res ∧ res.Is Err.ErrNotFound = true)
        ∧ (∀ e, ev.err = some e → e.Is Err.ErrNotFound = false →
            (s.Delete Parse userID st).1 = some (Err.Wrap "failed deleting user" e)
            ∧ (Err.Wrap "failed deleting user" e).Is e = true
            ∧ containsText (Err.Wrap "failed deleting user" e).Error "failed deleting user")) := by
  constructor
  · intro dto st
    obtain ⟨h1, h2⟩ := CreateCalls_event s dto st
    refine ⟨_, h1, rfl, ?_, ?_, ?_⟩
    · intro h
      simp only at h
      rw [h2, h]
      rfl
    · intro e h he
      simp only at h
      refine ⟨Err.ErrEmailAlreadyExists, ?_, by rfl⟩
      rw [h2, h]
      simp [he]
    · intro e h he
      simp only at h
      refine ⟨?_, (Is_Wrap _ e e).1, containsText_Wrap _ _⟩
      rw [h2, h]
      simp [he]
  · intro userID id st hid
    obtain ⟨h1, h2⟩ := DeleteCalls_event s Parse userID id st hid
    refine ⟨_, h1, rfl, ?_, ?_, ?_⟩
    · intro h
      simp only at h
      rw [h2, h]
      rfl
    · intro e h he
      simp only at h
      refine ⟨e, ?_, he⟩
      rw [h2, h]
      simp [he]
    · intro e h he
      simp only at h
      refine ⟨?_, (Is_Wrap _ e e).1, containsText_Wrap _ _⟩
      rw [h2, h]
      simp [he]

/-- Witness of `Create_Delete_translation`: an unknown repository error met by `Delete`. -/
theorem Create_Delete_translation_witness :
    ((sample.svc (fun _ => some (Err.New "some repository error"))).Delete sample.Parse
        "6ba7b810-9dad-11d1-80b4-00c04fd430c8" 0).1
      = some (Err.Wrap "failed deleting user" (Err.New "some repository error")) := by
  obtain ⟨ev, h1, _, _, _, h5⟩ :=
    (Create_Delete_translation (sample.svc (fun _ => some (Err.New "some repository error")))
      sample.Parse).2 "6ba7b810-9dad-11d1-80b4-00c04fd430c8" sample.id1 0 (by rfl)
  have hev : ev = ⟨Call.Delete sample.id1, 0, some (Err.New "some repository error"), 1⟩ := by
    have h := h1
    rw [(DeleteCalls_event _ sample.Parse "6ba7b810-9dad-11d1-80b4-00c04fd430c8" sample.id1 0
      (by rfl)).1] at h
    exact (List.singleton_inj.1 h).symm
  exact (h5 (Err.New "some repository error") (by rw [hev]) (by rfl)).1

/-- C16: for every Create DTO, service `Create` hands the repository one user aggregate
whose identifier, email, password, first name, last name and phone number are those of
the DTO (the identifier is the one the caller put in the DTO), whose address list has the
length and order of the list of the DTO with each address equal field for field, and the
creation timestamp passed is the value of the injected time source. -/
theorem Create_hands_over_aggregate (s : userService σ) (dto : CreateUserDTO) (st : σ) :
    ∃ u, (s.CreateCalls dto st).map (fun ev => ev.call)
        = [Call.Create u (s.timeProvider.UtcNow st)]
      ∧ u.ID = dto.ID ∧ u.Email = dto.Email ∧ u.Password = dto.Password
      ∧ u.FirstName = dto.FirstName ∧ u.LastName = dto.LastName
      ∧ u.PhoneNumber = dto.PhoneNumber
      ∧ u.Addresses.length = dto.Addresses.length
      ∧ (∀ i : Nat, u.Addresses[i]? = (dto.Addresses[i]?).map (fun addr =>
          { Typ := addr.Typ, Street := addr.Street, City := addr.City, State := addr.State,
            PostalCode := addr.PostalCode, Country := addr.Country })) := by
  refine ⟨newUser dto, ?_, rfl, rfl, rfl, rfl, rfl, rfl, ?_, ?_⟩
  · rw [(CreateCalls_event s dto st).1]
    rfl
  · rw [newUser_Addresses, List.length_map]
  · intro i
    rw [newUser_Addresses, List.getElem?_map]

end service

namespace service

open user

variable {σ : Type}

/-- Every call of the address loop carries the identifier the loop was given. -/
theorem addressCalls_ident (s : userService σ) (id : domain.ID)
    (addrs : List UpdateUserAddress) (st : σ) :
    ∀ ev ∈ s.addressCalls id addrs st, ev.call.ident = some id := by
  induction addrs generalizing st with
  | nil => intro ev hev; simp [addressCalls_nil] at hev
  | cons addr rest ih =>
    intro ev hev
    rcases updateAddresses_cons_cases s id addr rest st with
      ⟨_, hc, _⟩ | ⟨_, st1, _, hc, _⟩ | ⟨_, err, st1, _, _, hc, _⟩
        | ⟨_, err, st1, res, st2, _, _, _, hc, _⟩
    · rw [hc] at hev; exact ih st ev hev
    · rw [hc] at hev
      rcases List.mem_cons.1 hev with h | h
      · rw [h]; rfl
      · exact ih st1 ev h
    · rw [hc] at hev
      simp only [List.mem_singleton] at hev
      rw [hev]; rfl
    · rw [hc] at hev
      simp only [List.mem_cons, List.mem_singleton, List.not_mem_nil, or_false] at hev
      rcases hev with h | h <;> rw [h] <;> rfl

/-- Every repository call of `Update` carries the parsed identifier. -/
theorem UpdateCalls_ident (s : userService σ) (Parse : String → Except Err uuid.UUID)
    (userID : String) (id : domain.ID) (dto : UpdateUserDTO) (st : σ)
    (hid : domain.ParseID Parse userID = .ok id) :
    ∀ ev ∈ s.UpdateCalls Parse userID dto st, ev.call.ident = some id := by
  intro ev hev
  by_cases hf : (userFields dto).length > 0
  · rcases hu : s.userRepo.UpdateBasicFields id (userFields dto) st with ⟨_ | err, st1⟩
    · rw [UpdateCalls_basic_ok s Parse userID dto st st1 id hid hf hu] at hev
      rcases List.mem_cons.1 hev with h | h
      · rw [h]; rfl
      · exact addressCalls_ident s id dto.Addresses st1 ev h
    · rw [UpdateCalls_basic_failed s Parse userID dto st st1 id err hid hf hu] at hev
      simp only [List.mem_singleton] at hev
      rw [hev]; rfl
  · rw [UpdateCalls_no_basic s Parse userID dto st id hid hf] at hev
    exact addressCalls_ident s id dto.Addresses st ev hev

/-- C20 as stated fails.  With a parser that gives the all-zero text the all-zero value,
as `uuid.Parse` does, `Delete` and `GetByUUID` on that text each call the repository with
the identifier for which `IsEmpty` is true, `Delete` returns success when the repository
does, and `Update` with a first name calls `UpdateBasicFields` with that identifier and
returns success. -/
theorem zero_identifier_is_not_rejected :
    domain.ID.IsEmpty { value := uuid.Nil } = true
    ∧ (sample.svc sample.allOk).Delete sample.ParseZero
        "00000000-0000-0000-0000-000000000000" 0 = (none, 1)
    ∧ ((sample.svc sample.allOk).DeleteCalls sample.ParseZero
        "00000000-0000-0000-0000-000000000000" 0).map (fun ev => ev.call)
        = [Call.Delete { value := uuid.Nil }]
    ∧ ((sample.svc sample.allOk).GetByUUIDCalls sample.ParseZero
        "00000000-0000-0000-0000-000000000000" 0).map (fun ev => ev.call)
        = [Call.GetByUUID { value := uuid.Nil }]
    ∧ (sample.svc sample.allOk).Update sample.ParseZero
        "00000000-0000-0000-0000-000000000000"
        { sample.emptyDTO with FirstName := some "X" } 0 = (none, 1)
    ∧ ((sample.svc sample.allOk).UpdateCalls sample.ParseZero
        "00000000-0000-0000-0000-000000000000"
        { sample.emptyDTO with FirstName := some "X" } 0).map (fun ev => ev.call)
        = [Call.UpdateBasicFields { value := uuid.Nil } [("first_name", "X")]] := by
  refine ⟨by rfl, by rfl, by rfl, by rfl, by rfl, by rfl⟩

/-- C20 amended: when the parser gives the all-zero text the all-zero value (as
`uuid.Parse` does), the service handles it like every other well-formed identifier and
never consults `IsEmpty`: `Delete` and `GetByUUID` each make exactly one repository call,
with the identifier for which `IsEmpty` is true, `Delete` returns the usual translation
of the answer of the repository and `GetByUUID` returns the answer itself; every
repository call of `Update` carries that identifier, and with a basic field present
`Update` makes at least one such call. -/
theorem zero_identifier_passed_to_repository (s : userService σ)
    (Parse : String → Except Err uuid.UUID) (dto : UpdateUserDTO) (st : σ)
    (hzero : Parse "00000000-0000-0000-0000-000000000000" = .ok uuid.Nil) :
    domain.ID.IsEmpty { value := uuid.Nil } = true
    ∧ (s.DeleteCalls Parse "00000000-0000-0000-0000-000000000000" st).map (fun ev => ev.call)
        = [Call.Delete { value := uuid.Nil }]
    ∧ (s.Delete Parse "00000000-0000-0000-0000-000000000000" st).1
        = (s.userRepo.Delete { value := uuid.Nil } st).1.map (fun err =>
            if err.Is Err.ErrNotFound then err else Err.Wrap "failed deleting user" err)
    ∧ (s.GetByUUIDCalls Parse "00000000-0000-0000-0000-000000000000" st).map
        (fun ev => ev.call) = [Call.GetByUUID { value := uuid.Nil }]
    ∧ s.GetByUUID Parse "00000000-0000-0000-0000-000000000000" st
        = s.userRepo.GetByUUID { value := uuid.Nil } st
    ∧ (∀ ev ∈ s.UpdateCalls Parse "00000000-0000-0000-0000-000000000000" dto st,
        ev.call.ident = some { value := uuid.Nil })
    ∧ ((userFields dto).length > 0 →
        (s.UpdateCalls Parse "00000000-0000-0000-0000-000000000000" dto st).head?.map
          (fun ev => ev.call)
          = some (Call.UpdateBasicFields { value := uuid.Nil } (userFields dto))) := by
  have hid : domain.ParseID Parse "00000000-0000-0000-0000-000000000000"
      = .ok { value := uuid.Nil } := by
    simp [domain.ParseID, hzero]
  refine ⟨by rfl, ?_, (DeleteCalls_event s Parse _ _ st hid).2, ?_, ?_,
    UpdateCalls_ident s Parse _ _ dto st hid, ?_⟩
  · rw [(DeleteCalls_event s Parse _ _ st hid).1]
    rfl
  · simp [userService.GetByUUIDCalls, userService.GetByUUID, hid, userService.recorded,
      Repository.recorded]
  · simp [userService.GetByUUID, hid]
  · intro hf
    rcases hu : s.userRepo.UpdateBasicFields { value := uuid.Nil } (userFields dto) st
      with ⟨_ | err, st1⟩
    · rw [UpdateCalls_basic_ok s Parse _ dto st st1 _ hid hf hu]
      rfl
    · rw [UpdateCalls_basic_failed s Parse _ dto st st1 _ err hid hf hu]
      rfl

/-- Witness of `zero_identifier_passed_to_repository`: the scripted repository and the
parser that knows the all-zero text. -/
theorem zero_identifier_passed_to_repository_witness :
    ((sample.svc sample.allOk).DeleteCalls sample.ParseZero
        "00000000-0000-0000-0000-000000000000" 0).map (fun ev => ev.call)
      = [Call.Delete { value := uuid.Nil }] :=
  (zero_identifier_passed_to_repository (sample.svc sample.allOk) sample.ParseZero
    sample.emptyDTO 0 (by rfl)).2.1

end service

namespace handlers

open user service

/-- C18 as stated fails.  The external type 1 is accepted; the aggregate that handler and
service build from a create request with one address of type 1 carries the type 1, which
is `HomeAddress` and not `WorkAddress` (the value 1 - 1); the update path hands the type 1
to `UpdateAddress` unchanged as well. -/
theorem external_type_is_not_shifted :
    typeAccepted 1 = true
    ∧ (newUser (createUserDTO sample.id1 "hash" sample.upperRequest)).Addresses.map
        (fun a => a.Typ) = [HomeAddress]
    ∧ HomeAddress ≠ 1 - 1
    ∧ WorkAddress = 1 - 1
    ∧ ((sample.svc sample.allOk).UpdateCalls sample.Parse
        "6ba7b810-9dad-11d1-80b4-00c04fd430c8"
        (updateUserDTO none
          { Password := none, FirstName := none, LastName := none, PhoneNumber := none,
            Addresses := [{ Typ := 1, Street := some "A", City := none, State := none,
                            PostalCode := none, Country := none }] }) 0).map
        (fun ev => ev.call)
        = [Call.UpdateAddress sample.id1 HomeAddress [("street", "A")]] := by
  refine ⟨by rfl, by rfl, by decide, by rfl, by rfl⟩

/-- C18 amended: the external address type is passed on unchanged.  For every create
request the types of the addresses of the aggregate that handler and service hand to the
repository are the types of the request entries kept (the first of each type), as they
were sent, and for every update request the types of the DTO are; an accepted external
type is 1, 2 or 3, where 1 is the value of `HomeAddress`, 2 the value of `BillingAddress`
and 3 the value of no constant of the enumeration, and the value 0 of `WorkAddress` is not
an accepted external type. -/
theorem external_type_passed_unchanged (userID : domain.ID) (hashedPassword : String)
    (creq : createUserRequest) (hashed : Option String) (ureq : updateUserRequest) :
    (newUser (createUserDTO userID hashedPassword creq)).Addresses.map (fun a => a.Typ)
        = (firstPerType (fun r : createUserAddressRequest => r.Typ) creq.Addresses []).map
            (fun r => r.Typ)
    ∧ (updateUserDTO hashed ureq).Addresses.map (fun a => a.Typ)
        = (firstPerType (fun r : updateUserAddressRequest => r.Typ) ureq.Addresses []).map
            (fun r => r.Typ)
    ∧ (∀ t : Int, typeAccepted t = true →
        (t = 1 ∧ t = HomeAddress) ∨ (t = 2 ∧ t = BillingAddress)
        ∨ (t = 3 ∧ t ≠ WorkAddress ∧ t ≠ HomeAddress ∧ t ≠ BillingAddress))
    ∧ typeAccepted WorkAddress = false := by
  refine ⟨?_, ?_, ?_, by rfl⟩
  · rw [newUser_Addresses]
    simp only [createUserDTO, addressLoop_eq, List.nil_append, List.map_map]
    rfl
  · simp only [updateUserDTO, addressLoop_eq, List.nil_append, List.map_map]
    rfl
  · intro t ht
    simp only [typeAccepted, decide_eq_true_eq] at ht
    rcases ht with h | h | h
    · exact Or.inl ⟨h, h⟩
    · exact Or.inr (Or.inl ⟨h, h⟩)
    · refine Or.inr (Or.inr ⟨h, ?_, ?_, ?_⟩) <;> rw [h] <;> decide

end handlers

namespace mysql

open user service

variable {σ : Type}

/-- The address loop of `Create` only adds statements to the record. -/
theorem insertAddresses_recorded_log (r : userRepository σ) (tx : Tx) (userID : Int)
    (createdAt : Time) (addrs : List Address) (st : σ) (log : List DbCall) :
    ∃ extra, (r.recorded.insertAddresses tx userID createdAt addrs (st, log)).2.2
      = log ++ extra := by
  induction addrs generalizing st log with
  | nil => exact ⟨[], by simp [userRepository.insertAddresses]⟩
  | cons addr rest ih =>
    simp only [userRepository.insertAddresses]
    split
    · next err w h =>
      simp only [userRepository.recorded, Driver.recorded, Prod.mk.injEq] at h
      exact ⟨_, by rw [← h.2]⟩
    · next res w h =>
      simp only [userRepository.recorded, Driver.recorded, Prod.mk.injEq] at h
      obtain ⟨_, rfl⟩ := h
      obtain ⟨extra, he⟩ := ih _ _
      exact ⟨_, by rw [he, List.append_assoc]⟩

/-- When the transaction begins, the statements of `Create` start with `BeginTx` on the
write pool followed by the INSERT of the user row, executed on the write pool, whose
arguments are the fields of the aggregate as they are. -/
theorem CreateStatements_insert_user (r : userRepository σ) (u : User) (createdAt : Time)
    (st st1 : σ) (tx : Tx) (hbegin : r.db.BeginTx Pool.dbWrite st = (.ok tx, st1)) :
    ∃ rest, CreateStatements r u createdAt st
      = DbCall.BeginTx Pool.dbWrite
        :: DbCall.Exec (Conn.pool Pool.dbWrite)
            "\n\t\tINSERT INTO users (uuid, email, password, created_at, updated_at, first_name, last_name, phone_number)\n\t\tVALUES (?, ?, ?, ?, ?, ?, ?, ?)\n\t"
            [Value.str u.ID.String, Value.str u.Email, Value.str u.Password,
             Value.time createdAt, Value.null, Value.str u.FirstName, Value.str u.LastName,
             Value.str u.PhoneNumber]
        :: rest := by
  have hb : r.recorded.db.BeginTx Pool.dbWrite (st, [])
      = (.ok tx, (st1, [DbCall.BeginTx Pool.dbWrite])) := by
    simp [userRepository.recorded, Driver.recorded, hbegin]
  have hx : ∀ (q : String) (args : List Value) (log : List DbCall),
      r.recorded.db.ExecContext (Conn.pool Pool.dbWrite) q args (st1, log)
        = ((r.db.ExecContext (Conn.pool Pool.dbWrite) q args st1).1,
            ((r.db.ExecContext (Conn.pool Pool.dbWrite) q args st1).2,
              log ++ [DbCall.Exec (Conn.pool Pool.dbWrite) q args])) := fun _ _ _ => rfl
  simp only [CreateStatements, userRepository.Create, hb, hx, List.singleton_append]
  rcases r.db.ExecContext (Conn.pool Pool.dbWrite)
      "\n\t\tINSERT INTO users (uuid, email, password, created_at, updated_at, first_name, last_name, phone_number)\n\t\tVALUES (?, ?, ?, ?, ?, ?, ?, ?)\n\t"
      [Value.str u.ID.String, Value.str u.Email, Value.str u.Password,
       Value.time createdAt, Value.null, Value.str u.FirstName, Value.str u.LastName,
       Value.str u.PhoneNumber] st1 with ⟨err | result, st2⟩
  · exact ⟨[DbCall.Rollback tx], by
      simp [userRepository.deferred, userRepository.recorded, Driver.recorded]⟩
  · rcases result with err | userID
    · exact ⟨[DbCall.Rollback tx], by
        simp [userRepository.deferred, userRepository.recorded, Driver.recorded]⟩
    · simp only
      obtain ⟨extra, he⟩ := insertAddresses_recorded_log r tx userID createdAt u.Addresses st2
        [DbCall.BeginTx Pool.dbWrite, DbCall.Exec (Conn.pool Pool.dbWrite)
          "\n\t\tINSERT INTO users (uuid, email, password, created_at, updated_at, first_name, last_name, phone_number)\n\t\tVALUES (?, ?, ?, ?, ?, ?, ?, ?)\n\t"
          [Value.str u.ID.String, Value.str u.Email, Value.str u.Password,
           Value.time createdAt, Value.null, Value.str u.FirstName, Value.str u.LastName,
           Value.str u.PhoneNumber]]
      rcases hi : r.recorded.insertAddresses tx userID createdAt u.Addresses (st2,
        [DbCall.BeginTx Pool.dbWrite, DbCall.Exec (Conn.pool Pool.dbWrite)
          "\n\t\tINSERT INTO users (uuid, email, password, created_at, updated_at, first_name, last_name, phone_number)\n\t\tVALUES (?, ?, ?, ?, ?, ?, ?, ?)\n\t"
          [Value.str u.ID.String, Value.str u.Email, Value.str u.Password,
           Value.time createdAt, Value.null, Value.str u.FirstName, Value.str u.LastName,
           Value.str u.PhoneNumber]]) with ⟨res, st3, log3⟩
      rw [hi] at he
      simp only at he
      subst he
      rcases res with _ | ⟨err, ret⟩
      · simp only [userRepository.deferred]
        exact ⟨extra ++ [DbCall.Commit tx], by
          simp [userRepository.recorded, Driver.recorded]⟩
      · exact ⟨extra ++ [DbCall.Rollback tx], by
          simp [userRepository.deferred, userRepository.recorded, Driver.recorded]⟩

end mysql

namespace mysql

open user service

variable {σ : Type}

/-- C19 as stated fails.  For a create request with the email "A@B.com" the INSERT of the
user row that `Create` sends to the database carries "A@B.com" as its email argument,
which is not the lowercase form "a@b.com". -/
theorem email_is_written_as_given :
    (CreateStatements (sample.repo (.ok (.ok 1)))
        (newUser (handlers.createUserDTO sample.id1 "hash" sample.upperRequest)) 5 0)[1]?
      = some (DbCall.Exec (Conn.pool Pool.dbWrite)
          "\n\t\tINSERT INTO users (uuid, email, password, created_at, updated_at, first_name, last_name, phone_number)\n\t\tVALUES (?, ?, ?, ?, ?, ?, ?, ?)\n\t"
          [Value.str "6ba7b810-9dad-11d1-80b4-00c04fd430c8", Value.str "A@B.com",
           Value.str "hash", Value.time 5, Value.null, Value.str "A", Value.str "B",
           Value.str "123456789"])
    ∧ lowercase sample.upperRequest.Email = "a@b.com"
    ∧ "A@B.com" ≠ lowercase sample.upperRequest.Email := by
  refine ⟨by rfl, by rfl, by decide⟩

/-- C19 amended: the email is stored as it was sent.  For every create request, the
aggregate that handler and service build carries the email of the request unchanged, and
once the transaction has begun the second statement of repository `Create` is the INSERT
of the user row on the write pool whose email argument is that same text; no layer
changes its case. -/
theorem Create_writes_email_unchanged (r : userRepository σ) (userID : domain.ID)
    (hashedPassword : String) (req : handlers.createUserRequest) (createdAt : Time)
    (st st1 : σ) (tx : Tx) (hbegin : r.db.BeginTx Pool.dbWrite st = (.ok tx, st1)) :
    (newUser (handlers.createUserDTO userID hashedPassword req)).Email = req.Email
    ∧ (CreateStatements r (newUser (handlers.createUserDTO userID hashedPassword req))
        createdAt st)[1]?
      = some (DbCall.Exec (Conn.pool Pool.dbWrite)
          "\n\t\tINSERT INTO users (uuid, email, password, created_at, updated_at, first_name, last_name, phone_number)\n\t\tVALUES (?, ?, ?, ?, ?, ?, ?, ?)\n\t"
          [Value.str userID.String, Value.str req.Email, Value.str hashedPassword,
           Value.time createdAt, Value.null, Value.str req.FirstName,
           Value.str req.LastName, Value.str req.PhoneNumber]) := by
  refine ⟨rfl, ?_⟩
  obtain ⟨rest, h⟩ := CreateStatements_insert_user r
    (newUser (handlers.createUserDTO userID hashedPassword req)) createdAt st st1 tx hbegin
  rw [h]
  simp [newUser, handlers.createUserDTO]

/-- Witness of `Create_writes_email_unchanged`: the request with the email "A@B.com" on
the database without users. -/
theorem Create_writes_email_unchanged_witness :
    (CreateStatements (sample.repo (.ok (.ok 1)))
        (newUser (handlers.createUserDTO sample.id1 "hash" sample.upperRequest)) 5 0)[1]?
      = some (DbCall.Exec (Conn.pool Pool.dbWrite)
          "\n\t\tINSERT INTO users (uuid, email, password, created_at, updated_at, first_name, last_name, phone_number)\n\t\tVALUES (?, ?, ?, ?, ?, ?, ?, ?)\n\t"
          [Value.str sample.id1.String, Value.str "A@B.com", Value.str "hash", Value.time 5,
           Value.null, Value.str "A", Value.str "B", Value.str "123456789"]) :=
  (Create_writes_email_unchanged (sample.repo (.ok (.ok 1))) sample.id1 "hash"
    sample.upperRequest 5 0 1 0 (by rfl)).2

end mysql

namespace handlers

open user service

variable {σ : Type}

/-- With a malformed identifier the three handlers of `/users/{id}` answer 400
"invalid user ID", leave the state alone and do not call the service. -/
theorem malformed_id_responses (h : UserHTTPHandler σ) (lib : Library) (c : Context) (st : σ)
    (e : Err) (hid : lib.Parse c.id = .error e) :
    h.UpdateUser lib c st
      = (Outcome.response { code := 400, body := Body.error "invalid user ID" }, st)
    ∧ h.UpdateUserCalls lib c st = []
    ∧ h.DeleteUser lib c st = ({ code := 400, body := Body.error "invalid user ID" }, st)
    ∧ h.DeleteUserCalls lib c st = []
    ∧ h.GetUser lib c st = ({ code := 400, body := Body.error "invalid user ID" }, st)
    ∧ h.GetUserCalls lib c st = [] := by
  simp [UserHTTPHandler.UpdateUser, UserHTTPHandler.UpdateUserCalls,
    UserHTTPHandler.DeleteUser, UserHTTPHandler.DeleteUserCalls,
    UserHTTPHandler.GetUser, UserHTTPHandler.GetUserCalls, hid]

/-- The answer of `DeleteUser` to a well-formed identifier, by the class of the service
result, and its one service call. -/
theorem DeleteUser_responses (h : UserHTTPHandler σ) (lib : Library) (c : Context) (st : σ)
    (u : uuid.UUID) (hid : lib.Parse c.id = .ok u) :
    h.DeleteUserCalls lib c st = [PortCall.Delete c.id]
    ∧ ((h.userService.Delete c.id st).1 = none →
        (h.DeleteUser lib c st).1 = { code := 200, body := Body.text "ok" })
    ∧ (∀ e, (h.userService.Delete c.id st).1 = some e → e.Is Err.ErrNotFound = true →
        (h.DeleteUser lib c st).1 = { code := 404, body := Body.error "user not found" })
    ∧ (∀ e, (h.userService.Delete c.id st).1 = some e → e.Is Err.ErrNotFound = false →
        (h.DeleteUser lib c st).1
          = { code := 500, body := Body.error "internal server error" }) := by
  refine ⟨?_, ?_, ?_, ?_⟩
  · simp only [UserHTTPHandler.DeleteUserCalls, UserHTTPHandler.DeleteUser, hid,
      UserHTTPHandler.recorded, UserPort.recorded, List.nil_append]
    rcases h.userService.Delete c.id st with ⟨_ | err, st1⟩
    · rfl
    · by_cases he : err.Is Err.ErrNotFound = true <;> simp [he]
  · intro hn
    simp only [UserHTTPHandler.DeleteUser, hid]
    rcases hs : h.userService.Delete c.id st with ⟨_ | err, st1⟩
    · rfl
    · rw [hs] at hn; simp at hn
  · intro e hs he
    simp only [UserHTTPHandler.DeleteUser, hid]
    rcases hd : h.userService.Delete c.id st with ⟨_ | err, st1⟩
    · rw [hd] at hs; simp at hs
    · rw [hd] at hs
      simp only [Option.some.injEq] at hs
      subst hs
      simp [he]
  · intro e hs he
    simp only [UserHTTPHandler.DeleteUser, hid]
    rcases hd : h.userService.Delete c.id st with ⟨_ | err, st1⟩
    · rw [hd] at hs; simp at hs
    · rw [hd] at hs
      simp only [Option.some.injEq] at hs
      subst hs
      simp [he]

/-- The answer of `GetUser` to a well-formed identifier, by the class of the service
result, and its one service call. -/
theorem GetUser_responses (h : UserHTTPHandler σ) (lib : Library) (c : Context) (st : σ)
    (u : uuid.UUID) (hid : lib.Parse c.id = .ok u) :
    h.GetUserCalls lib c st = [PortCall.GetByUUID c.id]
    ∧ ((h.userService.GetByUUID c.id st).1.2 = none →
        (h.GetUser lib c st).1
          = { code := 200, body := Body.user (h.userService.GetByUUID c.id st).1.1 })
    ∧ (∀ e, (h.userService.GetByUUID c.id st).1.2 = some e → e.Is Err.ErrNotFound = true →
        (h.GetUser lib c st).1 = { code := 404, body := Body.error "user not found" })
    ∧ (∀ e, (h.userService.GetByUUID c.id st).1.2 = some e → e.Is Err.ErrNotFound = false →
        (h.GetUser lib c st).1
          = { code := 500, body := Body.error "internal server error" }) := by
  refine ⟨?_, ?_, ?_, ?_⟩
  · simp only [UserHTTPHandler.GetUserCalls, UserHTTPHandler.GetUser, hid,
      UserHTTPHandler.recorded, UserPort.recorded, List.nil_append]
    rcases h.userService.GetByUUID c.id st with ⟨⟨domainUser, _ | err⟩, st1⟩
    · rfl
    · by_cases he : err.Is Err.ErrNotFound = true <;> simp [he]
  · intro hn
    simp only [UserHTTPHandler.GetUser, hid]
    rcases hs : h.userService.GetByUUID c.id st with ⟨⟨domainUser, _ | err⟩, st1⟩
    · rfl
    · rw [hs] at hn; simp at hn
  · intro e hs he
    simp only [UserHTTPHandler.GetUser, hid]
    rcases hd : h.userService.GetByUUID c.id st with ⟨⟨domainUser, _ | err⟩, st1⟩
    · rw [hd] at hs; simp at hs
    · rw [hd] at hs
      simp only [Option.some.injEq] at hs
      subst hs
      simp [he]
  · intro e hs he
    simp only [UserHTTPHandler.GetUser, hid]
    rcases hd : h.userService.GetByUUID c.id st with ⟨⟨domainUser, _ | err⟩, st1⟩
    · rw [hd] at hs; simp at hs
    · rw [hd] at hs
      simp only [Option.some.injEq] at hs
      subst hs
      simp [he]

/-- The loop over a slice of pointers none of which is nil is the loop over the entries. -/
theorem pointerAddressLoop_map_some {α β : Type} (typ : α → AddressType) (conv : α → β)
    (l : List α) (seen : List AddressType) (acc : List β) :
    pointerAddressLoop typ conv (l.map some) seen acc = some (addressLoop typ conv l seen acc) := by
  induction l generalizing seen acc with
  | nil => rfl
  | cons a rest ih => simp only [List.map_cons, pointerAddressLoop, addressLoop, ih]

/-- A slice of pointers that dereferences to a list is that list, entry by entry. -/
theorem derefAll_eq_some {α : Type} (l : List (Option α)) (v : List α)
    (h : derefAll l = some v) : l = v.map some := by
  induction l generalizing v with
  | nil =>
      simp only [derefAll, Option.some.injEq] at h
      subst h
      rfl
  | cons a rest ih =>
      cases a with
      | none => simp [derefAll] at h
      | some a =>
          rw [derefAll] at h
          cases hr : derefAll rest with
          | none => rw [hr] at h; simp at h
          | some w =>
              rw [hr] at h
              simp only [Option.some.injEq] at h
              subst h
              rw [ih w hr]
              rfl

/-- The loop over a slice of pointers with a nil entry panics. -/
theorem pointerAddressLoop_nil_entry {α β : Type} (typ : α → AddressType) (conv : α → β)
    (l : List (Option α)) (seen : List AddressType) (acc : List β)
    (h : derefAll l = none) : pointerAddressLoop typ conv l seen acc = none := by
  induction l generalizing seen acc with
  | nil => simp [derefAll] at h
  | cons a rest ih =>
      cases a with
      | none => rfl
      | some a =>
          rw [derefAll] at h
          cases hr : derefAll rest with
          | none =>
              rw [pointerAddressLoop]
              exact ih _ _ hr
          | some w => rw [hr] at h; simp at h

/-- The DTO of a bound request without nil address entry is the DTO of the request with
the entries dereferenced. -/
theorem updateUserDTOBound_deref (hashed : Option String) (req : updateUserRequestBound)
    (vreq : updateUserRequest) (hderef : req.deref = some vreq) :
    updateUserDTOBound hashed req = some (updateUserDTO hashed vreq) := by
  unfold updateUserRequestBound.deref at hderef
  cases hd : derefAll req.Addresses with
  | none => rw [hd] at hderef; simp at hderef
  | some addrs =>
      rw [hd] at hderef
      simp only [Option.some.injEq] at hderef
      subst hderef
      simp only [updateUserDTOBound, updateUserDTO, derefAll_eq_some _ _ hd,
        pointerAddressLoop_map_some]

/-- A bound request with a nil address entry has no DTO: the loop panics. -/
theorem updateUserDTOBound_nil_entry (hashed : Option String) (req : updateUserRequestBound)
    (hderef : req.deref = none) : updateUserDTOBound hashed req = none := by
  unfold updateUserRequestBound.deref at hderef
  cases hd : derefAll req.Addresses with
  | none => simp only [updateUserDTOBound, pointerAddressLoop_nil_entry _ _ _ _ _ hd]
  | some addrs => rw [hd] at hderef; simp at hderef

/-- The end of `UpdateUser` on a request without nil address entry: its one service call,
and the answer by the class of the service result. -/
theorem updateAndAnswer_responses (h : UserHTTPHandler σ) (userID : String)
    (hashed : Option String) (req : updateUserRequestBound) (vreq : updateUserRequest)
    (hderef : req.deref = some vreq) (st : σ) :
    (h.recorded.updateAndAnswer userID hashed req (st, [])).2.2
        = [PortCall.Update userID (updateUserDTO hashed vreq)]
    ∧ ((h.userService.Update userID (updateUserDTO hashed vreq) st).1 = none →
        (h.updateAndAnswer userID hashed req st).1
          = Outcome.response { code := 200, body := Body.text "ok" })
    ∧ (∀ e, (h.userService.Update userID (updateUserDTO hashed vreq) st).1 = some e →
        e.Is Err.ErrNotFound = true →
        (h.updateAndAnswer userID hashed req st).1
          = Outcome.response { code := 404, body := Body.error "user not found" })
    ∧ (∀ e, (h.userService.Update userID (updateUserDTO hashed vreq) st).1 = some e →
        e.Is Err.ErrNotFound = false →
        (h.updateAndAnswer userID hashed req st).1
          = Outcome.response { code := 500, body := Body.error "internal server error" }) := by
  have hdto := updateUserDTOBound_deref hashed req vreq hderef
  refine ⟨?_, ?_, ?_, ?_⟩
  · simp only [UserHTTPHandler.updateAndAnswer, hdto, UserHTTPHandler.recorded,
      UserPort.recorded, List.nil_append]
    rcases h.userService.Update userID (updateUserDTO hashed vreq) st with ⟨_ | err, st1⟩
    · rfl
    · by_cases he : err.Is Err.ErrNotFound = true <;> simp [he]
  · intro hn
    simp only [UserHTTPHandler.updateAndAnswer, hdto]
    rcases hs : h.userService.Update userID (updateUserDTO hashed vreq) st with ⟨_ | err, st1⟩
    · rfl
    · rw [hs] at hn; simp at hn
  · intro e hs he
    simp only [UserHTTPHandler.updateAndAnswer, hdto]
    rcases hd : h.userService.Update userID (updateUserDTO hashed vreq) st with ⟨_ | err, st1⟩
    · rw [hd] at hs; simp at hs
    · rw [hd] at hs
      simp only [Option.some.injEq] at hs
      subst hs
      simp [he]
  · intro e hs he
    simp only [UserHTTPHandler.updateAndAnswer, hdto]
    rcases hd : h.userService.Update userID (updateUserDTO hashed vreq) st with ⟨_ | err, st1⟩
    · rw [hd] at hs; simp at hs
    · rw [hd] at hs
      simp only [Option.some.injEq] at hs
      subst hs
      simp [he]

/-- Once the identifier is well-formed, the body is bound and validated and the password
hashed, `UpdateUser` is the end of `UpdateUser`. -/
theorem UpdateUser_reaches_loop (h : UserHTTPHandler σ) (lib : Library) (c : Context)
    (st : σ) (u : uuid.UUID) (req : updateUserRequestBound) (hashed : Option String)
    (hid : lib.Parse c.id = .ok u) (hbind : lib.ShouldBindJSON c.body = .ok req)
    (hvalid : h.validator req = none) (hhash : passwordHashed lib req hashed) :
    h.UpdateUser lib c st = h.updateAndAnswer c.id hashed req st := by
  rcases hhash with ⟨hp, hh⟩ | ⟨password, hashedPassword, hp, hg, hh⟩
  · simp [UserHTTPHandler.UpdateUser, hid, hbind, hvalid, hp, hh]
  · simp [UserHTTPHandler.UpdateUser, hid, hbind, hvalid, hp, hh, hg]

/-- A `PUT` whose identifier is well-formed and whose body is bound and validated, with
the password hashed, panics in the address loop when an address entry of the bound request
is the nil pointer: the handler writes no response, leaves the state alone and does not
call the service. -/
theorem UpdateUser_nil_address_panics (h : UserHTTPHandler σ) (lib : Library) (c : Context)
    (st : σ) (u : uuid.UUID) (req : updateUserRequestBound) (hashed : Option String)
    (hid : lib.Parse c.id = .ok u) (hbind : lib.ShouldBindJSON c.body = .ok req)
    (hvalid : h.validator req = none) (hhash : passwordHashed lib req hashed)
    (hderef : req.deref = none) :
    h.UpdateUser lib c st = (Outcome.panic, st) ∧ h.UpdateUserCalls lib c st = [] := by
  have hdto := updateUserDTOBound_nil_entry hashed req hderef
  constructor
  · rw [UpdateUser_reaches_loop h lib c st u req hashed hid hbind hvalid hhash]
    simp only [UserHTTPHandler.updateAndAnswer, hdto]
  · rw [UserHTTPHandler.UpdateUserCalls,
      UpdateUser_reaches_loop h.recorded lib c (st, []) u req hashed hid hbind hvalid hhash]
    simp only [UserHTTPHandler.updateAndAnswer, hdto]

/-- The body with the one address entry `null`, sent to the sample handler: it binds and
validates, and the handler panics without a service call. -/
theorem UpdateUser_nil_address_sample :
    sample.lib.ShouldBindJSON "\x7b\"addresses\":[null]\x7d" = .ok sample.nullAddressBound
    ∧ (sample.handler sample.allOk).validator sample.nullAddressBound = none
    ∧ (sample.handler sample.allOk).UpdateUser sample.lib
        { id := "6ba7b810-9dad-11d1-80b4-00c04fd430c8",
          body := "\x7b\"addresses\":[null]\x7d" } 0 = (Outcome.panic, 0)
    ∧ (sample.handler sample.allOk).UpdateUserCalls sample.lib
        { id := "6ba7b810-9dad-11d1-80b4-00c04fd430c8",
          body := "\x7b\"addresses\":[null]\x7d" } 0 = [] :=
  ⟨by rfl, by rfl,
   UpdateUser_nil_address_panics (sample.handler sample.allOk) sample.lib
     { id := "6ba7b810-9dad-11d1-80b4-00c04fd430c8",
       body := "\x7b\"addresses\":[null]\x7d" } 0 sample.uuid1 sample.nullAddressBound none
     (by rfl) (by rfl) (by rfl) (Or.inl ⟨rfl, rfl⟩) (by rfl)⟩

end handlers

namespace handlers

open user service

variable {σ : Type}

/-- C17 as stated fails for PUT.  Two `PUT` requests with the same well-formed identifier
whose bodies do not bind are both answered without a service call, and the two responses
differ: each carries the message of the binder. -/
theorem put_response_depends_on_body :
    (sample.handler sample.allOk).UpdateUser sample.lib
        { id := "6ba7b810-9dad-11d1-80b4-00c04fd430c8", body := "" } 0
      = (Outcome.response { code := 400, body := Body.error "EOF" }, 0)
    ∧ (sample.handler sample.allOk).UpdateUser sample.lib
        { id := "6ba7b810-9dad-11d1-80b4-00c04fd430c8", body := "\x7b" } 0
      = (Outcome.response { code := 400, body := Body.error "unexpected EOF" }, 0)
    ∧ (sample.handler sample.allOk).UpdateUserCalls sample.lib
        { id := "6ba7b810-9dad-11d1-80b4-00c04fd430c8", body := "" } 0 = []
    ∧ (sample.handler sample.allOk).UpdateUserCalls sample.lib
        { id := "6ba7b810-9dad-11d1-80b4-00c04fd430c8", body := "\x7b" } 0 = []
    ∧ ({ code := 400, body := Body.error "EOF" } : Response)
        ≠ { code := 400, body := Body.error "unexpected EOF" } := by
  refine ⟨by rfl, by rfl, by rfl, by rfl, by decide⟩

/-- C17 amended: for DELETE and GET on `/users/{id}`, and for PUT once the body of the
request is bound and validated, none of its address entries is the nil pointer of a JSON
`null`, and its password is hashed, the response is a function of the well-formedness of
the identifier and of the class of the service result only.  For all three a malformed
identifier gives 400 "invalid user ID", no service call and an unchanged state.  With a
well-formed identifier there is exactly one service call (for PUT with the DTO of the
request with its address entries dereferenced); a nil service error gives 200, an error
recognised as `ErrNotFound` gives 404 "user not found", every other service error gives
500 with exactly "internal server error".  A PUT whose body does not bind or does not
validate gives 400 with the message of the binder or validator, and one whose password
cannot be hashed gives 500 "failed hashing password", each without a service call and
whatever the address entries are. -/
theorem users_id_responses (h : UserHTTPHandler σ) (lib : Library) (c : Context) (st : σ) :
    (∀ e, lib.Parse c.id = .error e →
        h.UpdateUser lib c st
          = (Outcome.response { code := 400, body := Body.error "invalid user ID" }, st)
        ∧ h.UpdateUserCalls lib c st = []
        ∧ h.DeleteUser lib c st = ({ code := 400, body := Body.error "invalid user ID" }, st)
        ∧ h.DeleteUserCalls lib c st = []
        ∧ h.GetUser lib c st = ({ code := 400, body := Body.error "invalid user ID" }, st)
        ∧ h.GetUserCalls lib c st = [])
    ∧ (∀ u, lib.Parse c.id = .ok u →
        h.DeleteUserCalls lib c st = [PortCall.Delete c.id]
        ∧ ((h.userService.Delete c.id st).1 = none →
            (h.DeleteUser lib c st).1 = { code := 200, body := Body.text "ok" })
        ∧ (∀ e, (h.userService.Delete c.id st).1 = some e → e.Is Err.ErrNotFound = true →
            (h.DeleteUser lib c st).1 = { code := 404, body := Body.error "user not found" })
        ∧ (∀ e, (h.userService.Delete c.id st).1 = some e → e.Is Err.ErrNotFound = false →
            (h.DeleteUser lib c st).1
              = { code := 500, body := Body.error "internal server error" }))
    ∧ (∀ u, lib.Parse c.id = .ok u →
        h.GetUserCalls lib c st = [PortCall.GetByUUID c.id]
        ∧ ((h.userService.GetByUUID c.id st).1.2 = none →
            (h.GetUser lib c st).1
              = { code := 200, body := Body.user (h.userService.GetByUUID c.id st).1.1 })
        ∧ (∀ e, (h.userService.GetByUUID c.id st).1.2 = some e →
            e.Is Err.ErrNotFound = true →
            (h.GetUser lib c st).1 = { code := 404, body := Body.error "user not found" })
        ∧ (∀ e, (h.userService.GetByUUID c.id st).1.2 = some e →
            e.Is Err.ErrNotFound = false →
            (h.GetUser lib c st).1
              = { code := 500, body := Body.error "internal server error" }))
    ∧ (∀ u req vreq hashed, lib.Parse c.id = .ok u → lib.ShouldBindJSON c.body = .ok req →
        h.validator req = none → passwordHashed lib req hashed → req.deref = some vreq →
        h.UpdateUserCalls lib c st = [PortCall.Update c.id (updateUserDTO hashed vreq)]
        ∧ ((h.userService.Update c.id (updateUserDTO hashed vreq) st).1 = none →
            (h.UpdateUser lib c st).1
              = Outcome.response { code := 200, body := Body.text "ok" })
        ∧ (∀ e, (h.userService.Update c.id (updateUserDTO hashed vreq) st).1 = some e →
            e.Is Err.ErrNotFound = true →
            (h.UpdateUser lib c st).1
              = Outcome.response { code := 404, body := Body.error "user not found" })
        ∧ (∀ e, (h.userService.Update c.id (updateUserDTO hashed vreq) st).1 = some e →
            e.Is Err.ErrNotFound = false →
            (h.UpdateUser lib c st).1
              = Outcome.response { code := 500, body := Body.error "internal server error" }))
    ∧ (∀ u err, lib.Parse c.id = .ok u → lib.ShouldBindJSON c.body = .error err →
        h.UpdateUser lib c st
          = (Outcome.response { code := 400, body := Body.error err.Error }, st)
        ∧ h.UpdateUserCalls lib c st = [])
    ∧ (∀ u req err, lib.Parse c.id = .ok u → lib.ShouldBindJSON c.body = .ok req →
        h.validator req = some err →
        h.UpdateUser lib c st
          = (Outcome.response { code := 400, body := Body.error err.Error }, st)
        ∧ h.UpdateUserCalls lib c st = [])
    ∧ (∀ u req password err, lib.Parse c.id = .ok u → lib.ShouldBindJSON c.body = .ok req →
        h.validator req = none → req.Password = some password →
        hashPassword lib password = .error err →
        h.UpdateUser lib c st
          = (Outcome.response { code := 500, body := Body.error "failed hashing password" }, st)
        ∧ h.UpdateUserCalls lib c st = []) := by
  refine ⟨fun e hid => malformed_id_responses h lib c st e hid,
    fun u hid => DeleteUser_responses h lib c st u hid,
    fun u hid => GetUser_responses h lib c st u hid, ?_, ?_, ?_, ?_⟩
  · intro u req vreq hashed hid hbind hvalid hhash hderef
    have hr := updateAndAnswer_responses h c.id hashed req vreq hderef st
    rw [UpdateUser_reaches_loop h lib c st u req hashed hid hbind hvalid hhash]
    refine ⟨?_, hr.2⟩
    rw [UserHTTPHandler.UpdateUserCalls,
      UpdateUser_reaches_loop h.recorded lib c (st, []) u req hashed hid hbind hvalid hhash]
    exact hr.1
  · intro u err hid hbind
    simp [UserHTTPHandler.UpdateUser, UserHTTPHandler.UpdateUserCalls, hid, hbind]
  · intro u req err hid hbind hvalid
    simp [UserHTTPHandler.UpdateUser, UserHTTPHandler.UpdateUserCalls,
      UserHTTPHandler.recorded, hid, hbind, hvalid]
  · intro u req password err hid hbind hvalid hp hh
    simp [UserHTTPHandler.UpdateUser, UserHTTPHandler.UpdateUserCalls,
      UserHTTPHandler.recorded, hid, hbind, hvalid, hp, hh]

/-- Witness of `users_id_responses`: a `DELETE` whose service call fails with an unknown
error is answered 500 "internal server error", and a `PUT` with the empty object as body
makes its one service call, with the DTO of the empty request. -/
theorem users_id_responses_witness :
    ((sample.handler (fun _ => some (Err.New "connection refused"))).DeleteUser sample.lib
        { id := "6ba7b810-9dad-11d1-80b4-00c04fd430c8", body := "" } 0).1
      = { code := 500, body := Body.error "internal server error" }
    ∧ ((sample.handler sample.userMissing).UpdateUserCalls sample.lib
        { id := "6ba7b810-9dad-11d1-80b4-00c04fd430c8", body := "\x7b\x7d" } 0)
      = [PortCall.Update "6ba7b810-9dad-11d1-80b4-00c04fd430c8"
          (updateUserDTO none sample.emptyRequest)] :=
  ⟨((users_id_responses (sample.handler (fun _ => some (Err.New "connection refused")))
      sample.lib { id := "6ba7b810-9dad-11d1-80b4-00c04fd430c8", body := "" } 0).2.1
      sample.uuid1 (by rfl)).2.2.2
      (Err.Wrap "failed deleting user" (Err.New "connection refused")) (by rfl) (by rfl),
   ((users_id_responses (sample.handler sample.userMissing) sample.lib
      { id := "6ba7b810-9dad-11d1-80b4-00c04fd430c8", body := "\x7b\x7d" } 0).2.2.2.1
      sample.uuid1 sample.emptyBound sample.emptyRequest none (by rfl) (by rfl) (by rfl)
      (Or.inl ⟨rfl, rfl⟩) (by rfl)).1⟩

end handlers

namespace mysql

open user service

/-- C11 fails on the code.  `Create` of a user with two addresses on an empty store whose
connection is lost at the second address INSERT returns that error, and afterwards the
user row is in the table `users`, visible to `GetByUUID`, with no address row: the INSERT
of the user row went through the write pool, outside the transaction that was rolled
back.  The same happens when the second address is refused as a duplicate of its type.
When every statement goes through, the user row and both address rows are there. -/
theorem Create_failure_leaves_user_row :
    ((store.repo sample.Parse).Create sample.user1 5
        (store.empty [none, none, none, some (Err.New "connection reset")])).1
      = some (Err.New "connection reset")
    ∧ ((store.repo sample.Parse).Create sample.user1 5
        (store.empty [none, none, none, some (Err.New "connection reset")])).2.tables.users
      = [sample.row1 none]
    ∧ ((store.repo sample.Parse).Create sample.user1 5
        (store.empty [none, none, none, some (Err.New "connection reset")])).2.tables.addresses
      = []
    ∧ ((store.repo sample.Parse).GetByUUID sample.id1
        ((store.repo sample.Parse).Create sample.user1 5
          (store.empty [none, none, none, some (Err.New "connection reset")])).2).1
      = (some { sample.user1 with Password := "", Addresses := [] }, none)
    ∧ ((store.repo sample.Parse).Create (newUser sample.twoOfType1) 5 (store.empty [])).1
      = some Err.ErrAddressAlreadyExists
    ∧ ((store.repo sample.Parse).Create (newUser sample.twoOfType1) 5
        (store.empty [])).2.tables.users = [sample.row1 none]
    ∧ ((store.repo sample.Parse).Create (newUser sample.twoOfType1) 5
        (store.empty [])).2.tables.addresses = []
    ∧ ((store.repo sample.Parse).Create sample.user1 5 (store.empty [])).1 = none
    ∧ ((store.repo sample.Parse).Create sample.user1 5 (store.empty [])).2.tables
      = (sample.stored []).tables := by
  refine ⟨by rfl, by rfl, by rfl, by rfl, by rfl, by rfl, by rfl, by rfl, by rfl⟩

/-- C12 fails on the code.  `Delete` of a stored user on a store whose connection is lost
at the UPDATE of the address rows returns "failed deleting addresses", and afterwards the
user row carries a deletion timestamp it did not carry before while no address row does:
both UPDATE statements go through the write pool, outside the transaction that is rolled
back.  `GetByUUID` then reports the user as not found. -/
theorem Delete_failure_leaves_user_marked :
    (sample.stored [none, none, none, some (Err.New "connection reset")]).tables.users
      = [sample.row1 none]
    ∧ ((store.repo sample.Parse).Delete sample.id1
        (sample.stored [none, none, none, some (Err.New "connection reset")])).1
      = some (Err.Wrap "failed deleting addresses" (Err.New "connection reset"))
    ∧ ((store.repo sample.Parse).Delete sample.id1
        (sample.stored [none, none, none, some (Err.New "connection reset")])).2.tables.users
      = [sample.row1 (some 1002)]
    ∧ ((store.repo sample.Parse).Delete sample.id1
        (sample.stored [none, none, none,
          some (Err.New "connection reset")])).2.tables.addresses
      = sample.addressRows1 none
    ∧ ((store.repo sample.Parse).GetByUUID sample.id1
        ((store.repo sample.Parse).Delete sample.id1
          (sample.stored [none, none, none, some (Err.New "connection reset")])).2).1
      = (none, some Err.ErrNotFound) := by
  refine ⟨by rfl, by rfl, by rfl, by rfl, by rfl⟩

/-- C13 fails on the code for `Delete`.  After `user1` has been deleted, a second `Delete`
of its identifier returns success and moves the deletion timestamp of the user row and of
its address rows from 1002 to 1007, while `Delete` of an identifier that was never stored
returns `ErrNotFound` and leaves the tables as they are: the lookup of `Delete` has no
`deleted_at IS NULL`.  `UpdateBasicFields` treats the two identifiers alike: both get
`ErrNotFound` and the tables stay as they are. -/
theorem Delete_of_deleted_user_succeeds :
    ((store.repo sample.Parse).Delete sample.id1 (sample.stored [])).1 = none
    ∧ sample.afterDelete.tables.users = [sample.row1 (some 1002)]
    ∧ sample.afterDelete.tables.addresses = sample.addressRows1 (some 1002)
    ∧ ((store.repo sample.Parse).Delete sample.id1 sample.afterDelete).1 = none
    ∧ ((store.repo sample.Parse).Delete sample.id1 sample.afterDelete).2.tables.users
      = [sample.row1 (some 1007)]
    ∧ ((store.repo sample.Parse).Delete sample.id1 sample.afterDelete).2.tables.addresses
      = sample.addressRows1 (some 1007)
    ∧ ((store.repo sample.Parse).Delete sample.id2 sample.afterDelete).1
      = some Err.ErrNotFound
    ∧ ((store.repo sample.Parse).Delete sample.id2 sample.afterDelete).2.tables
      = sample.afterDelete.tables
    ∧ ((store.repo sample.Parse).UpdateBasicFields sample.id1 [("first_name", "X")]
        sample.afterDelete).1 = some Err.ErrNotFound
    ∧ ((store.repo sample.Parse).UpdateBasicFields sample.id2 [("first_name", "X")]
        sample.afterDelete).1 = some Err.ErrNotFound
    ∧ ((store.repo sample.Parse).UpdateBasicFields sample.id1 [("first_name", "X")]
        sample.afterDelete).2.tables = sample.afterDelete.tables
    ∧ ((store.repo sample.Parse).UpdateBasicFields sample.id2 [("first_name", "X")]
        sample.afterDelete).2.tables = sample.afterDelete.tables := by
  refine ⟨by rfl, by rfl, by rfl, by rfl, by rfl, by rfl, by rfl, by rfl, by rfl, by rfl,
    by rfl, by rfl⟩

end mysql

namespace store

open user mysql

/-- The lookup of `Delete` on the tables. -/
theorem queryRowInt_id (uuid : String) (t : Tables) :
    queryRowInt "SELECT id FROM users WHERE uuid = ?" [Value.str uuid] t
      = match t.users.find? (fun u => decide (u.uuid = uuid)) with
        | none => .error Err.ErrNoRows
        | some u => .ok u.id := by
  rfl

/-- The UPDATE of the user row of `Delete` on the tables. -/
theorem exec_deleteUser (ts : Time) (id : Int) (t : Tables) :
    exec "UPDATE users SET deleted_at = ? WHERE id = ? LIMIT 1" [Value.time ts, Value.int id] t
      = .ok (0, { t with users := markUser ts id t.users }) := by
  rfl

/-- The UPDATE of the address rows of `Delete` on the tables. -/
theorem exec_deleteAddresses (ts : Time) (userID : Int) (t : Tables) :
    exec "UPDATE addresses SET deleted_at = ? WHERE user_id = ?"
        [Value.time ts, Value.int userID] t
      = .ok (0, { t with addresses := markAddresses ts userID t.addresses }) := by
  rfl

/-- The read of `GetByUUID` on the tables. -/
theorem queryRowUser_uuid (uuid : String) (t : Tables) :
    queryRowUser
        "SELECT id, uuid, email, first_name, last_name, phone_number FROM users WHERE uuid = ? AND deleted_at IS NULL"
        [Value.str uuid] t
      = match t.users.find? (fun u => decide (u.uuid = uuid ∧ u.deleted_at = none)) with
        | none => .error Err.ErrNoRows
        | some u => .ok (dbUser u) := by
  rfl

/-- A transaction that has begun is the newest open transaction, without statements; the
tables are as before. -/
theorem BeginTx_ok (p : Pool) (st sa : Store) (tx : Tx)
    (h : driver.BeginTx p st = (.ok tx, sa)) :
    sa.tables = st.tables ∧ sa.pending = (tx, []) :: st.pending ∧ sa.clock = st.clock + 1 := by
  simp only [driver] at h
  cases hf : st.fault with
  | some err => rw [hf] at h; simp at h
  | none =>
    rw [hf] at h
    simp only [Prod.mk.injEq, Except.ok.injEq] at h
    obtain ⟨h1, h2⟩ := h
    subst h1 h2
    exact ⟨rfl, rfl, rfl⟩

/-- A read of one integer leaves tables and transactions as they are, and a value it
returns is the value the tables give. -/
theorem QueryRowInt_spec (p : Pool) (query : String) (args : List Value) (st sb : Store)
    (r : Except Err Int) (h : driver.QueryRowInt p query args st = (r, sb)) :
    sb.tables = st.tables ∧ sb.pending = st.pending ∧ sb.clock = st.clock + 1
      ∧ ∀ n, r = .ok n → queryRowInt query args st.tables = .ok n := by
  simp only [driver] at h
  cases hf : st.fault with
  | some err =>
    rw [hf] at h
    simp only [Prod.mk.injEq] at h
    obtain ⟨h1, h2⟩ := h
    subst h1 h2
    exact ⟨rfl, rfl, rfl, fun n hn => by simp at hn⟩
  | none =>
    rw [hf] at h
    simp only [Prod.mk.injEq] at h
    obtain ⟨h1, h2⟩ := h
    subst h1 h2
    exact ⟨rfl, rfl, rfl, fun n hn => hn⟩

/-- A statement that succeeds on a pool takes effect on the tables and leaves the
transactions as they are. -/
theorem ExecContext_pool_ok (p : Pool) (query : String) (args : List Value) (st sc : Store)
    (r : Except Err Int) (h : driver.ExecContext (Conn.pool p) query args st = (.ok r, sc)) :
    ∃ id, exec query args st.tables = .ok (id, sc.tables) ∧ sc.pending = st.pending := by
  simp only [driver] at h
  cases hf : st.fault with
  | some err => rw [hf] at h; simp at h
  | none =>
    rw [hf] at h
    simp only at h
    rcases he : exec query args st.tables with err | ⟨id, t1⟩
    · rw [he] at h; simp at h
    · rw [he] at h
      simp only [Prod.mk.injEq] at h
      obtain ⟨_, h2⟩ := h
      subst h2
      exact ⟨id, rfl, rfl⟩

/-- A commit that succeeds puts the statements of the transaction on the tables. -/
theorem Commit_ok (tx : Tx) (st sd : Store) (h : driver.Commit tx st = (none, sd)) :
    ∃ statements, st.pending.lookup tx = some statements
      ∧ sd.tables = replay statements st.tables := by
  simp only [driver] at h
  cases hf : st.fault with
  | some err => rw [hf] at h; simp at h
  | none =>
    rw [hf] at h
    simp only at h
    rcases hl : st.pending.lookup tx with _ | statements
    · rw [hl] at h; simp at h
    · rw [hl] at h
      simp only [Prod.mk.injEq, true_and] at h
      subst h
      exact ⟨statements, rfl, rfl⟩

/-- A `Delete` that returns nil found a row with the identifier, whose id is not zero, and
leaves the tables with that id marked at one timestamp in both tables. -/
theorem Delete_ok_tables (Parse : String → Except Err uuid.UUID) (id : domain.ID)
    (st st1 : Store) (hdel : (repo Parse).Delete id st = (none, st1)) :
    ∃ row ts, st.tables.users.find? (fun u => decide (u.uuid = id.String)) = some row
      ∧ row.id ≠ 0
      ∧ st1.tables = { st.tables with
          users := markUser ts row.id st.tables.users
          addresses := markAddresses ts row.id st.tables.addresses } := by
  unfold userRepository.Delete at hdel
  split at hdel
  · simp at hdel
  next tx sa h1 =>
  obtain ⟨ha1, ha2, _⟩ := BeginTx_ok Pool.dbWrite st sa tx h1
  split at hdel
  next r2 sb h2 =>
  obtain ⟨hb1, hb2, _, hb4⟩ := QueryRowInt_spec Pool.dbRead _ _ sa sb r2 h2
  rcases r2 with e2 | n
  · simp at hdel
  simp only at hdel
  split at hdel
  · simp at hdel
  next hn =>
  have hq := hb4 n rfl
  rw [queryRowInt_id, ha1] at hq
  rcases hfind : st.tables.users.find? (fun u => decide (u.uuid = id.String)) with _ | row
  · rw [hfind] at hq; simp at hq
  rw [hfind] at hq
  simp only [Except.ok.injEq] at hq
  subst hq
  split at hdel
  · simp at hdel
  next res3 sc h3 =>
  obtain ⟨id3, hc1, hc2⟩ := ExecContext_pool_ok Pool.dbWrite _ _ sb sc res3 h3
  rw [exec_deleteUser] at hc1
  split at hdel
  · simp at hdel
  next res4 sd h4 =>
  obtain ⟨id4, hd1, hd2⟩ := ExecContext_pool_ok Pool.dbWrite _ _ sc sd res4 h4
  rw [exec_deleteAddresses] at hd1
  simp only [userRepository.deferred, Prod.mk.injEq] at hdel
  have h5 : (repo Parse).db.Commit tx sd = (none, st1) := Prod.ext hdel.1 hdel.2
  obtain ⟨statements, he1, he2⟩ := Commit_ok tx sd st1 h5
  rw [hd2, hc2, hb2, ha2] at he1
  simp only [List.lookup, beq_self_eq_true, Option.some.injEq] at he1
  subst he1
  simp only [replay] at he2
  simp only [Except.ok.injEq, Prod.mk.injEq] at hc1 hd1
  refine ⟨row, (repo Parse).db.Now sb, hfind, hn, ?_⟩
  rw [he2, ← hd1.2, ← hc1.2, hb1, ha1]

/-- With pairwise distinct ids, marking the first row of an id marks every row of it. -/
theorem markUser_eq_map (ts : Time) (id : Int) (users : List UserRow)
    (h : (users.map (fun u => u.id)).Nodup) :
    markUser ts id users
      = users.map (fun u => if u.id = id then { u with deleted_at := some ts } else u) := by
  induction users with
  | nil => rfl
  | cons u rest ih =>
    rw [List.map_cons, List.nodup_cons] at h
    simp only [markUser, List.map_cons]
    by_cases hu : u.id = id
    · simp only [hu, if_true, List.cons.injEq, true_and]
      symm
      conv_rhs => rw [← List.map_id rest]
      refine List.map_congr_left (fun x hx => ?_)
      have hne : x.id ≠ id := by
        intro hx2
        exact h.1 (List.mem_map.2 ⟨x, hx, by rw [hx2, hu]⟩)
      simp [hne]
    · simp only [hu, if_false, List.cons.injEq, true_and]
      exact ih h.2

/-- A read of one user row that meets no fault answers from the tables. -/
theorem QueryRowUser_ok (p : Pool) (query : String) (args : List Value) (st : Store)
    (h : st.fault = none) :
    driver.QueryRowUser p query args st = (queryRowUser query args st.tables, st.tick) := by
  simp only [driver, h]

end store

namespace mysql

open user service

/-- C14: after a repository `Delete` that returned nil, on a store that keeps `users.id`
and `users.uuid` unique, the user row of the identifier (a row that was there before)
carries a deletion timestamp, it is the only row of that identifier, every address row of
that user carries the same timestamp, and a following `GetByUUID` of the identifier whose
read the store answers returns a nil user and `ErrNotFound`. -/
theorem Delete_marks_user_and_addresses (Parse : String → Except Err uuid.UUID)
    (id : domain.ID) (st st1 : store.Store) (hkeys : st.tables.keysUnique)
    (hdel : (store.repo Parse).Delete id st = (none, st1)) (hread : st1.fault = none) :
    ∃ ts row, row ∈ st1.tables.users ∧ row.uuid = id.String ∧ row.deleted_at = some ts
      ∧ (∃ before ∈ st.tables.users, before.uuid = id.String ∧ before.id = row.id)
      ∧ (∀ other ∈ st1.tables.users, other.uuid = id.String → other = row)
      ∧ (∀ a ∈ st1.tables.addresses, a.user_id = row.id → a.deleted_at = some ts)
      ∧ ((store.repo Parse).GetByUUID id st1).1 = (none, some Err.ErrNotFound) := by
  obtain ⟨row, ts, hfind, _, htab⟩ := store.Delete_ok_tables Parse id st st1 hdel
  have hmem : row ∈ st.tables.users := List.mem_of_find?_eq_some hfind
  have huuid : row.uuid = id.String := by
    have := List.find?_some hfind
    simpa using this
  have husers : st1.tables.users = st.tables.users.map
      (fun u => if u.id = row.id then { u with deleted_at := some ts } else u) := by
    rw [htab]
    exact store.markUser_eq_map ts row.id st.tables.users hkeys.1
  have haddr : st1.tables.addresses = store.markAddresses ts row.id st.tables.addresses := by
    rw [htab]
  have honly : ∀ other ∈ st1.tables.users, other.uuid = id.String →
      other = { row with deleted_at := some ts } := by
    intro other ho hou
    rw [husers] at ho
    obtain ⟨u, hu, rfl⟩ := List.mem_map.1 ho
    have hu2 : u.uuid = id.String := by
      by_cases hc : u.id = row.id
      · simpa [hc] using hou
      · simpa [hc] using hou
    have hur : u = row :=
      List.inj_on_of_nodup_map hkeys.2 hu hmem (by rw [hu2, huuid])
    subst hur
    simp
  refine ⟨ts, { row with deleted_at := some ts }, ?_, huuid, rfl, ⟨row, hmem, huuid, rfl⟩,
    honly, ?_, ?_⟩
  · rw [husers]
    exact List.mem_map.2 ⟨row, hmem, by simp⟩
  · intro a ha hau
    rw [haddr] at ha
    obtain ⟨b, _, rfl⟩ := List.mem_map.1 ha
    by_cases hc : b.user_id = row.id
    · simp [hc]
    · simp [hc] at hau
  · have hnone : st1.tables.users.find?
        (fun u => decide (u.uuid = id.String ∧ u.deleted_at = none)) = none := by
      rw [List.find?_eq_none]
      intro x hx hp
      simp only [decide_eq_true_eq] at hp
      have := honly x hx hp.1
      rw [this] at hp
      simp at hp
    simp only [userRepository.GetByUUID, store.repo, store.QueryRowUser_ok _ _ _ st1 hread,
      store.queryRowUser_uuid, hnone]
    rfl

/-- Witness of `Delete_marks_user_and_addresses`: the stored user with its two addresses,
deleted at 1002. -/
theorem Delete_marks_user_and_addresses_witness :
    ∃ ts row, row ∈ sample.afterDelete.tables.users ∧ row.uuid = sample.id1.String
      ∧ row.deleted_at = some ts
      ∧ (∃ before ∈ (sample.stored []).tables.users,
          before.uuid = sample.id1.String ∧ before.id = row.id)
      ∧ (∀ other ∈ sample.afterDelete.tables.users, other.uuid = sample.id1.String →
          other = row)
      ∧ (∀ a ∈ sample.afterDelete.tables.addresses, a.user_id = row.id →
          a.deleted_at = some ts)
      ∧ ((store.repo sample.Parse).GetByUUID sample.id1 sample.afterDelete).1
          = (none, some Err.ErrNotFound) :=
  Delete_marks_user_and_addresses sample.Parse sample.id1 (sample.stored [])
    sample.afterDelete (by decide) (by rfl) (by rfl)

end mysql

namespace service

open user

variable {σ : Type}

/-- C25: service `Get` calls the `Get` of the repository once, with the same page and
page size, and returns its users and error unchanged; service `GetByUUID` with a
well-formed identifier calls the `GetByUUID` of the repository once, with the parsed
identifier, and returns its user and error unchanged, so that a nil user with
`ErrNotFound` from the repository is a nil user with `ErrNotFound` from the service. -/
theorem Get_and_GetByUUID_transparent (s : userService σ)
    (Parse : String → Except Err uuid.UUID) :
    (∀ (page pageSize : Int) (st : σ),
        s.Get page pageSize st = s.userRepo.Get page pageSize st
        ∧ (s.GetCalls page pageSize st).map (fun ev => ev.call) = [Call.Get page pageSize])
    ∧ (∀ (userID : String) (id : domain.ID) (st : σ),
        domain.ParseID Parse userID = .ok id →
        s.GetByUUID Parse userID st = s.userRepo.GetByUUID id st
        ∧ (s.GetByUUIDCalls Parse userID st).map (fun ev => ev.call) = [Call.GetByUUID id]
        ∧ (∀ st1, s.userRepo.GetByUUID id st = ((none, some Err.ErrNotFound), st1) →
            s.GetByUUID Parse userID st = ((none, some Err.ErrNotFound), st1))) := by
  constructor
  · intro page pageSize st
    exact ⟨rfl, rfl⟩
  · intro userID id st hid
    have h : s.GetByUUID Parse userID st = s.userRepo.GetByUUID id st := by
      simp [userService.GetByUUID, hid]
    refine ⟨h, ?_, fun st1 h1 => by rw [h, h1]⟩
    simp [userService.GetByUUIDCalls, userService.GetByUUID, hid, userService.recorded,
      Repository.recorded]

/-- Witness of `Get_and_GetByUUID_transparent`: a repository that knows no user. -/
theorem Get_and_GetByUUID_transparent_witness :
    (sample.svc (fun _ => some Err.ErrNotFound)).GetByUUID sample.Parse
        "6ba7b810-9dad-11d1-80b4-00c04fd430c8" 0 = ((none, some Err.ErrNotFound), 1) :=
  ((Get_and_GetByUUID_transparent (sample.svc (fun _ => some Err.ErrNotFound))
      sample.Parse).2 "6ba7b810-9dad-11d1-80b4-00c04fd430c8" sample.id1 0 (by rfl)).2.2 1
    (by rfl)

end service

namespace mysql

open user service

set_option maxRecDepth 16384 in
/-- C27 fails on the code.  On a store that holds `user1` with an address of type 1, when
the connection is lost at the lookup read: `Delete` returns `ErrNotFound` although the
user row is there, and service `Delete` passes that on; `UpdateAddress` returns
`ErrAddressNotFound` although the address row is there, and service `Update` goes on to
send the INSERT of `InsertAddress`.  `UpdateBasicFields`, whose lookup read checks its
error, returns the failure wrapped. -/
theorem lookup_failure_reported_as_not_found :
    (sample.stored [none, some (Err.New "connection reset")]).tables.users
      = [sample.row1 none]
    ∧ ((store.repo sample.Parse).Delete sample.id1
        (sample.stored [none, some (Err.New "connection reset")])).1 = some Err.ErrNotFound
    ∧ ((NewUserService (store.repo sample.Parse).toRepository sample.storeClock).Delete
        sample.Parse "6ba7b810-9dad-11d1-80b4-00c04fd430c8"
        (sample.stored [none, some (Err.New "connection reset")])).1 = some Err.ErrNotFound
    ∧ (sample.stored [some (Err.New "connection reset")]).tables.addresses
      = sample.addressRows1 none
    ∧ ((store.repo sample.Parse).UpdateAddress sample.id1 1 [("street", "X")]
        (sample.stored [some (Err.New "connection reset")])).1 = some Err.ErrAddressNotFound
    ∧ UpdateStatements (store.repo sample.Parse) sample.storeClock sample.Parse
        "6ba7b810-9dad-11d1-80b4-00c04fd430c8"
        { sample.emptyDTO with Addresses := [sample.street 1 "X"] }
        (sample.stored [some (Err.New "connection reset")])
      = [DbCall.Query Pool.dbRead
          "SELECT COUNT(1) FROM addresses WHERE user_id = (SELECT id FROM users WHERE uuid = ? AND deleted_at IS NULL) AND type = ?"
          [Value.str "6ba7b810-9dad-11d1-80b4-00c04fd430c8", Value.int 1],
         DbCall.Exec (Conn.pool Pool.dbWrite)
          "\n\t\tINSERT INTO addresses (user_id, type, street, city, state, postal_code, country, created_at, updated_at)\n\t\tVALUES ((SELECT id FROM users WHERE uuid = ? AND deleted_at IS NULL ), ?, ?, ?, ?, ?, ?, ?, ?)\n\t"
          [Value.str "6ba7b810-9dad-11d1-80b4-00c04fd430c8", Value.int 1, Value.str "X",
           Value.str "", Value.str "", Value.str "", Value.str "", Value.time 1001,
           Value.null]]
    ∧ ((store.repo sample.Parse).UpdateBasicFields sample.id1 [("first_name", "X")]
        (sample.stored [some (Err.New "connection reset")])).1
      = some (Err.Wrap "failed checking if user exists" (Err.New "connection reset")) := by
  refine ⟨by rfl, by rfl, by rfl, by rfl, by rfl, by rfl, by rfl⟩

/-- C30 fails on the code for `Delete`.  `Delete` of an identifier without a user row
returns `ErrNotFound` after `BeginTx` and the lookup read, with neither `Commit` nor
`Rollback`: the transaction it opened is still open in the store.  On the other return
paths of `Delete` and on those of `Create` the transaction is closed, by `Commit` when
every statement went through and by `Rollback` otherwise. -/
theorem Delete_not_found_leaves_transaction_open :
    (sample.stored []).pending = []
    ∧ ((store.repo sample.Parse).Delete sample.id2 (sample.stored [])).1
      = some Err.ErrNotFound
    ∧ ((store.repo sample.Parse).Delete sample.id2 (sample.stored [])).2.pending = [(2, [])]
    ∧ DeleteStatements (store.repo sample.Parse) sample.id2 (sample.stored [])
      = [DbCall.BeginTx Pool.dbWrite,
         DbCall.Query Pool.dbRead "SELECT id FROM users WHERE uuid = ?"
          [Value.str "6ba7b811-9dad-11d1-80b4-00c04fd430c8"]]
    ∧ (DeleteStatements (store.repo sample.Parse) sample.id1 (sample.stored [])).filter
        DbCall.closes = [DbCall.Commit 2]
    ∧ (DeleteStatements (store.repo sample.Parse) sample.id1
        (sample.stored [none, none, some (Err.New "connection reset")])).filter
        DbCall.closes = [DbCall.Rollback 2]
    ∧ (DeleteStatements (store.repo sample.Parse) sample.id1
        (sample.stored [none, none, none, some (Err.New "connection reset")])).filter
        DbCall.closes = [DbCall.Rollback 2]
    ∧ (CreateStatements (store.repo sample.Parse) sample.user1 5 (store.empty [])).filter
        DbCall.closes = [DbCall.Commit 1]
    ∧ (CreateStatements (store.repo sample.Parse) sample.user1 5
        (store.empty [none, some (Err.New "connection reset")])).filter
        DbCall.closes = [DbCall.Rollback 1]
    ∧ (CreateStatements (store.repo sample.Parse) sample.user1 5
        (store.empty [none, none, none, some (Err.New "connection reset")])).filter
        DbCall.closes = [DbCall.Rollback 1] := by
  refine ⟨by rfl, by rfl, by rfl, by rfl, by rfl, by rfl, by rfl, by rfl, by rfl, by rfl⟩

end mysql

namespace mysql

open user service

variable {σ : Type}

/-- The loop of `Get` keeps the password of every user empty. -/
theorem scanUsers_Password (r : userRepository σ) (rows : List (Except Err entity.DbUser))
    (domainUsers : List User) (st : σ) (h : ∀ u ∈ domainUsers, u.Password = "") :
    ∀ u ∈ (r.scanUsers rows domainUsers st).1.1, u.Password = "" := by
  induction rows generalizing domainUsers st with
  | nil => simpa [userRepository.scanUsers] using h
  | cons row rest ih =>
    cases row with
    | error err => simp [userRepository.scanUsers]
    | ok dbUser =>
      simp only [userRepository.scanUsers]
      split
      · simp
      · split
        · simp
        · apply ih
          intro u hu
          rcases List.mem_append.1 hu with h1 | h1
          · exact h u h1
          · simp only [List.mem_singleton] at h1
            rw [h1]
            rfl

/-- C26: every user that repository `GetByUUID` or `Get` returns has an empty `Password`,
whatever the database answers; and the JSON form of a `User` has the members id, email,
first_name, last_name, phone_number and addresses, no member named password, and is the
same whatever the `Password` field holds. -/
theorem password_never_returned (r : userRepository σ) (id : domain.ID)
    (page pageSize : Int) (st : σ) :
    (∀ u, (r.GetByUUID id st).1.1 = some u → u.Password = "")
    ∧ (∀ u ∈ (r.Get page pageSize st).1.1, u.Password = "")
    ∧ (∀ (u : User) (password : String),
        ({ u with Password := password } : User).json = u.json)
    ∧ (∀ u : User, u.json.memberNames
        = ["id", "email", "first_name", "last_name", "phone_number", "addresses"])
    ∧ (∀ u : User, "password" ∉ u.json.memberNames) := by
  refine ⟨?_, ?_, fun _ _ => rfl, fun _ => rfl, fun u => by simp [User.json, JSON.memberNames]⟩
  · intro u hu
    simp only [userRepository.GetByUUID] at hu
    split at hu
    · split at hu <;> simp at hu
    · split at hu
      · simp at hu
      · split at hu
        · simp at hu
        · simp only [Option.some.injEq] at hu
          rw [← hu]
          rfl
  · simp only [userRepository.Get]
    split
    · simp
    · exact scanUsers_Password r _ [] _ (by simp)

/-- Witness of `password_never_returned`: the stored user, whose row holds the password
"hash", as `GetByUUID` returns it. -/
theorem password_never_returned_witness :
    (sample.stored []).tables.users.map (fun u => u.password) = ["hash"]
    ∧ ((store.repo sample.Parse).GetByUUID sample.id1 (sample.stored [])).1.1
        = some { sample.user1 with Password := "" }
    ∧ ({ sample.user1 with Password := "" } : User).Password = "" :=
  ⟨by rfl, by rfl,
    (password_never_returned (store.repo sample.Parse) sample.id1 1 5 (sample.stored [])).1
      { sample.user1 with Password := "" } (by rfl)⟩

end mysql

namespace mysql

open user service

variable {σ : Type}

/-- The loop that builds the SET clause, started at position `i` with `n + 1 - i` entries
to go: the fragments of the entries are appended joined by ", ", the values are appended
in the same order. -/
theorem setClause_eq (n : Nat) (l : List (String × String)) (i : Nat) (query : String)
    (args : List Value) (h : i + l.length = n + 1) :
    setClause n l i query args
      = (query ++ joinComma (l.map (fun kv => kv.1 ++ " = ?")),
          args ++ l.map (fun kv => Value.str kv.2)) := by
  induction l generalizing i query args with
  | nil => simp [setClause, joinComma]
  | cons kv rest ih =>
    obtain ⟨key, value⟩ := kv
    cases rest with
    | nil =>
      have hi : ¬ i < n := by simp at h; omega
      simp [setClause, joinComma, hi, String.append_assoc]
    | cons kv2 rest2 =>
      have hi : i < n := by simp at h; omega
      rw [setClause]
      simp only [hi, if_true]
      rw [ih (i + 1) _ _ (by simp at h ⊢; omega)]
      simp [joinComma, String.append_assoc]

/-- C28: when the lookup read finds the row, the statement `UpdateBasicFields` sends to
the write pool is "UPDATE users SET ", then one fragment "column = ?" per entry of the
mapping, in the order the map is visited, joined by ", " with no separator before the
first or after the last, then " WHERE uuid = ?"; its arguments are the values of the
entries in that same order followed by the text of the identifier, one more than there
are entries.  `UpdateAddress` builds "UPDATE addresses SET ", the same fragments and
" WHERE user_id = (SELECT id FROM users WHERE uuid = ?) AND type = ?", with the values
followed by the text of the identifier and the address type, two more than there are
entries.  Every key of the mapping is the column of exactly one fragment. -/
theorem update_statements_built (r : userRepository σ) (id : domain.ID) (addrType : Int)
    (fields : Fields) (st st1 st2 : σ) (found found2 : Int)
    (hkeys : (fields.map Prod.fst).Nodup)
    (horder : (r.mapOrder fields).Perm fields)
    (hread : r.db.QueryRowInt Pool.dbRead
        "SELECT COUNT(1) FROM users WHERE uuid = ? AND deleted_at IS NULL "
        [Value.str id.String] st = (.ok found, st1))
    (hfound : found ≠ 0)
    (hread2 : r.db.QueryRowInt Pool.dbRead
        "SELECT COUNT(1) FROM addresses WHERE user_id = (SELECT id FROM users WHERE uuid = ? AND deleted_at IS NULL) AND type = ?"
        [Value.str id.String, Value.int addrType] st = (.ok found2, st2))
    (hfound2 : found2 ≠ 0) :
    UpdateBasicFieldsStatements r id fields st
      = [DbCall.Query Pool.dbRead
          "SELECT COUNT(1) FROM users WHERE uuid = ? AND deleted_at IS NULL "
          [Value.str id.String],
         DbCall.Exec (Conn.pool Pool.dbWrite)
          ("UPDATE users SET "
            ++ joinComma ((r.mapOrder fields).map (fun kv => kv.1 ++ " = ?"))
            ++ " WHERE uuid = ?")
          ((r.mapOrder fields).map (fun kv => Value.str kv.2) ++ [Value.str id.String])]
    ∧ UpdateAddressStatements r id addrType fields st
      = [DbCall.Query Pool.dbRead
          "SELECT COUNT(1) FROM addresses WHERE user_id = (SELECT id FROM users WHERE uuid = ? AND deleted_at IS NULL) AND type = ?"
          [Value.str id.String, Value.int addrType],
         DbCall.Exec (Conn.pool Pool.dbWrite)
          ("UPDATE addresses SET "
            ++ joinComma ((r.mapOrder fields).map (fun kv => kv.1 ++ " = ?"))
            ++ " WHERE user_id = (SELECT id FROM users WHERE uuid = ?) AND type = ?")
          ((r.mapOrder fields).map (fun kv => Value.str kv.2)
            ++ [Value.str id.String, Value.int addrType])]
    ∧ ((r.mapOrder fields).map Prod.fst).Perm (fields.map Prod.fst)
    ∧ ((r.mapOrder fields).map Prod.fst).Nodup
    ∧ ((r.mapOrder fields).map (fun kv => Value.str kv.2) ++ [Value.str id.String]).length
        = fields.length + 1
    ∧ ((r.mapOrder fields).map (fun kv => Value.str kv.2)
        ++ [Value.str id.String, Value.int addrType]).length = fields.length + 2 := by
  have hlen : (r.mapOrder fields).length = fields.length := horder.length_eq
  have hset : ∀ query : String,
      setClause fields.length (r.mapOrder fields) 1 query []
        = (query ++ joinComma ((r.mapOrder fields).map (fun kv => kv.1 ++ " = ?")),
            (r.mapOrder fields).map (fun kv => Value.str kv.2)) := by
    intro query
    rw [setClause_eq fields.length (r.mapOrder fields) 1 query [] (by omega)]
    simp
  have hperm : ((r.mapOrder fields).map Prod.fst).Perm (fields.map Prod.fst) :=
    horder.map Prod.fst
  refine ⟨?_, ?_, hperm, hperm.nodup_iff.2 hkeys, by simp [hlen], by simp [hlen]⟩
  · have hrec : r.recorded.db.QueryRowInt Pool.dbRead
        "SELECT COUNT(1) FROM users WHERE uuid = ? AND deleted_at IS NULL "
        [Value.str id.String] (st, [])
        = (.ok found, (st1, [DbCall.Query Pool.dbRead
            "SELECT COUNT(1) FROM users WHERE uuid = ? AND deleted_at IS NULL "
            [Value.str id.String]])) := by
      simp [userRepository.recorded, Driver.recorded, hread]
    simp only [UpdateBasicFieldsStatements, userRepository.UpdateBasicFields, hrec, hfound,
      if_false]
    have hm : r.recorded.mapOrder = r.mapOrder := rfl
    rw [hm, hset]
    simp only [userRepository.recorded, Driver.recorded]
    split
    · next heq =>
      simp only [Prod.mk.injEq] at heq
      rw [← heq.2]
      rfl
    · next heq =>
      simp only [Prod.mk.injEq] at heq
      rw [← heq.2]
      rfl
  · have hrec : r.recorded.db.QueryRowInt Pool.dbRead
        "SELECT COUNT(1) FROM addresses WHERE user_id = (SELECT id FROM users WHERE uuid = ? AND deleted_at IS NULL) AND type = ?"
        [Value.str id.String, Value.int addrType] (st, [])
        = (.ok found2, (st2, [DbCall.Query Pool.dbRead
            "SELECT COUNT(1) FROM addresses WHERE user_id = (SELECT id FROM users WHERE uuid = ? AND deleted_at IS NULL) AND type = ?"
            [Value.str id.String, Value.int addrType]])) := by
      simp [userRepository.recorded, Driver.recorded, hread2]
    simp only [UpdateAddressStatements, userRepository.UpdateAddress, hrec, hfound2,
      if_false]
    have hm : r.recorded.mapOrder = r.mapOrder := rfl
    rw [hm, hset]
    simp only [userRepository.recorded, Driver.recorded]
    split
    · next heq =>
      simp only [Prod.mk.injEq] at heq
      rw [← heq.2]
      rfl
    · next heq =>
      simp only [Prod.mk.injEq] at heq
      rw [← heq.2]
      rfl

/-- Witness of `update_statements_built`: a mapping with first name and last name on the
store that holds `user1`; the statement sent is
"UPDATE users SET first_name = ?, last_name = ? WHERE uuid = ?". -/
theorem update_statements_built_witness :
    UpdateBasicFieldsStatements (store.repo sample.Parse) sample.id1
        [("first_name", "X"), ("last_name", "Y")] (sample.stored [])
      = [DbCall.Query Pool.dbRead
          "SELECT COUNT(1) FROM users WHERE uuid = ? AND deleted_at IS NULL "
          [Value.str "6ba7b810-9dad-11d1-80b4-00c04fd430c8"],
         DbCall.Exec (Conn.pool Pool.dbWrite)
          "UPDATE users SET first_name = ?, last_name = ? WHERE uuid = ?"
          [Value.str "X", Value.str "Y", Value.str "6ba7b810-9dad-11d1-80b4-00c04fd430c8"]]
    ∧ UpdateAddressStatements (store.repo sample.Parse) sample.id1 1
        [("first_name", "X"), ("last_name", "Y")] (sample.stored [])
      = [DbCall.Query Pool.dbRead
          "SELECT COUNT(1) FROM addresses WHERE user_id = (SELECT id FROM users WHERE uuid = ? AND deleted_at IS NULL) AND type = ?"
          [Value.str "6ba7b810-9dad-11d1-80b4-00c04fd430c8", Value.int 1],
         DbCall.Exec (Conn.pool Pool.dbWrite)
          "UPDATE addresses SET first_name = ?, last_name = ? WHERE user_id = (SELECT id FROM users WHERE uuid = ?) AND type = ?"
          [Value.str "X", Value.str "Y", Value.str "6ba7b810-9dad-11d1-80b4-00c04fd430c8",
           Value.int 1]] :=
  ⟨(update_statements_built (store.repo sample.Parse) sample.id1 1
      [("first_name", "X"), ("last_name", "Y")] (sample.stored []) (sample.stored []).tick
      (sample.stored []).tick 1 1 (by decide) (List.Perm.refl _) (by rfl) (by decide)
      (by rfl) (by decide)).1.trans (by rfl),
   (update_statements_built (store.repo sample.Parse) sample.id1 1
      [("first_name", "X"), ("last_name", "Y")] (sample.stored []) (sample.stored []).tick
      (sample.stored []).tick 1 1 (by decide) (List.Perm.refl _) (by rfl) (by decide)
      (by rfl) (by decide)).2.1.trans (by rfl)⟩

end mysql

namespace mysql

open user service

variable {σ : Type}

/-- The loop of `Get` only adds statements to the record. -/
theorem scanUsers_recorded_log (r : userRepository σ) (rows : List (Except Err entity.DbUser))
    (domainUsers : List User) (st : σ) (log : List DbCall) :
    ∃ extra, (r.recorded.scanUsers rows domainUsers (st, log)).2.2 = log ++ extra := by
  induction rows generalizing domainUsers st log with
  | nil => exact ⟨[], by simp [userRepository.scanUsers]⟩
  | cons row rest ih =>
    cases row with
    | error err => exact ⟨[], by simp [userRepository.scanUsers]⟩
    | ok dbUser =>
      simp only [userRepository.scanUsers]
      split
      · next err w h =>
        simp only [userRepository.recorded, Driver.recorded, Prod.mk.injEq] at h
        obtain ⟨_, rfl⟩ := h
        exact ⟨_, rfl⟩
      · next rows2 w h =>
        simp only [userRepository.recorded, Driver.recorded, Prod.mk.injEq] at h
        obtain ⟨_, rfl⟩ := h
        split
        · exact ⟨_, rfl⟩
        · obtain ⟨extra, he⟩ := ih _ _ _
          exact ⟨_, by rw [he, List.append_assoc]⟩

/-- The first statement of `Get` is the SELECT of the page of users, with the page size as
limit and the 64-bit product `(page - 1) * pageSize` as offset. -/
theorem GetStatements_head (r : userRepository σ) (page pageSize : Int) (st : σ) :
    (GetStatements r page pageSize st).head?
      = some (DbCall.Query Pool.dbRead
          "SELECT id, uuid, email, first_name, last_name, phone_number FROM users WHERE deleted_at IS NULL LIMIT ? OFFSET ?"
          [Value.int pageSize, Value.int (int64 ((page - 1) * pageSize))]) := by
  simp only [GetStatements, userRepository.Get]
  split
  · next err w h =>
    simp only [userRepository.recorded, Driver.recorded, Prod.mk.injEq] at h
    obtain ⟨_, rfl⟩ := h
    rfl
  · next rows w h =>
    simp only [userRepository.recorded, Driver.recorded, Prod.mk.injEq] at h
    obtain ⟨_, rfl⟩ := h
    obtain ⟨extra, he⟩ := scanUsers_recorded_log r rows [] _ _
    rw [he]
    rfl

/-- A product that fits the 64-bit integer is not changed by the wrap-around. -/
theorem int64_of_fits (n : Int) (h0 : 0 ≤ n) (h1 : n ≤ 2 ^ 63 - 1) : int64 n = n := by
  unfold int64
  omega

end mysql

namespace handlers

open user service mysql

variable {σ τ : Type}

/-- C29 as stated fails.  The list handler accepts the page "0", the size "-1" and the
page "4611686018427387905" with the size "4" and forwards them as they are; for them
repository `Get` sends the offset -5, the limit -1, and the offset 0 in place of the
product 18446744073709551616, which does not fit the 64-bit integer. -/
theorem list_handler_accepts_any_integer :
    (sample.handler sample.allOk).GetCalls { page := some "0", size := none } 0
      = [PortCall.Get 0 5]
    ∧ (GetStatements (sample.repo (.ok (.ok 0))) 0 5 0)
      = [DbCall.Query Pool.dbRead
          "SELECT id, uuid, email, first_name, last_name, phone_number FROM users WHERE deleted_at IS NULL LIMIT ? OFFSET ?"
          [Value.int 5, Value.int (-5)]]
    ∧ (sample.handler sample.allOk).GetCalls { page := none, size := some "-1" } 0
      = [PortCall.Get 1 (-1)]
    ∧ (GetStatements (sample.repo (.ok (.ok 0))) 1 (-1) 0)
      = [DbCall.Query Pool.dbRead
          "SELECT id, uuid, email, first_name, last_name, phone_number FROM users WHERE deleted_at IS NULL LIMIT ? OFFSET ?"
          [Value.int (-1), Value.int 0]]
    ∧ (sample.handler sample.allOk).GetCalls
        { page := some "4611686018427387905", size := some "4" } 0
      = [PortCall.Get 4611686018427387905 4]
    ∧ (GetStatements (sample.repo (.ok (.ok 0))) 4611686018427387905 4 0)
      = [DbCall.Query Pool.dbRead
          "SELECT id, uuid, email, first_name, last_name, phone_number FROM users WHERE deleted_at IS NULL LIMIT ? OFFSET ?"
          [Value.int 4, Value.int 0]]
    ∧ ((4611686018427387905 : Int) - 1) * 4 = 18446744073709551616
    ∧ ¬ ((4611686018427387905 : Int) - 1) * 4 ≤ 2 ^ 63 - 1 := by
  refine ⟨by rfl, by rfl, by rfl, by rfl, by rfl, by rfl, by decide, by decide⟩

/-- C29 amended: the list handler accepts every page and size text that `strconv.Atoi`
reads, zero and negative values included, and forwards the two integers unchanged in its
one service call; repository `Get` sends the page size as limit and the 64-bit product
`(page - 1) * pageSize` as offset.  When the page is at least 1, the size is not negative
and the product fits the 64-bit integer, limit and offset are not negative and the offset
is the exact product; this is so for the defaults, page 1 and size 5, which give the limit
5 and the offset 0. -/
theorem list_parameters_forwarded (h : UserHTTPHandler σ) (r : userRepository τ)
    (c : ListContext) (st : σ) (db : τ) (page size : Int)
    (hpage : strconv.Atoi (DefaultQuery c.page "1") = .ok page)
    (hsize : strconv.Atoi (DefaultQuery c.size "5") = .ok size) :
    h.GetCalls c st = [PortCall.Get page size]
    ∧ (GetStatements r page size db).head?
      = some (DbCall.Query Pool.dbRead
          "SELECT id, uuid, email, first_name, last_name, phone_number FROM users WHERE deleted_at IS NULL LIMIT ? OFFSET ?"
          [Value.int size, Value.int (int64 ((page - 1) * size))])
    ∧ (1 ≤ page → 0 ≤ size → (page - 1) * size ≤ 2 ^ 63 - 1 →
        int64 ((page - 1) * size) = (page - 1) * size ∧ 0 ≤ int64 ((page - 1) * size)
          ∧ 0 ≤ size)
    ∧ (c.page = none → c.size = none →
        page = 1 ∧ size = 5 ∧ int64 ((page - 1) * size) = 0) := by
  refine ⟨?_, GetStatements_head r page size db, ?_, ?_⟩
  · simp only [UserHTTPHandler.GetCalls, UserHTTPHandler.Get, hpage, hsize,
      UserHTTPHandler.recorded, UserPort.recorded, List.nil_append]
    rcases h.userService.Get page size st with ⟨⟨domainUsers, _ | err⟩, st1⟩ <;> rfl
  · intro h1 h2 h3
    have h0 : 0 ≤ (page - 1) * size := Int.mul_nonneg (by omega) h2
    rw [int64_of_fits _ h0 h3]
    exact ⟨rfl, h0, h2⟩
  · intro hp hs
    rw [hp] at hpage
    rw [hs] at hsize
    have h1 : page = 1 := by
      have : strconv.Atoi "1" = .ok 1 := by rfl
      simp only [DefaultQuery] at hpage
      rw [this] at hpage
      exact (Except.ok.inj hpage).symm
    have h5 : size = 5 := by
      have : strconv.Atoi "5" = .ok 5 := by rfl
      simp only [DefaultQuery] at hsize
      rw [this] at hsize
      exact (Except.ok.inj hsize).symm
    subst h1 h5
    exact ⟨rfl, rfl, by rfl⟩

/-- Witness of `list_parameters_forwarded`: a request without parameters. -/
theorem list_parameters_forwarded_witness :
    (sample.handler sample.allOk).GetCalls { page := none, size := none } 0
      = [PortCall.Get 1 5]
    ∧ (GetStatements (sample.repo (.ok (.ok 0))) 1 5 0).head?
      = some (DbCall.Query Pool.dbRead
          "SELECT id, uuid, email, first_name, last_name, phone_number FROM users WHERE deleted_at IS NULL LIMIT ? OFFSET ?"
          [Value.int 5, Value.int (int64 ((1 - 1) * 5))]) :=
  ⟨(list_parameters_forwarded (sample.handler sample.allOk) (sample.repo (.ok (.ok 0)))
      { page := none, size := none } 0 0 1 5 (by rfl) (by rfl)).1,
   (list_parameters_forwarded (sample.handler sample.allOk) (sample.repo (.ok (.ok 0)))
      { page := none, size := none } 0 0 1 5 (by rfl) (by rfl)).2.1⟩

end handlers

namespace mysql

open user service

variable {σ : Type}

/-- Every user the loop of `Get` adds is built from one of the rows it was given, and it
adds at most one user per row. -/
theorem scanUsers_from_rows (r : userRepository σ) (rows : List (Except Err entity.DbUser))
    (domainUsers : List User) (st : σ) :
    (∀ u ∈ (r.scanUsers rows domainUsers st).1.1,
        u ∈ domainUsers ∨ ∃ dbUser addresses, Except.ok dbUser ∈ rows
          ∧ u = r.domainUser dbUser addresses)
    ∧ (r.scanUsers rows domainUsers st).1.1.length ≤ domainUsers.length + rows.length := by
  induction rows generalizing domainUsers st with
  | nil => simp [userRepository.scanUsers]
  | cons row rest ih =>
    cases row with
    | error err => simp [userRepository.scanUsers]
    | ok dbUser =>
      simp only [userRepository.scanUsers]
      split
      · simp
      · split
        · simp
        · next addresses _ =>
          obtain ⟨h1, h2⟩ := ih (domainUsers ++ [r.domainUser dbUser addresses]) _
          constructor
          · intro u hu
            rcases h1 u hu with h | ⟨d, a, hd, ha⟩
            · rcases List.mem_append.1 h with h | h
              · exact Or.inl h
              · simp only [List.mem_singleton] at h
                exact Or.inr ⟨dbUser, addresses, List.mem_cons_self _ _, h⟩
            · exact Or.inr ⟨d, a, List.mem_cons_of_mem _ hd, ha⟩
          · simp only [List.length_append, List.length_cons, List.length_nil] at h2 ⊢
            omega

end mysql

namespace store

open user mysql

/-- The read of a page of users on the tables: the rows that are not deleted, `offset`
of them skipped and at most `limit` taken. -/
theorem queryUsers_page (limit offset : Int) (t : Tables) :
    queryUsers
        "SELECT id, uuid, email, first_name, last_name, phone_number FROM users WHERE deleted_at IS NULL LIMIT ? OFFSET ?"
        [Value.int limit, Value.int offset] t
      = if limit < 0 ∨ offset < 0 then
          .error (Err.MySQLError 1064 "You have an error in your SQL syntax")
        else
          .ok ((((t.users.filter (fun u => decide (u.deleted_at = none))).drop
            offset.toNat).take limit.toNat).map (fun u => .ok (dbUser u))) := by
  rfl

/-- What the read of a page of users answers: an error, or rows of users that are not
deleted, at most `limit` of them, with `limit` not negative. -/
theorem QueryUsers_rows (p : Pool) (limit offset : Int) (st : Store) :
    (∃ err, (driver.QueryUsers p
        "SELECT id, uuid, email, first_name, last_name, phone_number FROM users WHERE deleted_at IS NULL LIMIT ? OFFSET ?"
        [Value.int limit, Value.int offset] st).1 = .error err)
    ∨ ∃ page : List UserRow, (driver.QueryUsers p
        "SELECT id, uuid, email, first_name, last_name, phone_number FROM users WHERE deleted_at IS NULL LIMIT ? OFFSET ?"
        [Value.int limit, Value.int offset] st).1 = .ok (page.map (fun u => .ok (dbUser u)))
      ∧ 0 ≤ limit ∧ (page.length : Int) ≤ limit
      ∧ ∀ row ∈ page, row ∈ st.tables.users ∧ row.deleted_at = none := by
  simp only [driver]
  cases hf : st.fault with
  | some err => exact Or.inl ⟨err, rfl⟩
  | none =>
    simp only [queryUsers_page]
    by_cases hneg : limit < 0 ∨ offset < 0
    · exact Or.inl ⟨Err.MySQLError 1064 "You have an error in your SQL syntax", by
        simp [hneg]⟩
    · refine Or.inr ⟨((st.tables.users.filter (fun u => decide (u.deleted_at = none))).drop
        offset.toNat).take limit.toNat, by simp [hneg], by omega, ?_, ?_⟩
      · have h1 := List.length_take_le limit.toNat
          ((st.tables.users.filter (fun u => decide (u.deleted_at = none))).drop offset.toNat)
        have h2 : (limit.toNat : Int) = limit := Int.toNat_of_nonneg (by omega)
        omega
      · intro row hrow
        have h1 := List.mem_of_mem_drop (List.mem_of_mem_take hrow)
        simpa using h1

end store

namespace mysql

open user service

/-- The users of a page come from rows that are not deleted, at most `pageSize` of them;
no user is returned for a negative page size. -/
theorem Get_on_store (Parse : String → Except Err uuid.UUID) (page pageSize : Int)
    (st : store.Store) :
    (0 ≤ pageSize →
        (((store.repo Parse).Get page pageSize st).1.1.length : Int) ≤ pageSize)
    ∧ (pageSize < 0 → ((store.repo Parse).Get page pageSize st).1.1 = [])
    ∧ (∀ u ∈ ((store.repo Parse).Get page pageSize st).1.1,
        ∃ row ∈ st.tables.users, row.deleted_at = none ∧ u.Email = row.email
          ∧ u.FirstName = row.first_name ∧ u.LastName = row.last_name
          ∧ u.PhoneNumber = row.phone_number) := by
  have hdb : (store.repo Parse).db = store.driver := rfl
  simp only [userRepository.Get, hdb]
  rcases hq : store.driver.QueryUsers Pool.dbRead
    "SELECT id, uuid, email, first_name, last_name, phone_number FROM users WHERE deleted_at IS NULL LIMIT ? OFFSET ?"
    [Value.int pageSize, Value.int (int64 ((page - 1) * pageSize))] st with ⟨res, st1⟩
  have hrows := store.QueryUsers_rows Pool.dbRead pageSize (int64 ((page - 1) * pageSize)) st
  rw [hq] at hrows
  rcases hrows with ⟨err, he⟩ | ⟨rows, hr, h0, hlen, hlive⟩
  · simp only at he
    subst he
    simp
  · simp only at hr
    subst hr
    simp only
    obtain ⟨h1, h2⟩ := scanUsers_from_rows (store.repo Parse)
      (rows.map (fun u => Except.ok (store.dbUser u))) [] st1
    refine ⟨fun _ => ?_, fun hneg => absurd h0 (by omega), ?_⟩
    · simp only [List.length_nil, List.length_map, Nat.zero_add] at h2
      omega
    · intro u hu
      rcases h1 u hu with h | ⟨dbUser, addresses, hd, rfl⟩
      · simp at h
      · obtain ⟨row, hrow, hrd⟩ := List.mem_map.1 hd
        have hrd2 : store.dbUser row = dbUser := Except.ok.inj hrd
        subst hrd2
        exact ⟨row, (hlive row hrow).1, (hlive row hrow).2, rfl, rfl, rfl, rfl⟩

/-- C24 as stated fails.  For the page size -1 repository `Get` returns no user, which is
not "at most -1 entries"; and for the page 4611686018427387905 with the page size 4 the
offset it sends is 0, not the product 18446744073709551616, so that this page is the first
page again. -/
theorem Get_not_for_every_page_and_size :
    ((store.repo sample.Parse).Get 1 (-1) (sample.stored [])).1.1 = []
    ∧ ¬ ((((store.repo sample.Parse).Get 1 (-1) (sample.stored [])).1.1.length : Int) ≤ -1)
    ∧ (GetStatements (store.repo sample.Parse) 4611686018427387905 4 (sample.stored [])).head?
      = some (DbCall.Query Pool.dbRead
          "SELECT id, uuid, email, first_name, last_name, phone_number FROM users WHERE deleted_at IS NULL LIMIT ? OFFSET ?"
          [Value.int 4, Value.int 0])
    ∧ ((4611686018427387905 : Int) - 1) * 4 ≠ 0
    ∧ ((store.repo sample.Parse).Get 4611686018427387905 4 (sample.stored [])).1
      = ((store.repo sample.Parse).Get 1 4 (sample.stored [])).1
    ∧ ((store.repo sample.Parse).Get 1 4 (sample.stored [])).1
      = ([{ sample.user1 with Password := "" }], none) := by
  refine ⟨by rfl, by decide, by rfl, by decide, by rfl, by rfl⟩

/-- C24 amended: for every page and page size, the statement repository `Get` sends
selects the users whose `deleted_at` is NULL with the page size as limit and the 64-bit
product `(page - 1) * pageSize` as offset, which is the exact product whenever that is not
negative and fits the 64-bit integer.  On the store, whatever it holds and whichever of
its reads fail, every user returned is built from a row that is not deleted; for a page
size that is not negative the list has at most that many entries, and for a negative page
size it is empty. -/
theorem Get_selects_live_users (Parse : String → Except Err uuid.UUID)
    (page pageSize : Int) (st : store.Store) :
    (GetStatements (store.repo Parse) page pageSize st).head?
      = some (DbCall.Query Pool.dbRead
          "SELECT id, uuid, email, first_name, last_name, phone_number FROM users WHERE deleted_at IS NULL LIMIT ? OFFSET ?"
          [Value.int pageSize, Value.int (int64 ((page - 1) * pageSize))])
    ∧ (0 ≤ (page - 1) * pageSize → (page - 1) * pageSize ≤ 2 ^ 63 - 1 →
        int64 ((page - 1) * pageSize) = (page - 1) * pageSize)
    ∧ (0 ≤ pageSize →
        (((store.repo Parse).Get page pageSize st).1.1.length : Int) ≤ pageSize)
    ∧ (pageSize < 0 → ((store.repo Parse).Get page pageSize st).1.1 = [])
    ∧ (∀ u ∈ ((store.repo Parse).Get page pageSize st).1.1,
        ∃ row ∈ st.tables.users, row.deleted_at = none ∧ u.Email = row.email
          ∧ u.FirstName = row.first_name ∧ u.LastName = row.last_name
          ∧ u.PhoneNumber = row.phone_number) :=
  ⟨GetStatements_head (store.repo Parse) page pageSize st,
    fun h0 h1 => int64_of_fits _ h0 h1,
    (Get_on_store Parse page pageSize st).1,
    (Get_on_store Parse page pageSize st).2.1,
    (Get_on_store Parse page pageSize st).2.2⟩

/-- Witness of `Get_selects_live_users`: the first page of size 5 of the store that holds
`user1` is that user, and it is empty once the user is deleted. -/
theorem Get_selects_live_users_witness :
    ((store.repo sample.Parse).Get 1 5 (sample.stored [])).1
      = ([{ sample.user1 with Password := "" }], none)
    ∧ ((store.repo sample.Parse).Get 1 5 sample.afterDelete).1 = ([], none)
    ∧ ((((store.repo sample.Parse).Get 1 5 (sample.stored [])).1.1.length : Int) ≤ 5) :=
  ⟨by rfl, by rfl,
    (Get_selects_live_users sample.Parse 1 5 (sample.stored [])).2.2.1 (by decide)⟩

end mysql

namespace uuid

/-- Reading bytes most significant first: a byte more at the end. -/
theorem foldl_bytes_append (l : List Nat) (x : Nat) :
    (l ++ [x]).foldl (fun acc b => acc * 256 + b) 0
      = l.foldl (fun acc b => acc * 256 + b) 0 * 256 + x := by
  simp [List.foldl_append]

/-- The `k` low bytes of `n`, most significant first, read back give `n` modulo `256 ^ k`. -/
theorem foldl_bytes_of (k n : Nat) :
    ((List.range k).map (fun i => n / 256 ^ (k - 1 - i) % 256)).foldl
      (fun acc b => acc * 256 + b) 0 = n % 256 ^ k := by
  induction k generalizing n with
  | zero => simp [Nat.mod_one]
  | succ k ih =>
    have hmap : (List.range (k + 1)).map (fun i => n / 256 ^ (k + 1 - 1 - i) % 256)
        = (List.range k).map (fun i => (n / 256) / 256 ^ (k - 1 - i) % 256) ++ [n % 256] := by
      rw [List.range_succ, List.map_append]
      congr 1
      · apply List.map_congr_left
        intro i hi
        have hik : i < k := List.mem_range.1 hi
        have : k + 1 - 1 - i = (k - 1 - i) + 1 := by omega
        rw [this, pow_succ, Nat.mul_comm, Nat.div_div_eq_div_mul]
      · simp
    rw [hmap, foldl_bytes_append, ih (n / 256), pow_succ]
    rw [Nat.mul_comm (256 ^ k) 256, Nat.mod_mul]
    ring

/-- The 16 bytes of a UUID read back give the UUID. -/
theorem fromBytes_byte (u : UUID) :
    fromBytes [u.byte 0, u.byte 1, u.byte 2, u.byte 3, u.byte 4, u.byte 5, u.byte 6, u.byte 7,
      u.byte 8, u.byte 9, u.byte 10, u.byte 11, u.byte 12, u.byte 13, u.byte 14, u.byte 15]
      = u := by
  apply Fin.ext
  have hu : u.val < 2 ^ 128 := u.isLt
  have h := foldl_bytes_of 16 u.val
  have hl : (List.range 16).map (fun i => u.val / 256 ^ (16 - 1 - i) % 256)
      = [u.byte 0, u.byte 1, u.byte 2, u.byte 3, u.byte 4, u.byte 5, u.byte 6, u.byte 7,
      u.byte 8, u.byte 9, u.byte 10, u.byte 11, u.byte 12, u.byte 13, u.byte 14, u.byte 15] := by
    rfl
  rw [hl] at h
  simp only [fromBytes]
  rw [h]
  have h256 : (256 : Nat) ^ 16 = 2 ^ 128 := by norm_num
  rw [h256, Nat.mod_mod, Nat.mod_eq_of_lt hu]

/-- A byte of a UUID is a byte. -/
theorem byte_lt (u : UUID) (i : Nat) : u.byte i < 256 := Nat.mod_lt _ (by decide)

/-- The text of a lower-case hexadecimal digit is one byte, its code. -/
theorem utf8_digit (k : Nat) (h : k < 16) :
    utf8 ("0123456789abcdef".toList.getD k '0') = [hexCode k] := by
  have : ∀ k : Fin 16, utf8 ("0123456789abcdef".toList.getD k.val '0') = [hexCode k.val] := by
    decide
  exact this ⟨k, h⟩

/-- Two hexadecimal digits as produced for a byte are read back as that byte. -/
theorem xtob_hexPair (b : Nat) (h : b < 256) :
    xtob (hexCode (b / 16 % 16)) (hexCode (b % 16)) = some b := by
  have : ∀ hi lo : Fin 16, xtob (hexCode hi.val) (hexCode lo.val)
      = some (hi.val * 16 + lo.val) := by
    decide
  have h2 := this ⟨b / 16 % 16, Nat.mod_lt _ (by decide)⟩ ⟨b % 16, Nat.mod_lt _ (by decide)⟩
  simp only at h2
  rw [h2]
  congr 1
  omega

/-- The bytes of the two digits of `hexByte`. -/
theorem hexByte_bytes (b : Nat) : (hexByte b).flatMap utf8 = hexPair b := by
  simp only [hexByte, hexPair, List.flatMap_cons, List.flatMap_nil, List.append_nil,
    utf8_digit _ (Nat.mod_lt _ (by decide : 16 > 0))]
  rfl

/-- The bytes of the text of a UUID are its canonical form. -/
theorem bytes_String (u : UUID) : bytes u.String = canonical u.byte := by
  have hhex : ∀ i n, (u.hex i n).flatMap utf8
      = ((List.range n).map (fun k => hexPair (u.byte (i + k)))).flatten := by
    intro i n
    simp only [UUID.hex, List.flatMap_def, List.map_flatten, List.map_map, List.flatten_flatten]
    congr 1
    apply List.map_congr_left
    intro k _
    have := hexByte_bytes (u.byte (i + k))
    simpa [List.flatMap_def] using this
  have hdash : utf8 '-' = [45] := by decide
  have r4 : List.range 4 = [0, 1, 2, 3] := by decide
  have r2 : List.range 2 = [0, 1] := by decide
  have r6 : List.range 6 = [0, 1, 2, 3, 4, 5] := by decide
  simp only [bytes, UUID.String, String.toList, List.flatMap_append, hhex, List.flatMap_cons,
    List.flatMap_nil, hdash, r4, r2, r6, List.map_cons, List.map_nil, List.flatten_cons,
    List.flatten_nil, List.append_nil, Nat.add_zero, Nat.reduceAdd, canonical,
    List.append_assoc]

/-- The end of `Parse` reads the canonical form of 16 bytes, whatever follows it, as
those bytes. -/
theorem parseHyphenated_canonical (b : Nat → Nat) (hb : ∀ i, b i < 256) (tail : List Nat) :
    parseHyphenated (canonical b ++ tail)
      = .ok (fromBytes [b 0, b 1, b 2, b 3, b 4, b 5, b 6, b 7, b 8, b 9, b 10, b 11, b 12,
          b 13, b 14, b 15]) := by
  have hx : ∀ i, xtob (hexCode (b i / 16 % 16)) (hexCode (b i % 16)) = some (b i) :=
    fun i => xtob_hexPair _ (hb i)
  simp [parseHyphenated, canonical, hexPair, decode, hx]

/-- The canonical form has 36 bytes. -/
theorem canonical_length (b : Nat → Nat) : (canonical b).length = 36 := by
  simp [canonical, hexPair]

/-- The 32 digits without hyphens have 32 bytes. -/
theorem rawHex_length (b : Nat → Nat) : (rawHex b).length = 32 := by
  simp [rawHex, hexPair]

/-- The function `Parse` reads, for 16 bytes: their canonical form; the canonical form
after the prefix "urn:uuid:" in any letter case; the canonical form between any two
bytes; and their 32 digits without hyphens. -/
theorem parseBytes_forms (b : Nat → Nat) (hb : ∀ i, b i < 256) (urn : List Nat)
    (hurn : urn.length = 9) (hlower : urn.map lowerByte = bytes "urn:uuid:") (x y : Nat) :
    parseBytes (canonical b)
      = .ok (fromBytes [b 0, b 1, b 2, b 3, b 4, b 5, b 6, b 7, b 8, b 9, b 10, b 11, b 12,
          b 13, b 14, b 15])
    ∧ parseBytes (urn ++ canonical b)
      = .ok (fromBytes [b 0, b 1, b 2, b 3, b 4, b 5, b 6, b 7, b 8, b 9, b 10, b 11, b 12,
          b 13, b 14, b 15])
    ∧ parseBytes ([x] ++ canonical b ++ [y])
      = .ok (fromBytes [b 0, b 1, b 2, b 3, b 4, b 5, b 6, b 7, b 8, b 9, b 10, b 11, b 12,
          b 13, b 14, b 15])
    ∧ parseBytes (rawHex b)
      = .ok (fromBytes [b 0, b 1, b 2, b 3, b 4, b 5, b 6, b 7, b 8, b 9, b 10, b 11, b 12,
          b 13, b 14, b 15]) := by
  have hc := parseHyphenated_canonical b hb
  refine ⟨?_, ?_, ?_, ?_⟩
  · have h := hc []
    rw [List.append_nil] at h
    simp only [parseBytes, canonical_length, if_true, h]
  · have hl : (urn ++ canonical b).length = 36 + 9 := by
      rw [List.length_append, canonical_length, hurn]
    have ht : (urn ++ canonical b).take 9 = urn := by
      rw [← hurn, List.take_left']
      rfl
    have hd : (urn ++ canonical b).drop 9 = canonical b := by
      rw [← hurn, List.drop_left']
      rfl
    have h := hc []
    rw [List.append_nil] at h
    unfold parseBytes
    rw [hl, ht, hd, if_neg (by decide : ¬ (36 + 9 = 36)), if_pos rfl,
      if_neg (by simp [hlower]), h]
  · have hl : ([x] ++ canonical b ++ [y]).length = 36 + 2 := by
      simp [canonical_length]
    have hd : ([x] ++ canonical b ++ [y]).drop 1 = canonical b ++ [y] := by simp
    unfold parseBytes
    rw [hl, hd, if_neg (by decide : ¬ (36 + 2 = 36)),
      if_neg (by decide : ¬ (36 + 2 = 36 + 9)), if_pos rfl, hc [y]]
  · have hx : ∀ i, xtob (hexCode (b i / 16 % 16)) (hexCode (b i % 16)) = some (b i) :=
      fun i => xtob_hexPair _ (hb i)
    have hl := rawHex_length b
    unfold parseBytes
    rw [hl, if_neg (by decide : ¬ (32 = 36)), if_neg (by decide : ¬ (32 = 36 + 9)),
      if_neg (by decide : ¬ (32 = 36 + 2)), if_pos rfl]
    simp [rawHex, hexPair, decode, hx]

end uuid

namespace uuid

/-- The bytes of a text put together from two texts. -/
theorem bytes_append (a b : String) : bytes (a ++ b) = bytes a ++ bytes b := by
  simp [bytes, String.toList, String.data_append, List.flatMap_append]

/-- The function `Parse` reads the text of a UUID as that UUID. -/
theorem Parse_String (u : UUID) : Parse u.String = .ok u := by
  rw [Parse, bytes_String, (parseBytes_forms u.byte (byte_lt u) (bytes "urn:uuid:") (by decide)
    (by decide) 0 0).1, fromBytes_byte]

/-- The bytes of the 32 digits of a UUID. -/
theorem bytes_hex (u : UUID) : bytes (String.mk (u.hex 0 16)) = rawHex u.byte := by
  have r16 : List.range 16 = [0, 1, 2, 3, 4, 5, 6, 7, 8, 9, 10, 11, 12, 13, 14, 15] := by
    decide
  simp only [bytes, String.toList, UUID.hex, r16, List.map_cons, List.map_nil,
    List.flatten_cons, List.flatten_nil, List.flatMap_append, hexByte_bytes,
    List.flatMap_nil, List.append_nil, Nat.zero_add, rawHex, List.append_assoc]

end uuid

namespace uuid

/-- The table `xvalues` reads a letter of either case alike. -/
theorem xvalues_lowerByte (b : Nat) : xvalues (lowerByte b) = xvalues b := by
  unfold xvalues lowerByte
  split_ifs <;> omega

/-- `xtob` reads letters of either case alike. -/
theorem xtob_lowerByte (x1 x2 : Nat) : xtob (lowerByte x1) (lowerByte x2) = xtob x1 x2 := by
  simp only [xtob, xvalues_lowerByte]

/-- A byte is a hyphen after lower-casing exactly when it is one before. -/
theorem lowerByte_eq_hyphen (b : Nat) : lowerByte b = 45 ↔ b = 45 := by
  unfold lowerByte
  split_ifs <;> omega

/-- Lower-casing twice is lower-casing once. -/
theorem lowerByte_lowerByte (b : Nat) : lowerByte (lowerByte b) = lowerByte b := by
  unfold lowerByte
  split_ifs <;> omega

/-- The byte at an offset of a lower-cased text. -/
theorem getD_map_lowerByte (s : List Nat) (i : Nat) :
    (s.map lowerByte).getD i 0 = lowerByte (s.getD i 0) := by
  induction s generalizing i with
  | nil => rfl
  | cons a rest ih =>
      cases i with
      | zero => rfl
      | succ i => simpa using ih i

/-- The pairs of digits of a text are read alike in either case. -/
theorem decode_map_lowerByte (s offs : List Nat) :
    decode (s.map lowerByte) offs = decode s offs := by
  induction offs with
  | nil => rfl
  | cons x rest ih =>
      simp only [decode, getD_map_lowerByte, xtob_lowerByte, ih]

/-- The hyphenated form is read alike in either case. -/
theorem parseHyphenated_map_lowerByte (s : List Nat) :
    parseHyphenated (s.map lowerByte) = parseHyphenated s := by
  simp only [parseHyphenated, getD_map_lowerByte, decode_map_lowerByte, ne_eq,
    lowerByte_eq_hyphen]

/-- The parser reads every text as it reads the text with its upper-case letters made
lower-case. -/
theorem parseBytes_map_lowerByte (s : List Nat) :
    parseBytes (s.map lowerByte) = parseBytes s := by
  have h9 : ((s.map lowerByte).take 9).map lowerByte = (s.take 9).map lowerByte := by
    rw [← List.map_take, List.map_map]
    congr 1
    funext b
    exact lowerByte_lowerByte b
  simp only [parseBytes, List.length_map, h9, ← List.map_drop, parseHyphenated_map_lowerByte,
    decode_map_lowerByte]

/-- The byte of a hexadecimal digit in lower case is left as it is by lower-casing. -/
theorem lowerByte_hexCode (k : Nat) (hk : k < 16) : lowerByte (hexCode k) = hexCode k := by
  unfold lowerByte hexCode
  split_ifs <;> omega

/-- The two digits of a byte are lower-case. -/
theorem map_lowerByte_hexPair (b : Nat) : (hexPair b).map lowerByte = hexPair b := by
  simp [hexPair, lowerByte_hexCode _ (Nat.mod_lt _ (by decide : 0 < 16))]

/-- The canonical form is lower-case. -/
theorem map_lowerByte_canonical (b : Nat → Nat) : (canonical b).map lowerByte = canonical b := by
  have h45 : lowerByte 45 = 45 := by decide
  simp only [canonical, List.map_append, map_lowerByte_hexPair, List.map_cons, List.map_nil, h45]

/-- The form without hyphens is lower-case. -/
theorem map_lowerByte_rawHex (b : Nat → Nat) : (rawHex b).map lowerByte = rawHex b := by
  simp only [rawHex, List.map_append, map_lowerByte_hexPair]

/-- A byte has a value in the table `xvalues` exactly when it is a hexadecimal digit. -/
theorem xvalues_ne_255 (b : Nat) : xvalues b ≠ 255 ↔ isHexDigit b := by
  unfold xvalues isHexDigit
  split_ifs <;> omega

/-- `xtob` gives a byte exactly for two hexadecimal digits. -/
theorem xtob_isSome (x1 x2 : Nat) : (xtob x1 x2).isSome ↔ isHexDigit x1 ∧ isHexDigit x2 := by
  unfold xtob
  rw [← xvalues_ne_255, ← xvalues_ne_255]
  split_ifs with h
  · simp [h]
  · simp [h]

/-- The pairs at the given offsets are read exactly when each is two hexadecimal digits. -/
theorem decode_isSome (s offs : List Nat) :
    (decode s offs).isSome ↔
      ∀ x ∈ offs, isHexDigit (s.getD x 0) ∧ isHexDigit (s.getD (x + 1) 0) := by
  induction offs with
  | nil => simp [decode]
  | cons x rest ih =>
      rw [List.forall_mem_cons, ← ih, ← xtob_isSome, decode]
      cases h1 : xtob (s.getD x 0) (s.getD (x + 1) 0) <;> cases h2 : decode s rest <;> simp

/-- The end of `Parse` succeeds exactly on the hyphenated form. -/
theorem parseHyphenated_ok_iff (s : List Nat) :
    (∃ u, parseHyphenated s = .ok u) ↔ hyphenatedForm s := by
  unfold parseHyphenated hyphenatedForm
  rw [← decode_isSome, pairOffsets36]
  split_ifs with h
  · constructor
    · rintro ⟨u, hu⟩
      cases hu
    · rintro ⟨h1, h2, h3, h4, _⟩
      omega
  · have h1 : s.getD 8 0 = 45 := by omega
    have h2 : s.getD 13 0 = 45 := by omega
    have h3 : s.getD 18 0 = 45 := by omega
    have h4 : s.getD 23 0 = 45 := by omega
    cases hd : decode s [0, 2, 4, 6, 9, 11, 14, 16, 19, 21, 24, 26, 28, 30, 32, 34] with
    | none =>
        constructor
        · rintro ⟨u, hu⟩
          cases hu
        · rintro ⟨_, _, _, _, hn⟩
          cases hn
    | some bs => exact ⟨fun _ => ⟨h1, h2, h3, h4, rfl⟩, fun _ => ⟨_, rfl⟩⟩

/-- The parser succeeds exactly on the four forms. -/
theorem parseBytes_ok_iff (s : List Nat) : (∃ u, parseBytes s = .ok u) ↔ acceptedForm s := by
  unfold parseBytes acceptedForm
  rw [← decode_isSome, pairOffsets32, ← parseHyphenated_ok_iff, ← parseHyphenated_ok_iff,
    ← parseHyphenated_ok_iff]
  by_cases h36 : s.length = 36
  · simp [h36]
  by_cases h45 : s.length = 45
  · by_cases hp : (s.take 9).map lowerByte = bytes "urn:uuid:"
    · simp [h45, hp]
    · rw [if_neg h36, if_pos (by omega), if_pos (by simpa using hp)]
      constructor
      · rintro ⟨u, hu⟩
        cases hu
      · rintro (⟨h, _⟩ | ⟨_, h, _⟩ | ⟨h, _⟩ | ⟨h, _⟩)
        · omega
        · exact absurd h hp
        · omega
        · omega
  by_cases h38 : s.length = 38
  · simp [h38]
  by_cases h32 : s.length = 32
  · cases hd : decode s [0, 2, 4, 6, 8, 10, 12, 14, 16, 18, 20, 22, 24, 26, 28, 30] with
    | none => simp [h32]
    | some bs => simp [h32]
  · simp [h36, h45, h38, h32]

end uuid

namespace domain

/-- C21 as stated fails.  `ParseID` with the parser of the library accepts the text of an
identifier with the prefix "urn:uuid:", between braces, as 32 digits without hyphens and
in upper case, none of which is the text that `String` produces. -/
theorem ParseID_accepts_other_forms :
    sample.id1.String = "6ba7b810-9dad-11d1-80b4-00c04fd430c8"
    ∧ ParseID uuid.Parse "urn:uuid:6ba7b810-9dad-11d1-80b4-00c04fd430c8" = .ok sample.id1
    ∧ ParseID uuid.Parse "\x7b6ba7b810-9dad-11d1-80b4-00c04fd430c8\x7d" = .ok sample.id1
    ∧ ParseID uuid.Parse "6ba7b8109dad11d180b400c04fd430c8" = .ok sample.id1
    ∧ ParseID uuid.Parse "6BA7B810-9DAD-11D1-80B4-00C04FD430C8" = .ok sample.id1
    ∧ "urn:uuid:6ba7b810-9dad-11d1-80b4-00c04fd430c8" ≠ sample.id1.String
    ∧ "\x7b6ba7b810-9dad-11d1-80b4-00c04fd430c8\x7d" ≠ sample.id1.String
    ∧ "6ba7b8109dad11d180b400c04fd430c8" ≠ sample.id1.String
    ∧ "6BA7B810-9DAD-11D1-80B4-00C04FD430C8" ≠ sample.id1.String := by
  refine ⟨by rfl, by rfl, by rfl, by rfl, by rfl, by decide, by decide, by decide, by decide⟩

/-- C21 amended: `ParseID` adds no check to the parser it calls: it succeeds exactly when
the parser does, with the identifier of the value parsed, and fails with the error of the
parser otherwise.  With the parser of the library it succeeds exactly on the texts of the
four forms of `uuid.acceptedForm` (hyphenated, after the prefix "urn:uuid:", between two
bytes, 32 digits without hyphens; hexadecimal digits of either case in each), and the case
of the letters makes no difference: two texts that are the same once their upper-case
letters are made lower-case get the same result.  For every identifier it accepts, with
that identifier as result, the text that `String` produces, that text after the prefix
"urn:uuid:", that text between braces, the 32 digits of that text without hyphens, and
every text that differs from the text of `String` only in the case of its letters; and
every text it accepts has 36, 45, 38 or 32 bytes. -/
theorem ParseID_accepts_what_Parse_accepts (Parse : String → Except Err uuid.UUID)
    (s t : String) (u : uuid.UUID) :
    (∀ v, ParseID Parse s = .ok { value := v } ↔ Parse s = .ok v)
    ∧ (∀ e, ParseID Parse s = .error e ↔ Parse s = .error e)
    ∧ ((∃ id, ParseID uuid.Parse s = .ok id) ↔ uuid.acceptedForm (uuid.bytes s))
    ∧ ((uuid.bytes t).map uuid.lowerByte = (uuid.bytes s).map uuid.lowerByte →
        ParseID uuid.Parse t = ParseID uuid.Parse s)
    ∧ ParseID uuid.Parse u.String = .ok { value := u }
    ∧ ParseID uuid.Parse ("urn:uuid:" ++ u.String) = .ok { value := u }
    ∧ ParseID uuid.Parse ("\x7b" ++ u.String ++ "\x7d") = .ok { value := u }
    ∧ ParseID uuid.Parse (String.mk (u.hex 0 16)) = .ok { value := u }
    ∧ ((uuid.bytes t).map uuid.lowerByte = uuid.bytes u.String →
        ParseID uuid.Parse t = .ok { value := u })
    ∧ (∀ id, ParseID uuid.Parse s = .ok id →
        (uuid.bytes s).length = 36 ∨ (uuid.bytes s).length = 45
          ∨ (uuid.bytes s).length = 38 ∨ (uuid.bytes s).length = 32) := by
  have hforms := uuid.parseBytes_forms u.byte (uuid.byte_lt u) (uuid.bytes "urn:uuid:")
    (by decide) (by decide) 123 125
  rw [uuid.fromBytes_byte] at hforms
  refine ⟨?_, ?_, ?_, ?_, ?_, ?_, ?_, ?_, ?_, ?_⟩
  · intro v
    cases h : Parse s <;> simp [ParseID, h]
  · intro e
    cases h : Parse s <;> simp [ParseID, h]
  · rw [← uuid.parseBytes_ok_iff]
    cases h : uuid.parseBytes (uuid.bytes s) <;> simp [ParseID, uuid.Parse, h]
  · intro hcase
    have : uuid.Parse t = uuid.Parse s := by
      rw [uuid.Parse, uuid.Parse, ← uuid.parseBytes_map_lowerByte (uuid.bytes t), hcase,
        uuid.parseBytes_map_lowerByte]
    simp [ParseID, this]
  · simp [ParseID, uuid.Parse_String]
  · have : uuid.Parse ("urn:uuid:" ++ u.String) = .ok u := by
      rw [uuid.Parse, uuid.bytes_append, uuid.bytes_String, hforms.2.1]
    simp [ParseID, this]
  · have hb : uuid.bytes "\x7b" = [123] := by decide
    have he : uuid.bytes "\x7d" = [125] := by decide
    have : uuid.Parse ("\x7b" ++ u.String ++ "\x7d") = .ok u := by
      rw [uuid.Parse, uuid.bytes_append, uuid.bytes_append, uuid.bytes_String, hb, he,
        hforms.2.2.1]
    simp [ParseID, this]
  · have : uuid.Parse (String.mk (u.hex 0 16)) = .ok u := by
      rw [uuid.Parse, uuid.bytes_hex, hforms.2.2.2]
    simp [ParseID, this]
  · intro hcase
    have : uuid.Parse t = .ok u := by
      rw [uuid.Parse, ← uuid.parseBytes_map_lowerByte (uuid.bytes t), hcase, ← uuid.Parse,
        uuid.Parse_String]
    simp [ParseID, this]
  · intro id hid
    by_cases h36 : (uuid.bytes s).length = 36
    · exact Or.inl h36
    by_cases h45 : (uuid.bytes s).length = 45
    · exact Or.inr (Or.inl h45)
    by_cases h38 : (uuid.bytes s).length = 38
    · exact Or.inr (Or.inr (Or.inl h38))
    by_cases h32 : (uuid.bytes s).length = 32
    · exact Or.inr (Or.inr (Or.inr h32))
    exfalso
    simp [ParseID, uuid.Parse, uuid.parseBytes, h36, h45, h38, h32] at hid

/-- C21 amended, at an input: the text of the sample identifier in upper case is, in lower
case, the text that `String` produces, and `ParseID` accepts it with that identifier. -/
theorem ParseID_accepts_what_Parse_accepts_witness :
    (uuid.bytes "6BA7B810-9DAD-11D1-80B4-00C04FD430C8").map uuid.lowerByte
        = uuid.bytes sample.uuid1.String
    ∧ ParseID uuid.Parse "6BA7B810-9DAD-11D1-80B4-00C04FD430C8"
        = .ok { value := sample.uuid1 } :=
  ⟨by decide,
   (ParseID_accepts_what_Parse_accepts uuid.Parse "" "6BA7B810-9DAD-11D1-80B4-00C04FD430C8"
      sample.uuid1).2.2.2.2.2.2.2.2.1 (by decide)⟩

/-- C22: for every identifier, `ParseID` of its text succeeds and returns an identifier
that is `Equal` to it (the parser being the one of the library), and `Equal` holds between
two identifiers exactly when their texts are the same. -/
theorem text_round_trip (id other : ID) :
    (∃ parsed, ParseID uuid.Parse id.String = .ok parsed ∧ parsed.Equal id = true)
    ∧ (id.Equal other = true ↔ id.String = other.String) := by
  have hp : ∀ x : ID, ParseID uuid.Parse x.String = .ok x := by
    intro x
    simp [ParseID, ID.String, uuid.Parse_String]
  refine ⟨⟨id, hp id, by simp [ID.Equal]⟩, ?_⟩
  constructor
  · intro h
    simp only [ID.Equal, decide_eq_true_eq] at h
    simp [ID.String, h]
  · intro h
    have h1 := hp id
    rw [h, hp other] at h1
    have h2 : other = id := Except.ok.inj h1
    simp [ID.Equal, h2]

/-- C23 fails on the code.  `MarshalJSON` yields the text of the identifier between double
quotes, and `UnmarshalJSON` on those bytes returns a nil error, but it leaves the
identifier it is called on as it was: for the zero identifier and the bytes of `id1`, the
copy the method works on gets the value of `id1` while the identifier of the caller stays
zero, which is not `Equal` to `id1`. -/
theorem UnmarshalJSON_leaves_identifier (x id : ID) :
    id.MarshalJSON = (uuid.bytes ("\"" ++ id.String ++ "\""), none)
    ∧ x.UnmarshalJSON id.MarshalJSON.1 = some (none, x)
    ∧ ID.unmarshalBody x id.MarshalJSON.1 = some (none, id)
    ∧ ID.UnmarshalJSON { value := uuid.Nil } sample.id1.MarshalJSON.1
        = some (none, { value := uuid.Nil })
    ∧ ID.Equal { value := uuid.Nil } sample.id1 = false := by
  have hq : uuid.bytes "\"" = [34] := by decide
  have hdata : id.MarshalJSON.1 = [34] ++ uuid.canonical id.value.byte ++ [34] := by
    simp only [ID.MarshalJSON, uuid.bytes_append, uuid.bytes_String, hq]
  have hbody : ID.unmarshalBody x id.MarshalJSON.1 = some (none, id) := by
    have hl : ([34] ++ uuid.canonical id.value.byte ++ [34]).length = 38 := by
      simp [uuid.canonical_length]
    have hmid : (([34] ++ uuid.canonical id.value.byte ++ [34]).take (38 - 1)).drop 1
        = uuid.canonical id.value.byte := by
      have h37 : ([34] ++ uuid.canonical id.value.byte).length = 38 - 1 := by
        simp [uuid.canonical_length]
      rw [← h37, List.take_left']
      · simp
      · rfl
    have hparse := (uuid.parseBytes_forms id.value.byte (uuid.byte_lt id.value)
      (uuid.bytes "urn:uuid:") (by decide) (by decide) 0 0).1
    rw [uuid.fromBytes_byte] at hparse
    rw [hdata]
    unfold ID.unmarshalBody
    rw [hl, if_neg (by decide), hmid, hparse]
  refine ⟨rfl, ?_, hbody, by rfl, by rfl⟩
  simp [ID.UnmarshalJSON, hbody]

end domain
